import Mathlib

/-!
# Verification of the pytgf collision engine (`pytgf/logic/physics.py`)

This file gives a shallow embedding, in Lean 4, of the collision-detection and
resolution core of the pytgf repository, and proves (or refutes) the claims of
the specification against it.

Conventions of the embedding:

* Python floats are modelled by `ℚ`.  All quantities manipulated by the engine
  are produced by ring operations and divisions on integer inputs (entity
  positions, extents and speeds are stored as `numpy.int32` by
  `array_format`), so rational arithmetic is exact for them.
* `numpy.ndarray.astype(numpy.int32)` truncates toward zero; it is modelled by
  `ratTrunc`.  Integer `//` (numpy floor division) is `Int.fdiv`, and `%` on a
  positive modulus is `Int.emod` (both agree with numpy's semantics).
* Code that raises an exception is modelled with `Option`/`Except`: `none`
  (resp. `.error`) is the raised exception.
* 2-vectors are pairs; component 0 is `.1` (x) and component 1 is `.2` (y).
-/

/-- Truncation toward zero of a rational, the semantics of
`numpy.ndarray.astype(numpy.int32)` (overflow aside). -/
def ratTrunc (q : ℚ) : ℤ :=
  if 0 ≤ q then ⌊q⌋ else ⌈q⌉

/-- Division that fails instead of dividing by zero.  Used to model the spots
where Python would raise `ZeroDivisionError` (or produce a non-finite float). -/
def safeDiv (a b : ℚ) : Option ℚ :=
  if b = 0 then none else some (a / b)

/-! ## Directions (`Direction`)

Directions are the integer codes of the Python `Direction` enumeration:
`DIRECTION_NONE = -1`, `DIRECTION_NORTH = 0`, `DIRECTION_EAST = 1`,
`DIRECTION_SOUTH = 2`, `DIRECTION_WEST = 3`. -/

def DIRECTION_NONE : ℤ := -1
def DIRECTION_NORTH : ℤ := 0
def DIRECTION_EAST : ℤ := 1
def DIRECTION_SOUTH : ℤ := 2
def DIRECTION_WEST : ℤ := 3

/-- `Direction.next_left`: 90 degrees counterclockwise. -/
def directionNextLeft (d : ℤ) : ℤ :=
  if d = DIRECTION_NONE then DIRECTION_NONE else (d + 3) % 4

/-- `Direction.opposite`: 180 degrees rotation. -/
def directionOpposite (d : ℤ) : ℤ :=
  if d = DIRECTION_NONE then DIRECTION_NONE else (d + 2) % 4

/-! ## Movable segments (`MovableSegment`)

The 1D projection of a moving AABB on one axis: `low`, `high` and `speed`. -/

structure MovableSegment where
  low : ℚ
  high : ℚ
  speed : ℚ
deriving DecidableEq, Repr

namespace MovableSegment

/-- `MovableSegment.__contains__`: `self.high >= other.low and
self.low <= other.high` (the segments touch or overlap). -/
def containsSeg (s o : MovableSegment) : Prop :=
  o.low ≤ s.high ∧ s.low ≤ o.high

instance (s o : MovableSegment) : Decidable (containsSeg s o) :=
  inferInstanceAs (Decidable (o.low ≤ s.high ∧ s.low ≤ o.high))

/-- `MovableSegment.__eq__`: `self.high == other.low or self.low == other.high`
(the segments touch exactly at an endpoint). -/
def eqTouch (s o : MovableSegment) : Prop :=
  s.high = o.low ∨ s.low = o.high

instance (s o : MovableSegment) : Decidable (eqTouch s o) :=
  inferInstanceAs (Decidable (s.high = o.low ∨ s.low = o.high))

/-- `MovableSegment.should_impact`: the segments are strictly disjoint and the
relative velocity closes the gap. -/
def shouldImpact (s o : MovableSegment) : Prop :=
  (s.high < o.low ∧ o.speed < s.speed) ∨ (o.high < s.low ∧ s.speed < o.speed)

instance (s o : MovableSegment) : Decidable (shouldImpact s o) :=
  inferInstanceAs (Decidable ((s.high < o.low ∧ o.speed < s.speed) ∨
    (o.high < s.low ∧ s.speed < o.speed)))

/-- `MovableSegment.should_separate`: `self.speed != other.speed`. -/
def shouldSeparate (s o : MovableSegment) : Prop :=
  s.speed ≠ o.speed

instance (s o : MovableSegment) : Decidable (shouldSeparate s o) :=
  inferInstanceAs (Decidable (s.speed ≠ o.speed))

/-- `MovableSegment.time_of_impact` with total rational division (the guarded
branches only ever divide by a nonzero quantity, see `timeOfImpactChecked`). -/
def timeOfImpact (s o : MovableSegment) : ℚ :=
  if s.speed = o.speed then -1
  else if s.high < o.low then (o.low - s.high) / (s.speed - o.speed)
  else (s.low - o.high) / (o.speed - s.speed)

/-- `MovableSegment.time_of_impact` with the two divisions modelled by
`safeDiv`, so that a division by zero would surface as `none`. -/
def timeOfImpactChecked (s o : MovableSegment) : Option ℚ :=
  if s.speed = o.speed then some (-1)
  else if s.high < o.low then safeDiv (o.low - s.high) (s.speed - o.speed)
  else safeDiv (s.low - o.high) (o.speed - s.speed)

/-- `MovableSegment.time_of_separation`. -/
def timeOfSeparation (s o : MovableSegment) : ℚ :=
  if o.speed < s.speed then (o.high - s.low) / (s.speed - o.speed)
  else (s.high - o.low) / (o.speed - s.speed)

/-- The two segments, moved for a time `t`, touch or overlap. -/
def overlapAt (s o : MovableSegment) (t : ℚ) : Prop :=
  o.low + o.speed * t ≤ s.high + s.speed * t ∧
    s.low + s.speed * t ≤ o.high + o.speed * t

end MovableSegment

/-! ## Claims C9 and C7: the 1D segment primitives -/

/-- **C9**: `MovableSegment.time_of_impact` never divides by zero: with equal
speeds it returns the sentinel `-1` before any division, and in the remaining
branches the divisor is the nonzero speed difference.  The `safeDiv`-guarded
version therefore always succeeds and agrees with the total one. -/
theorem c9_time_of_impact_never_divides_by_zero (s o : MovableSegment) :
    s.timeOfImpactChecked o = some (s.timeOfImpact o) ∧
      (s.speed = o.speed → s.timeOfImpact o = -1) := by
  unfold MovableSegment.timeOfImpactChecked MovableSegment.timeOfImpact safeDiv
  constructor
  · split_ifs with h1 h2 h3 h4 <;> try rfl
    · exact absurd (sub_eq_zero.mp h3) h1
    · exact absurd (sub_eq_zero.mp h4) (fun h => h1 h.symm)
  · intro h
    simp [h]

/-- **C7, counterexample**: `should_separate` is *not* "touching or overlapping
and opening": for the strictly disjoint (and closing) segments `[0,1]` with
speed `1` and `[5,6]` with speed `0` it returns `True` even though the segments
neither touch nor overlap. -/
theorem c7_should_separate_counterexample :
    MovableSegment.shouldSeparate ⟨0, 1, 1⟩ ⟨5, 6, 0⟩ ∧
      ¬ MovableSegment.containsSeg ⟨0, 1, 1⟩ ⟨5, 6, 0⟩ := by
  constructor
  · intro h
    exact absurd h (by norm_num)
  · intro h
    exact absurd h.1 (by norm_num [MovableSegment.containsSeg])

/-- **C7, amended**: `should_separate` returns true exactly when the two
segments have different speeds; and for segments that currently touch or
overlap and have different speeds, `time_of_separation` is the instant at
which they separate: it is nonnegative, and for every nonnegative time `t`
the moved segments touch or overlap iff `t` is at most the returned time. -/
theorem c7_separation_amended (s o : MovableSegment)
    (hc : s.containsSeg o) (hne : s.speed ≠ o.speed) (t : ℚ) (ht : 0 ≤ t) :
    s.shouldSeparate o ∧ 0 ≤ s.timeOfSeparation o ∧
      (s.overlapAt o t ↔ t ≤ s.timeOfSeparation o) := by
  obtain ⟨h1, h2⟩ := hc
  refine ⟨hne, ?_, ?_⟩ <;>
    unfold MovableSegment.timeOfSeparation <;>
    try unfold MovableSegment.overlapAt
  all_goals rcases lt_or_gt_of_ne hne with hr | hr
  · rw [if_neg (not_lt.mpr hr.le)]
    exact div_nonneg (by linarith) (by linarith)
  · rw [if_pos hr]
    exact div_nonneg (by linarith) (by linarith)
  · rw [if_neg (not_lt.mpr hr.le)]
    have hd : 0 < o.speed - s.speed := by linarith
    rw [le_div_iff₀ hd]
    constructor
    · intro hov
      nlinarith [hov.1]
    · intro hle
      constructor
      · nlinarith
      · nlinarith
  · rw [if_pos hr]
    have hd : 0 < s.speed - o.speed := by linarith
    rw [le_div_iff₀ hd]
    constructor
    · intro hov
      nlinarith [hov.2]
    · intro hle
      constructor
      · nlinarith
      · nlinarith

/-- **C7, witness**: the amended theorem applied to the overlapping segments
`[0,3]` (speed 0) and `[2,5]` (speed 1) at time `t = 2`: they separate at time
`1`, so at time `2` they no longer overlap. -/
theorem c7_separation_amended_witness :
    MovableSegment.shouldSeparate ⟨0, 3, 0⟩ ⟨2, 5, 1⟩ ∧
      0 ≤ MovableSegment.timeOfSeparation ⟨0, 3, 0⟩ ⟨2, 5, 1⟩ ∧
      (MovableSegment.overlapAt ⟨0, 3, 0⟩ ⟨2, 5, 1⟩ 2 ↔
        (2 : ℚ) ≤ MovableSegment.timeOfSeparation ⟨0, 3, 0⟩ ⟨2, 5, 1⟩) :=
  c7_separation_amended ⟨0, 3, 0⟩ ⟨2, 5, 1⟩ (by norm_num [MovableSegment.containsSeg])
    (by norm_num) 2 (by norm_num)

/-! ## Axis-aligned bounding boxes (`AxisAlignedBoundingBox`) -/

/-- An axis-aligned bounding box: bottom-left corner `pos` and extents
`bounds`, in exact (rational) coordinates. -/
structure Aabb where
  pos : ℚ × ℚ
  bounds : ℚ × ℚ
deriving DecidableEq, Repr

namespace Aabb

/-- `AxisAlignedBoundingBox.expand`: grow only in the direction of travel
(`position + clip(displacement, max=0)`, `bounds + |displacement|`). -/
def expand (b : Aabb) (d : ℚ × ℚ) : Aabb :=
  ⟨(b.pos.1 + min d.1 0, b.pos.2 + min d.2 0),
   (b.bounds.1 + |d.1|, b.bounds.2 + |d.2|)⟩

/-- `AxisAlignedBoundingBox.intersects`: the boxes overlap with nonempty
interior intersection (edge contact does not count). -/
def intersects (s o : Aabb) : Prop :=
  ¬ ((o.pos.1 + o.bounds.1 ≤ s.pos.1 ∨ s.pos.1 + s.bounds.1 ≤ o.pos.1) ∨
     (o.pos.2 + o.bounds.2 ≤ s.pos.2 ∨ s.pos.2 + s.bounds.2 ≤ o.pos.2))

instance (s o : Aabb) : Decidable (intersects s o) :=
  inferInstanceAs (Decidable (¬ ((o.pos.1 + o.bounds.1 ≤ s.pos.1 ∨ s.pos.1 + s.bounds.1 ≤ o.pos.1) ∨
     (o.pos.2 + o.bounds.2 ≤ s.pos.2 ∨ s.pos.2 + s.bounds.2 ≤ o.pos.2))))

end Aabb

/-! ## Entities and collision snapshots (`Entity`, `CollisionObject`)

`array_format` stores entity positions, extents and speeds as `numpy.int32`,
so the persisted entity state is integral.  Python's subclass-based collider
filtering (`issubclass(type(other), collider)`) is abstracted by a type tag
`etype : ℕ` per entity, a list `colliders` of accepted tags, and a relation
`issub` between tags, supplied as a parameter of the world model. -/

structure Entity where
  pos : ℤ × ℤ
  bounds : ℤ × ℤ
  speed : ℤ × ℤ
  etype : ℕ
  colliders : List ℕ
  collidesWithTiles : Bool
  shouldBeDestroyed : Bool
deriving DecidableEq, Repr

/-- The per-round, immutable snapshot of an entity (`CollisionObject`). -/
structure CollisionObject where
  index : ℕ
  boundingBox : Aabb
  boundingBoxExpanded : Aabb
  speed : ℤ × ℤ
  etype : ℕ
  colliders : List ℕ
  collidesWithTiles : Bool
  localTime : ℚ
deriving DecidableEq, Repr

/-- `CollisionObject.__init__`: float copy of the box, expansion by the
remaining displacement `speed * (1 - local_time)`. -/
def mkCollisionObject (index : ℕ) (e : Entity) (lt : ℚ) : CollisionObject :=
  let bb : Aabb := ⟨((e.pos.1 : ℚ), (e.pos.2 : ℚ)), ((e.bounds.1 : ℚ), (e.bounds.2 : ℚ))⟩
  { index := index
    boundingBox := bb
    boundingBoxExpanded := bb.expand ((e.speed.1 : ℚ) * (1 - lt), (e.speed.2 : ℚ) * (1 - lt))
    speed := e.speed
    etype := e.etype
    colliders := e.colliders
    collidesWithTiles := e.collidesWithTiles
    localTime := lt }

/-- `CollisionObject.should_collide_with`: some accepted collider class is a
superclass of the other object's type. -/
def shouldCollideWith (issub : ℕ → ℕ → Bool) (s o : CollisionObject) : Bool :=
  s.colliders.any (fun c => issub o.etype c)

/-! ## Entity-vs-entity SAT (`WorldUpdater._apply_sat`) -/

/-- The running state of the per-axis loop of `_apply_sat`:
`maximum_time_of_impact`, `minimum_time_of_separation`, `collision_direction`. -/
structure SatState where
  maxToi : ℚ
  minTos : ℚ
  dir : ℤ
deriving DecidableEq, Repr

/-- The 1D projection of a box moving at `speed` onto an axis (`axis = 0` is
x, anything else is y), as built inline by `_apply_sat`. -/
def axisSegment (b : Aabb) (speed : ℤ × ℤ) (axis : ℕ) : MovableSegment :=
  if axis = 0 then ⟨b.pos.1, b.pos.1 + b.bounds.1, (speed.1 : ℚ)⟩
  else ⟨b.pos.2, b.pos.2 + b.bounds.2, (speed.2 : ℚ)⟩

/-- The collided box with its position advanced by
`collided.speed * (collider.local_time - collided.local_time)`, aligning both
boxes at the collider's local time. -/
def alignedCollidedBox (collider collided : CollisionObject) : Aabb :=
  { collided.boundingBox with
    pos := (collided.boundingBox.pos.1 +
              (collided.speed.1 : ℚ) * (collider.localTime - collided.localTime),
            collided.boundingBox.pos.2 +
              (collided.speed.2 : ℚ) * (collider.localTime - collided.localTime)) }

/-- The `should_separate`/`time_of_separation` minimum update of `_apply_sat`,
shared by its disjoint branch and its touching (`==`) branch. -/
def applySatSepUpd (cSeg dSeg : MovableSegment) (s : SatState) : SatState :=
  if cSeg.shouldSeparate dSeg then
    let tos := cSeg.timeOfSeparation dSeg
    if tos < s.minTos then { s with minTos := tos } else s
  else s

/-- The direction written by `_apply_sat` for an axis: east or west from the
sign of the relative speed, rotated left on the y axis. -/
def applySatAxisDirection (axis : ℕ) (d : ℤ) : ℤ :=
  if axis ≠ 0 then directionNextLeft d else d

/-- The `if collider_segment not in collided_segment` branch of one axis
iteration of `_apply_sat`: `none` models the early
`return 1.0, DIRECTION_NONE` taken when the segments are disjoint but not
closing.  The `else: continue` arm of the direction dispatch (relative speed
exactly zero) skips the rest of the loop body, exactly as in the source. -/
def applySatDisjointBranch (axis : ℕ) (cSeg dSeg : MovableSegment) (st : SatState) :
    Option SatState :=
  let rel : ℚ := cSeg.speed - dSeg.speed
  if ¬ cSeg.containsSeg dSeg then
    if cSeg.shouldImpact dSeg then
      let toi := cSeg.timeOfImpact dSeg
      if st.maxToi < toi then
        if 0 < rel then
          some (applySatSepUpd cSeg dSeg
            { st with maxToi := toi, dir := applySatAxisDirection axis DIRECTION_EAST })
        else if rel < 0 then
          some (applySatSepUpd cSeg dSeg
            { st with maxToi := toi, dir := applySatAxisDirection axis DIRECTION_WEST })
        else some { st with maxToi := toi }
      else some (applySatSepUpd cSeg dSeg st)
    else none
  else some st

/-- The `if collider_segment == collided_segment` branch of one axis iteration
of `_apply_sat`: segments touching exactly at an endpoint, with distinct
speeds, while the running maximum impact time is still zero, record a
direction and fold in their separation time. -/
def applySatTouchBranch (axis : ℕ) (cSeg dSeg : MovableSegment) (s : SatState) :
    SatState :=
  let rel : ℚ := cSeg.speed - dSeg.speed
  if cSeg.eqTouch dSeg then
    if cSeg.shouldSeparate dSeg then
      if s.maxToi = 0 then
        if 0 < rel then
          applySatSepUpd cSeg dSeg { s with dir := applySatAxisDirection axis DIRECTION_EAST }
        else if rel < 0 then
          applySatSepUpd cSeg dSeg { s with dir := applySatAxisDirection axis DIRECTION_WEST }
        else s
      else s
    else s
  else s

/-- One iteration of the `for axis in range(2)` loop of `_apply_sat`. -/
def applySatAxis (axis : ℕ) (cSeg dSeg : MovableSegment) (st : SatState) :
    Option SatState :=
  (applySatDisjointBranch axis cSeg dSeg st).map (applySatTouchBranch axis cSeg dSeg)

/-- The body of `WorldUpdater._apply_sat` after the local-time normalization:
runs the two axis iterations over the collider segments and the time-aligned
collided segments, then applies the final collision test
`minimum_time_of_separation > maximum_time_of_impact and
maximum_time_of_impact < 1 - collider.local_time`. -/
def applySatCore (collider collided : CollisionObject) : ℚ × ℤ :=
  let collidedBounds := alignedCollidedBox collider collided
  let st0 : SatState := ⟨0, 1 - collider.localTime, DIRECTION_NONE⟩
  match applySatAxis 0 (axisSegment collider.boundingBox collider.speed 0)
      (axisSegment collidedBounds collided.speed 0) st0 with
  | none => (1, DIRECTION_NONE)
  | some st1 =>
    match applySatAxis 1 (axisSegment collider.boundingBox collider.speed 1)
        (axisSegment collidedBounds collided.speed 1) st1 with
    | none => (1, DIRECTION_NONE)
    | some st =>
      if st.maxToi < st.minTos ∧ st.maxToi < 1 - collider.localTime then
        (collider.localTime + st.maxToi, st.dir)
      else (1, DIRECTION_NONE)

/-- `WorldUpdater._apply_sat`.  The source recurses once when
`collider.local_time < collided.local_time`; after the swap the guard is
false, so the recursion is exactly one conditional swap with a flipped
direction, which is how it is written here. -/
def applySat (collider collided : CollisionObject) : ℚ × ℤ :=
  if collider.localTime < collided.localTime then
    let r := applySatCore collided collider
    (r.1, directionOpposite r.2)
  else applySatCore collider collided

/-! ## Clean per-axis characterization of the SAT loop -/

/-- The direction recorded for an axis from the sign of the relative speed:
east/west on the x axis, rotated to north/south on the y axis. -/
def satAxisDir (axis : ℕ) (rel : ℚ) : ℤ :=
  if 0 < rel then (if axis ≠ 0 then DIRECTION_NORTH else DIRECTION_EAST)
  else (if axis ≠ 0 then DIRECTION_SOUTH else DIRECTION_WEST)

/-- The segments on this axis are strictly disjoint and closing. -/
def satDisjointClosing (cSeg dSeg : MovableSegment) : Prop :=
  ¬ cSeg.containsSeg dSeg ∧ cSeg.shouldImpact dSeg

instance (cSeg dSeg : MovableSegment) : Decidable (satDisjointClosing cSeg dSeg) :=
  inferInstanceAs (Decidable (¬ cSeg.containsSeg dSeg ∧ cSeg.shouldImpact dSeg))

theorem shouldImpact_speed_ne {s o : MovableSegment} (h : s.shouldImpact o) :
    s.speed ≠ o.speed := by
  rcases h with ⟨_, h⟩ | ⟨_, h⟩
  · exact ne_of_gt h
  · exact ne_of_lt h


theorem satDisjointClosing_speed_ne {cSeg dSeg : MovableSegment}
    (h : satDisjointClosing cSeg dSeg) : cSeg.speed ≠ dSeg.speed :=
  shouldImpact_speed_ne h.2

theorem applySatSepUpd_eq (cSeg dSeg : MovableSegment) (s : SatState)
    (h : cSeg.shouldSeparate dSeg) :
    applySatSepUpd cSeg dSeg s =
      { s with minTos := min s.minTos (cSeg.timeOfSeparation dSeg) } := by
  unfold applySatSepUpd
  rw [if_pos h]
  rcases lt_or_le (cSeg.timeOfSeparation dSeg) s.minTos with hlt | hle
  · rw [if_pos hlt, min_eq_right hlt.le]
  · rw [if_neg (not_lt.mpr hle), min_eq_left hle]

theorem applySatPosDirection (axis : ℕ) :
    applySatAxisDirection axis DIRECTION_EAST =
      (if axis ≠ 0 then DIRECTION_NORTH else DIRECTION_EAST) := by
  unfold applySatAxisDirection directionNextLeft
  split_ifs with h h2 <;> first | rfl | (exfalso; revert h2; decide)

theorem applySatNegDirection (axis : ℕ) :
    applySatAxisDirection axis DIRECTION_WEST =
      (if axis ≠ 0 then DIRECTION_SOUTH else DIRECTION_WEST) := by
  unfold applySatAxisDirection directionNextLeft
  split_ifs with h h2 <;> first | rfl | (exfalso; revert h2; decide)

theorem applySatTouchBranch_eq (axis : ℕ) (cSeg dSeg : MovableSegment) (s : SatState) :
    applySatTouchBranch axis cSeg dSeg s =
      if cSeg.eqTouch dSeg ∧ cSeg.shouldSeparate dSeg ∧ s.maxToi = 0 then
        { s with minTos := min s.minTos (cSeg.timeOfSeparation dSeg),
                 dir := satAxisDir axis (cSeg.speed - dSeg.speed) }
      else s := by
  unfold applySatTouchBranch
  by_cases hT : cSeg.eqTouch dSeg
  case neg => rw [if_neg hT, if_neg (by simp [hT])]
  by_cases hS : cSeg.shouldSeparate dSeg
  case neg => rw [if_pos hT, if_neg hS, if_neg (by simp [hS])]
  by_cases hM : s.maxToi = 0
  case neg => rw [if_pos hT, if_pos hS, if_neg hM, if_neg (by simp [hM])]
  have hcond : cSeg.eqTouch dSeg ∧ cSeg.shouldSeparate dSeg ∧ s.maxToi = 0 := ⟨hT, hS, hM⟩
  rw [if_pos hT, if_pos hS, if_pos hM, if_pos hcond]
  have hne : cSeg.speed - dSeg.speed ≠ 0 := sub_ne_zero.mpr hS
  rcases lt_or_gt_of_ne hne with hr | hr
  · rw [if_neg (asymm hr), if_pos hr, applySatSepUpd_eq _ _ _ hS, applySatNegDirection]
    unfold satAxisDir
    rw [if_neg (asymm hr)]
  · rw [if_pos hr, applySatSepUpd_eq _ _ _ hS, applySatPosDirection]
    unfold satAxisDir
    rw [if_pos hr]

theorem applySatDisjointBranch_eq (axis : ℕ) (cSeg dSeg : MovableSegment) (st : SatState) :
    applySatDisjointBranch axis cSeg dSeg st =
      (if ¬ cSeg.containsSeg dSeg ∧ ¬ cSeg.shouldImpact dSeg then none
      else if satDisjointClosing cSeg dSeg then
        some
          { maxToi := max st.maxToi (cSeg.timeOfImpact dSeg)
            minTos := min st.minTos (cSeg.timeOfSeparation dSeg)
            dir :=
              if st.maxToi < cSeg.timeOfImpact dSeg then
                satAxisDir axis (cSeg.speed - dSeg.speed)
              else st.dir }
      else some st) := by
  unfold applySatDisjointBranch
  by_cases hC : cSeg.containsSeg dSeg
  case pos =>
    rw [if_neg (by simp [hC]), if_neg (by simp [hC]),
      if_neg (fun h : satDisjointClosing cSeg dSeg => h.1 hC)]
  by_cases hI : cSeg.shouldImpact dSeg
  case neg =>
    conv_lhs => rw [if_pos (show ¬ cSeg.containsSeg dSeg from hC), if_neg hI]
    conv_rhs => rw [if_pos ⟨hC, hI⟩]
  have hdc : satDisjointClosing cSeg dSeg := ⟨hC, hI⟩
  have hS : cSeg.shouldSeparate dSeg := shouldImpact_speed_ne hI
  have hne : cSeg.speed - dSeg.speed ≠ 0 := sub_ne_zero.mpr hS
  conv_lhs => rw [if_pos (show ¬ cSeg.containsSeg dSeg from hC), if_pos hI]
  conv_rhs => rw [if_neg (show ¬ (¬ cSeg.containsSeg dSeg ∧ ¬ cSeg.shouldImpact dSeg) by simp [hI]), if_pos hdc]
  by_cases hLt : st.maxToi < cSeg.timeOfImpact dSeg
  · rw [if_pos hLt, if_pos hLt]
    rcases lt_or_gt_of_ne hne with hr | hr
    · rw [if_neg (asymm hr), if_pos hr, applySatSepUpd_eq _ _ _ hS,
        applySatNegDirection, max_eq_right hLt.le]
      unfold satAxisDir
      rw [if_neg (asymm hr)]
    · rw [if_pos hr, applySatSepUpd_eq _ _ _ hS, applySatPosDirection,
        max_eq_right hLt.le]
      unfold satAxisDir
      rw [if_pos hr]
  · rw [if_neg hLt, if_neg hLt, applySatSepUpd_eq _ _ _ hS,
      max_eq_left (not_lt.mp hLt)]

/-- What one axis iteration of `_apply_sat` does, in closed form: a
disjoint-but-not-closing axis aborts (`none`); a disjoint-and-closing axis
folds its impact time into the running maximum and its separation time into
the running minimum (recording the direction when it strictly increased the
maximum); an axis whose segments touch exactly, with distinct speeds, while
the maximum is still zero, records the direction and folds in its separation
time; any other axis leaves the state unchanged. -/
def satAxisSpecNext (axis : ℕ) (cSeg dSeg : MovableSegment) (st : SatState) :
    Option SatState :=
  if ¬ cSeg.containsSeg dSeg ∧ ¬ cSeg.shouldImpact dSeg then none
  else
    let dc := satDisjointClosing cSeg dSeg
    let m2 := if dc then max st.maxToi (cSeg.timeOfImpact dSeg) else st.maxToi
    let gate := cSeg.eqTouch dSeg ∧ cSeg.shouldSeparate dSeg ∧ m2 = 0
    some
      { maxToi := m2
        minTos :=
          if dc ∨ gate then min st.minTos (cSeg.timeOfSeparation dSeg) else st.minTos
        dir :=
          if gate then satAxisDir axis (cSeg.speed - dSeg.speed)
          else if dc ∧ st.maxToi < cSeg.timeOfImpact dSeg then
            satAxisDir axis (cSeg.speed - dSeg.speed)
          else st.dir }

theorem applySatAxis_eq (axis : ℕ) (cSeg dSeg : MovableSegment) (st : SatState) :
    applySatAxis axis cSeg dSeg st = satAxisSpecNext axis cSeg dSeg st := by
  unfold applySatAxis satAxisSpecNext
  rw [applySatDisjointBranch_eq]
  by_cases hna : ¬ cSeg.containsSeg dSeg ∧ ¬ cSeg.shouldImpact dSeg
  · rw [if_pos hna, if_pos hna]
    rfl
  · rw [if_neg hna, if_neg hna]
    by_cases hdc : satDisjointClosing cSeg dSeg
    · simp only [if_pos hdc, Option.map_some']
      rw [applySatTouchBranch_eq]
      simp only [Option.some.injEq]
      by_cases hgate : cSeg.eqTouch dSeg ∧ cSeg.shouldSeparate dSeg ∧
          (max st.maxToi (cSeg.timeOfImpact dSeg)) = 0
      · rw [if_pos hgate, if_pos hgate, if_pos (Or.inr hgate)]
        simp [min_assoc]
      · rw [if_neg hgate, if_neg hgate, if_pos (Or.inl hdc)]
        by_cases hlt : st.maxToi < cSeg.timeOfImpact dSeg
        · rw [if_pos hlt, if_pos ⟨hdc, hlt⟩]
        · rw [if_neg hlt, if_neg (fun hh => hlt hh.2)]
    · simp only [if_neg hdc, Option.map_some']
      rw [applySatTouchBranch_eq]
      simp only [Option.some.injEq]
      by_cases hgate : cSeg.eqTouch dSeg ∧ cSeg.shouldSeparate dSeg ∧ st.maxToi = 0
      · rw [if_pos hgate, if_pos hgate, if_pos (Or.inr hgate)]
      · rw [if_neg hgate, if_neg hgate,
          if_neg (by rintro (h | h); exacts [hdc h, hgate h]),
          if_neg (by rintro ⟨h, _⟩; exact hdc h)]

/-! ## Claim C1: closed form of `_apply_sat` (binding impact / minimum separation) -/

/-- The collider's movable segment on an axis, as built by `_apply_sat`. -/
def satColliderSeg (A : CollisionObject) (axis : ℕ) : MovableSegment :=
  axisSegment A.boundingBox A.speed axis

/-- The collided object's movable segment on an axis, built from its
time-aligned AABB, as in `_apply_sat`. -/
def satCollidedSeg (A B : CollisionObject) (axis : ℕ) : MovableSegment :=
  axisSegment (alignedCollidedBox A B) B.speed axis

/-- The segments of the pair on this axis are disjoint and closing. -/
def satAxisDC (A B : CollisionObject) (axis : ℕ) : Prop :=
  satDisjointClosing (satColliderSeg A axis) (satCollidedSeg A B axis)

instance (A B : CollisionObject) (axis : ℕ) : Decidable (satAxisDC A B axis) :=
  inferInstanceAs (Decidable (satDisjointClosing _ _))

/-- Per-axis impact time of the pair. -/
def satAxisToi (A B : CollisionObject) (axis : ℕ) : ℚ :=
  (satColliderSeg A axis).timeOfImpact (satCollidedSeg A B axis)

/-- Per-axis separation time of the pair. -/
def satAxisTos (A B : CollisionObject) (axis : ℕ) : ℚ :=
  (satColliderSeg A axis).timeOfSeparation (satCollidedSeg A B axis)

/-- The segments of the pair on this axis touch exactly at an endpoint and
have distinct speeds. -/
def satAxisTouchOpening (A B : CollisionObject) (axis : ℕ) : Prop :=
  (satColliderSeg A axis).eqTouch (satCollidedSeg A B axis) ∧
    (satColliderSeg A axis).shouldSeparate (satCollidedSeg A B axis)

instance (A B : CollisionObject) (axis : ℕ) : Decidable (satAxisTouchOpening A B axis) :=
  inferInstanceAs (Decidable (_ ∧ _))

/-- Some axis has disjoint, non-closing segments: `_apply_sat` returns the
no-collision sentinel immediately. -/
def satEarlyExit (A B : CollisionObject) : Prop :=
  (¬ (satColliderSeg A 0).containsSeg (satCollidedSeg A B 0) ∧
      ¬ (satColliderSeg A 0).shouldImpact (satCollidedSeg A B 0)) ∨
  (¬ (satColliderSeg A 1).containsSeg (satCollidedSeg A B 1) ∧
      ¬ (satColliderSeg A 1).shouldImpact (satCollidedSeg A B 1))

instance (A B : CollisionObject) : Decidable (satEarlyExit A B) :=
  inferInstanceAs (Decidable ((_ ∧ _) ∨ (_ ∧ _)))

/-- The running maximum impact time after the x axis: the x impact time if
that axis is disjoint and closing (folded with the initial `0`), else `0`. -/
def satBindingAxis0 (A B : CollisionObject) : ℚ :=
  if satAxisDC A B 0 then max 0 (satAxisToi A B 0) else 0

/-- The binding impact time: the maximum of the impact times of the
disjoint-and-closing axes (and of the initial `0`). -/
def satBindingImpact (A B : CollisionObject) : ℚ :=
  if satAxisDC A B 1 then max (satBindingAxis0 A B) (satAxisToi A B 1)
  else satBindingAxis0 A B

/-- The minimum separation time: starting from the remaining step fraction
`1 - local_time`, each disjoint-and-closing axis folds in its separation
time, and so does each exactly-touching axis with distinct speeds processed
while the running maximum impact time is still zero. -/
def satMinSep (A B : CollisionObject) : ℚ :=
  let m1 :=
    if satAxisDC A B 0 ∨ (satAxisTouchOpening A B 0 ∧ satBindingAxis0 A B = 0) then
      min (1 - A.localTime) (satAxisTos A B 0)
    else 1 - A.localTime
  if satAxisDC A B 1 ∨ (satAxisTouchOpening A B 1 ∧ satBindingImpact A B = 0) then
    min m1 (satAxisTos A B 1)
  else m1

/-- The direction finally reported: the direction recorded by the last axis
that wrote one (touching axes with a still-zero maximum win over
disjoint-and-closing axes that increased the maximum), `DIRECTION_NONE` if no
axis wrote one. -/
def satFinalDir (A B : CollisionObject) : ℤ :=
  let rel0 := (satColliderSeg A 0).speed - (satCollidedSeg A B 0).speed
  let rel1 := (satColliderSeg A 1).speed - (satCollidedSeg A B 1).speed
  let dir1 :=
    if satAxisTouchOpening A B 0 ∧ satBindingAxis0 A B = 0 then satAxisDir 0 rel0
    else if satAxisDC A B 0 ∧ 0 < satAxisToi A B 0 then satAxisDir 0 rel0
    else DIRECTION_NONE
  if satAxisTouchOpening A B 1 ∧ satBindingImpact A B = 0 then satAxisDir 1 rel1
  else if satAxisDC A B 1 ∧ satBindingAxis0 A B < satAxisToi A B 1 then satAxisDir 1 rel1
  else dir1

/-- `applySatCore` in closed form, by composing the two axis iterations. -/
theorem applySatCore_eval (A B : CollisionObject) :
    applySatCore A B =
      (if satEarlyExit A B then (1, DIRECTION_NONE)
      else if satBindingImpact A B < satMinSep A B ∧
          satBindingImpact A B < 1 - A.localTime then
        (A.localTime + satBindingImpact A B, satFinalDir A B)
      else (1, DIRECTION_NONE)) := by
  simp only [applySatCore, satEarlyExit, satFinalDir, satMinSep, satBindingImpact,
    satBindingAxis0, satAxisDC, satAxisToi, satAxisTos, satAxisTouchOpening,
    satColliderSeg, satCollidedSeg]
  rw [applySatAxis_eq]
  unfold satAxisSpecNext
  by_cases hE0 : ¬ (axisSegment A.boundingBox A.speed 0).containsSeg
        (axisSegment (alignedCollidedBox A B) B.speed 0) ∧
      ¬ (axisSegment A.boundingBox A.speed 0).shouldImpact
        (axisSegment (alignedCollidedBox A B) B.speed 0)
  · rw [if_pos hE0, if_pos (Or.inl hE0)]
  · rw [if_neg hE0]
    dsimp only
    rw [applySatAxis_eq]
    unfold satAxisSpecNext
    by_cases hE1 : ¬ (axisSegment A.boundingBox A.speed 1).containsSeg
          (axisSegment (alignedCollidedBox A B) B.speed 1) ∧
        ¬ (axisSegment A.boundingBox A.speed 1).shouldImpact
          (axisSegment (alignedCollidedBox A B) B.speed 1)
    · rw [if_pos hE1, if_pos (Or.inr hE1)]
    · rw [if_neg hE1, if_neg (fun hh => Or.elim hh hE0 hE1)]
      dsimp only
      simp only [and_assoc]

/-- The separation-time minimum as claim C1 words it: the minimum, over the
axes that are *not* disjoint-and-closing (and have distinct speeds, so that a
separation time exists), of the per-axis separation times, floored at the
remaining step fraction. -/
def satMinSepClaim (A B : CollisionObject) : ℚ :=
  let m1 :=
    if ¬ satAxisDC A B 0 ∧
        (satColliderSeg A 0).shouldSeparate (satCollidedSeg A B 0) then
      min (1 - A.localTime) (satAxisTos A B 0)
    else 1 - A.localTime
  if ¬ satAxisDC A B 1 ∧
      (satColliderSeg A 1).shouldSeparate (satCollidedSeg A B 1) then
    min m1 (satAxisTos A B 1)
  else m1

/-- Claim C1 as stated, for one pair: the test reports a collision exactly
when the binding impact time is below the minimum of the separation times of
the *other* (non-disjoint-and-closing) axes and below the remaining step
fraction. -/
def c1ClaimStatement (A B : CollisionObject) : Prop :=
  (applySat A B ≠ (1, DIRECTION_NONE)) ↔
    (¬ satEarlyExit A B ∧ satBindingImpact A B < satMinSepClaim A B ∧
      satBindingImpact A B < 1 - A.localTime)

instance (A B : CollisionObject) : Decidable (c1ClaimStatement A B) :=
  inferInstanceAs (Decidable (_ ↔ _))

/-- **C1, counterexample**: the claim is false as stated.  For the pair below
(equal local times 0), the x axis is disjoint and closing with impact time
`2/5`, and the y axis is strictly overlapping and opening with separation
time `1/5`.  The claim's separation minimum (over the *other* axes) is `1/5`,
which is below the binding impact time `2/5`, so the claim predicts no
collision; the code tracks separation only on the disjoint-and-closing axis
(there `3/5`) and does report a collision, at time `2/5`. -/
theorem c1_apply_sat_counterexample :
    ¬ c1ClaimStatement
        (mkCollisionObject 0 ⟨(0, 0), (1, 10), (10, 0), 0, [], true, false⟩ 0)
        (mkCollisionObject 1 ⟨(5, 8), (1, 1), (0, 10), 0, [], true, false⟩ 0) := by
  unfold c1ClaimStatement
  intro hiff
  have hL : applySat
      (mkCollisionObject 0 ⟨(0, 0), (1, 10), (10, 0), 0, [], true, false⟩ 0)
      (mkCollisionObject 1 ⟨(5, 8), (1, 1), (0, 10), 0, [], true, false⟩ 0) =
      (2 / 5, 1) := by
    norm_num [applySat, applySatCore, applySatAxis, applySatDisjointBranch,
      applySatTouchBranch, applySatSepUpd, applySatAxisDirection, mkCollisionObject,
      axisSegment, alignedCollidedBox, Aabb.expand, MovableSegment.containsSeg,
      MovableSegment.shouldImpact, MovableSegment.shouldSeparate, MovableSegment.eqTouch,
      MovableSegment.timeOfImpact, MovableSegment.timeOfSeparation, directionNextLeft,
      DIRECTION_NONE, DIRECTION_EAST, DIRECTION_WEST, DIRECTION_NORTH, DIRECTION_SOUTH]
  have hb : satBindingImpact
      (mkCollisionObject 0 ⟨(0, 0), (1, 10), (10, 0), 0, [], true, false⟩ 0)
      (mkCollisionObject 1 ⟨(5, 8), (1, 1), (0, 10), 0, [], true, false⟩ 0) = 2 / 5 := by
    norm_num [satBindingImpact, satBindingAxis0, satAxisDC, satAxisToi, satColliderSeg,
      satCollidedSeg, axisSegment, mkCollisionObject, alignedCollidedBox, satDisjointClosing,
      MovableSegment.containsSeg, MovableSegment.shouldImpact, MovableSegment.timeOfImpact,
      Aabb.expand]
  have hm : satMinSepClaim
      (mkCollisionObject 0 ⟨(0, 0), (1, 10), (10, 0), 0, [], true, false⟩ 0)
      (mkCollisionObject 1 ⟨(5, 8), (1, 1), (0, 10), 0, [], true, false⟩ 0) = 1 / 5 := by
    norm_num [satMinSepClaim, satAxisDC, satAxisTos, satColliderSeg, satCollidedSeg,
      axisSegment, mkCollisionObject, alignedCollidedBox, satDisjointClosing,
      MovableSegment.containsSeg, MovableSegment.shouldImpact, MovableSegment.shouldSeparate,
      MovableSegment.timeOfSeparation, Aabb.expand]
  have hne : applySat
      (mkCollisionObject 0 ⟨(0, 0), (1, 10), (10, 0), 0, [], true, false⟩ 0)
      (mkCollisionObject 1 ⟨(5, 8), (1, 1), (0, 10), 0, [], true, false⟩ 0) ≠
      (1, DIRECTION_NONE) := by
    rw [hL]
    intro heq
    have := congrArg Prod.fst heq
    norm_num at this
  have hR := (hiff.mp hne).2.1
  rw [hb, hm] at hR
  norm_num at hR

/-- **C1, amended**: for every pair of collision objects with equal local
times, `_apply_sat` builds a movable segment per axis from the time-aligned
AABBs; if some axis is disjoint and not closing it returns the no-collision
result; otherwise the binding impact time is the maximum over the impact
times of the disjoint-and-closing axes, while the separation minimum is
taken over the separation times of those same disjoint-and-closing axes
(together with the exactly-touching, distinct-speed axes reached while the
running maximum impact time is still zero), floored at `1 - local_time`; and
a result other than the no-collision sentinel is reported exactly when the
binding impact time is strictly below that separation minimum and strictly
below the remaining step fraction, in which case the reported time of impact
is `local_time + binding impact time`. -/
theorem c1_apply_sat_amended (A B : CollisionObject) (h : A.localTime = B.localTime) :
    ((applySat A B ≠ (1, DIRECTION_NONE)) ↔
      (¬ satEarlyExit A B ∧ satBindingImpact A B < satMinSep A B ∧
        satBindingImpact A B < 1 - A.localTime)) ∧
    (applySat A B ≠ (1, DIRECTION_NONE) →
      (applySat A B).1 = A.localTime + satBindingImpact A B) := by
  have hswap : ¬ A.localTime < B.localTime := by rw [h]; exact lt_irrefl _
  unfold applySat
  rw [if_neg hswap, applySatCore_eval]
  by_cases hE : satEarlyExit A B
  · rw [if_pos hE]
    exact ⟨⟨fun hne => absurd rfl hne, fun ⟨hne, _⟩ => absurd hE hne⟩,
      fun hne => absurd rfl hne⟩
  · rw [if_neg hE]
    by_cases hcond : satBindingImpact A B < satMinSep A B ∧
        satBindingImpact A B < 1 - A.localTime
    · rw [if_pos hcond]
      have hne : ((A.localTime + satBindingImpact A B, satFinalDir A B) : ℚ × ℤ) ≠
          (1, DIRECTION_NONE) := by
        intro heq
        have h1 : A.localTime + satBindingImpact A B = 1 := congrArg Prod.fst heq
        have h2 := hcond.2
        linarith
      exact ⟨⟨fun _ => ⟨hE, hcond.1, hcond.2⟩, fun _ => hne⟩, fun _ => rfl⟩
    · rw [if_neg hcond]
      exact ⟨⟨fun hne => absurd rfl hne, fun ⟨_, h1, h2⟩ => absurd ⟨h1, h2⟩ hcond⟩,
        fun hne => absurd rfl hne⟩

/-- **C1, witness**: the amended characterization, instantiated on two unit
boxes closing on the x axis (gap 1, closing speed 2): collision at time
`1/2`. -/
theorem c1_apply_sat_amended_witness :
    ((applySat (mkCollisionObject 0 ⟨(0, 0), (1, 1), (2, 0), 0, [], true, false⟩ 0)
          (mkCollisionObject 1 ⟨(2, 0), (1, 1), (0, 0), 0, [], true, false⟩ 0) ≠
        (1, DIRECTION_NONE)) ↔
      (¬ satEarlyExit (mkCollisionObject 0 ⟨(0, 0), (1, 1), (2, 0), 0, [], true, false⟩ 0)
          (mkCollisionObject 1 ⟨(2, 0), (1, 1), (0, 0), 0, [], true, false⟩ 0) ∧
        satBindingImpact (mkCollisionObject 0 ⟨(0, 0), (1, 1), (2, 0), 0, [], true, false⟩ 0)
            (mkCollisionObject 1 ⟨(2, 0), (1, 1), (0, 0), 0, [], true, false⟩ 0) <
          satMinSep (mkCollisionObject 0 ⟨(0, 0), (1, 1), (2, 0), 0, [], true, false⟩ 0)
            (mkCollisionObject 1 ⟨(2, 0), (1, 1), (0, 0), 0, [], true, false⟩ 0) ∧
        satBindingImpact (mkCollisionObject 0 ⟨(0, 0), (1, 1), (2, 0), 0, [], true, false⟩ 0)
            (mkCollisionObject 1 ⟨(2, 0), (1, 1), (0, 0), 0, [], true, false⟩ 0) <
          1 - (mkCollisionObject 0 ⟨(0, 0), (1, 1), (2, 0), 0, [], true, false⟩ 0).localTime)) ∧
    (applySat (mkCollisionObject 0 ⟨(0, 0), (1, 1), (2, 0), 0, [], true, false⟩ 0)
          (mkCollisionObject 1 ⟨(2, 0), (1, 1), (0, 0), 0, [], true, false⟩ 0) ≠
        (1, DIRECTION_NONE) →
      (applySat (mkCollisionObject 0 ⟨(0, 0), (1, 1), (2, 0), 0, [], true, false⟩ 0)
          (mkCollisionObject 1 ⟨(2, 0), (1, 1), (0, 0), 0, [], true, false⟩ 0)).1 =
        (mkCollisionObject 0 ⟨(0, 0), (1, 1), (2, 0), 0, [], true, false⟩ 0).localTime +
          satBindingImpact (mkCollisionObject 0 ⟨(0, 0), (1, 1), (2, 0), 0, [], true, false⟩ 0)
            (mkCollisionObject 1 ⟨(2, 0), (1, 1), (0, 0), 0, [], true, false⟩ 0)) :=
  c1_apply_sat_amended _ _ rfl

/-! ## Claim C4: symmetry of `_apply_sat` -/

theorem containsSeg_comm (p q : MovableSegment) :
    p.containsSeg q ↔ q.containsSeg p := by
  unfold MovableSegment.containsSeg
  exact and_comm

theorem shouldImpact_comm (p q : MovableSegment) :
    p.shouldImpact q ↔ q.shouldImpact p := by
  unfold MovableSegment.shouldImpact
  exact or_comm

theorem eqTouch_comm (p q : MovableSegment) : p.eqTouch q ↔ q.eqTouch p := by
  unfold MovableSegment.eqTouch
  constructor
  · rintro (h | h)
    · exact Or.inr h.symm
    · exact Or.inl h.symm
  · rintro (h | h)
    · exact Or.inr h.symm
    · exact Or.inl h.symm

theorem shouldSeparate_comm (p q : MovableSegment) :
    p.shouldSeparate q ↔ q.shouldSeparate p :=
  ne_comm

theorem timeOfImpact_comm (p q : MovableSegment) (hp : p.low ≤ p.high)
    (hq : q.low ≤ q.high) (hdisj : ¬ p.containsSeg q) :
    p.timeOfImpact q = q.timeOfImpact p := by
  have hd : p.high < q.low ∨ q.high < p.low := by
    by_contra hc
    push_neg at hc
    exact hdisj ⟨hc.1, hc.2⟩
  unfold MovableSegment.timeOfImpact
  by_cases hs : p.speed = q.speed
  · rw [if_pos hs, if_pos hs.symm]
  · have hs2 : ¬ q.speed = p.speed := fun hh => hs hh.symm
    rcases hd with h1 | h2
    · have h2 : ¬ q.high < p.low := by intro h2; linarith
      rw [if_neg hs, if_pos h1, if_neg hs2, if_neg h2]
    · have h1 : ¬ p.high < q.low := by intro h1; linarith
      rw [if_neg hs, if_neg h1, if_neg hs2, if_pos h2]

theorem timeOfSeparation_comm (p q : MovableSegment) :
    p.timeOfSeparation q = q.timeOfSeparation p := by
  unfold MovableSegment.timeOfSeparation
  rcases lt_trichotomy p.speed q.speed with hs | hs | hs
  · rw [if_neg (not_lt.mpr hs.le), if_pos hs]
  · rw [if_neg (not_lt.mpr hs.le), if_neg (not_lt.mpr hs.ge), hs, sub_self,
      div_zero, div_zero]
  · rw [if_pos hs, if_neg (not_lt.mpr hs.le)]

theorem alignedCollidedBox_eq_self (A B : CollisionObject)
    (h : A.localTime = B.localTime) : alignedCollidedBox A B = B.boundingBox := by
  unfold alignedCollidedBox
  rw [h, sub_self, mul_zero, mul_zero, add_zero, add_zero]

theorem satCollidedSeg_eq (A B : CollisionObject) (axis : ℕ)
    (h : A.localTime = B.localTime) :
    satCollidedSeg A B axis = satColliderSeg B axis := by
  unfold satCollidedSeg satColliderSeg
  rw [alignedCollidedBox_eq_self A B h]

theorem satColliderSeg_wf (A : CollisionObject) (axis : ℕ)
    (h1 : 0 ≤ A.boundingBox.bounds.1) (h2 : 0 ≤ A.boundingBox.bounds.2) :
    (satColliderSeg A axis).low ≤ (satColliderSeg A axis).high := by
  unfold satColliderSeg axisSegment
  split_ifs <;> dsimp <;> linarith

theorem satAxisDC_comm (A B : CollisionObject) (axis : ℕ)
    (h : A.localTime = B.localTime) :
    satAxisDC A B axis ↔ satAxisDC B A axis := by
  unfold satAxisDC satDisjointClosing
  rw [satCollidedSeg_eq A B axis h, satCollidedSeg_eq B A axis h.symm,
    containsSeg_comm, shouldImpact_comm]

theorem satAxisTouchOpening_comm (A B : CollisionObject) (axis : ℕ)
    (h : A.localTime = B.localTime) :
    satAxisTouchOpening A B axis ↔ satAxisTouchOpening B A axis := by
  unfold satAxisTouchOpening
  rw [satCollidedSeg_eq A B axis h, satCollidedSeg_eq B A axis h.symm,
    eqTouch_comm, shouldSeparate_comm]

theorem satEarlyExit_comm (A B : CollisionObject) (h : A.localTime = B.localTime) :
    satEarlyExit A B ↔ satEarlyExit B A := by
  unfold satEarlyExit
  rw [satCollidedSeg_eq A B 0 h, satCollidedSeg_eq B A 0 h.symm,
    satCollidedSeg_eq A B 1 h, satCollidedSeg_eq B A 1 h.symm,
    containsSeg_comm, shouldImpact_comm,
    containsSeg_comm (satColliderSeg A 1), shouldImpact_comm (satColliderSeg A 1)]

theorem satAxisTos_comm (A B : CollisionObject) (axis : ℕ)
    (h : A.localTime = B.localTime) : satAxisTos A B axis = satAxisTos B A axis := by
  unfold satAxisTos
  rw [satCollidedSeg_eq A B axis h, satCollidedSeg_eq B A axis h.symm,
    timeOfSeparation_comm]

theorem satAxisToi_comm (A B : CollisionObject) (axis : ℕ)
    (h : A.localTime = B.localTime)
    (hA1 : 0 ≤ A.boundingBox.bounds.1) (hA2 : 0 ≤ A.boundingBox.bounds.2)
    (hB1 : 0 ≤ B.boundingBox.bounds.1) (hB2 : 0 ≤ B.boundingBox.bounds.2)
    (hdc : satAxisDC A B axis) : satAxisToi A B axis = satAxisToi B A axis := by
  unfold satAxisToi
  rw [satCollidedSeg_eq A B axis h, satCollidedSeg_eq B A axis h.symm]
  exact timeOfImpact_comm _ _ (satColliderSeg_wf A axis hA1 hA2)
    (satColliderSeg_wf B axis hB1 hB2)
    (by
      have := hdc.1
      rwa [satCollidedSeg_eq A B axis h] at this)

theorem satBindingAxis0_comm (A B : CollisionObject)
    (h : A.localTime = B.localTime)
    (hA1 : 0 ≤ A.boundingBox.bounds.1) (hA2 : 0 ≤ A.boundingBox.bounds.2)
    (hB1 : 0 ≤ B.boundingBox.bounds.1) (hB2 : 0 ≤ B.boundingBox.bounds.2) :
    satBindingAxis0 A B = satBindingAxis0 B A := by
  unfold satBindingAxis0
  by_cases hdc : satAxisDC A B 0
  · rw [if_pos hdc, if_pos ((satAxisDC_comm A B 0 h).mp hdc),
      satAxisToi_comm A B 0 h hA1 hA2 hB1 hB2 hdc]
  · rw [if_neg hdc, if_neg (fun hh => hdc ((satAxisDC_comm A B 0 h).mpr hh))]

theorem satBindingImpact_comm (A B : CollisionObject)
    (h : A.localTime = B.localTime)
    (hA1 : 0 ≤ A.boundingBox.bounds.1) (hA2 : 0 ≤ A.boundingBox.bounds.2)
    (hB1 : 0 ≤ B.boundingBox.bounds.1) (hB2 : 0 ≤ B.boundingBox.bounds.2) :
    satBindingImpact A B = satBindingImpact B A := by
  unfold satBindingImpact
  rw [satBindingAxis0_comm A B h hA1 hA2 hB1 hB2]
  by_cases hdc : satAxisDC A B 1
  · rw [if_pos hdc, if_pos ((satAxisDC_comm A B 1 h).mp hdc),
      satAxisToi_comm A B 1 h hA1 hA2 hB1 hB2 hdc]
  · rw [if_neg hdc, if_neg (fun hh => hdc ((satAxisDC_comm A B 1 h).mpr hh))]

theorem satMinSep_comm (A B : CollisionObject)
    (h : A.localTime = B.localTime)
    (hA1 : 0 ≤ A.boundingBox.bounds.1) (hA2 : 0 ≤ A.boundingBox.bounds.2)
    (hB1 : 0 ≤ B.boundingBox.bounds.1) (hB2 : 0 ≤ B.boundingBox.bounds.2) :
    satMinSep A B = satMinSep B A := by
  unfold satMinSep
  simp only [satAxisDC_comm A B 0 h, satAxisDC_comm A B 1 h,
    satAxisTouchOpening_comm A B 0 h, satAxisTouchOpening_comm A B 1 h,
    satBindingAxis0_comm A B h hA1 hA2 hB1 hB2,
    satBindingImpact_comm A B h hA1 hA2 hB1 hB2,
    satAxisTos_comm A B 0 h, satAxisTos_comm A B 1 h, h]

/-- Directions recorded per axis flip with the sign of the relative speed. -/
theorem satAxisDir_opposite (axis : ℕ) (r : ℚ) (hr : r ≠ 0) :
    satAxisDir axis r = directionOpposite (satAxisDir axis (-r)) := by
  unfold satAxisDir directionOpposite DIRECTION_NONE DIRECTION_NORTH DIRECTION_EAST
    DIRECTION_SOUTH DIRECTION_WEST
  rcases lt_or_gt_of_ne hr with hneg | hpos
  · rw [if_neg (not_lt.mpr hneg.le), if_pos (by linarith : (0 : ℚ) < -r)]
    by_cases ha : axis ≠ 0
    · rw [if_pos ha, if_pos ha]
      decide
    · rw [if_neg ha, if_neg ha]
      decide
  · rw [if_pos hpos, if_neg (by simp; linarith : ¬ (0 : ℚ) < -r)]
    by_cases ha : axis ≠ 0
    · rw [if_pos ha, if_pos ha]
      decide
    · rw [if_neg ha, if_neg ha]
      decide

theorem satFinalDir_flip (A B : CollisionObject)
    (h : A.localTime = B.localTime)
    (hA1 : 0 ≤ A.boundingBox.bounds.1) (hA2 : 0 ≤ A.boundingBox.bounds.2)
    (hB1 : 0 ≤ B.boundingBox.bounds.1) (hB2 : 0 ≤ B.boundingBox.bounds.2) :
    satFinalDir A B = directionOpposite (satFinalDir B A) := by
  have e1 : (satAxisTouchOpening B A 1 ∧ satBindingImpact B A = 0) ↔
      (satAxisTouchOpening A B 1 ∧ satBindingImpact A B = 0) := by
    rw [satAxisTouchOpening_comm A B 1 h, satBindingImpact_comm A B h hA1 hA2 hB1 hB2]
  have e2 : (satAxisDC B A 1 ∧ satBindingAxis0 B A < satAxisToi B A 1) ↔
      (satAxisDC A B 1 ∧ satBindingAxis0 A B < satAxisToi A B 1) := by
    constructor
    · rintro ⟨hdc, hlt⟩
      have hdc2 := (satAxisDC_comm A B 1 h).mpr hdc
      refine ⟨hdc2, ?_⟩
      rwa [satBindingAxis0_comm A B h hA1 hA2 hB1 hB2,
        satAxisToi_comm A B 1 h hA1 hA2 hB1 hB2 hdc2]
    · rintro ⟨hdc, hlt⟩
      refine ⟨(satAxisDC_comm A B 1 h).mp hdc, ?_⟩
      rwa [satBindingAxis0_comm A B h hA1 hA2 hB1 hB2,
        satAxisToi_comm A B 1 h hA1 hA2 hB1 hB2 hdc] at hlt
  have e3 : (satAxisTouchOpening B A 0 ∧ satBindingAxis0 B A = 0) ↔
      (satAxisTouchOpening A B 0 ∧ satBindingAxis0 A B = 0) := by
    rw [satAxisTouchOpening_comm A B 0 h, satBindingAxis0_comm A B h hA1 hA2 hB1 hB2]
  have e4 : (satAxisDC B A 0 ∧ 0 < satAxisToi B A 0) ↔
      (satAxisDC A B 0 ∧ 0 < satAxisToi A B 0) := by
    constructor
    · rintro ⟨hdc, hlt⟩
      have hdc2 := (satAxisDC_comm A B 0 h).mpr hdc
      refine ⟨hdc2, ?_⟩
      rwa [satAxisToi_comm A B 0 h hA1 hA2 hB1 hB2 hdc2]
    · rintro ⟨hdc, hlt⟩
      refine ⟨(satAxisDC_comm A B 0 h).mp hdc, ?_⟩
      rwa [satAxisToi_comm A B 0 h hA1 hA2 hB1 hB2 hdc] at hlt
  have hsep_of_touch : ∀ axis, satAxisTouchOpening A B axis →
      (satColliderSeg A axis).speed - (satColliderSeg B axis).speed ≠ 0 := by
    intro axis hto
    have := hto.2
    rw [satCollidedSeg_eq A B axis h] at this
    exact sub_ne_zero.mpr this
  have hsep_of_dc : ∀ axis, satAxisDC A B axis →
      (satColliderSeg A axis).speed - (satColliderSeg B axis).speed ≠ 0 := by
    intro axis hdc
    have := shouldImpact_speed_ne hdc.2
    rw [satCollidedSeg_eq A B axis h] at this
    exact sub_ne_zero.mpr this
  unfold satFinalDir
  simp only [satCollidedSeg_eq A B 0 h, satCollidedSeg_eq B A 0 h.symm,
    satCollidedSeg_eq A B 1 h, satCollidedSeg_eq B A 1 h.symm]
  have hrel0 : (satColliderSeg B 0).speed - (satColliderSeg A 0).speed =
      -((satColliderSeg A 0).speed - (satColliderSeg B 0).speed) := (neg_sub _ _).symm
  have hrel1 : (satColliderSeg B 1).speed - (satColliderSeg A 1).speed =
      -((satColliderSeg A 1).speed - (satColliderSeg B 1).speed) := (neg_sub _ _).symm
  rw [hrel0, hrel1]
  by_cases hg1 : satAxisTouchOpening A B 1 ∧ satBindingImpact A B = 0
  · rw [if_pos hg1, if_pos (e1.mpr hg1)]
    exact satAxisDir_opposite 1 _ (hsep_of_touch 1 hg1.1)
  · rw [if_neg hg1, if_neg (show ¬ (satAxisTouchOpening B A 1 ∧
      satBindingImpact B A = 0) from fun hh => hg1 (e1.mp hh))]
    by_cases hd1 : satAxisDC A B 1 ∧ satBindingAxis0 A B < satAxisToi A B 1
    · rw [if_pos hd1, if_pos (e2.mpr hd1)]
      exact satAxisDir_opposite 1 _ (hsep_of_dc 1 hd1.1)
    · rw [if_neg hd1, if_neg (show ¬ (satAxisDC B A 1 ∧
        satBindingAxis0 B A < satAxisToi B A 1) from fun hh => hd1 (e2.mp hh))]
      by_cases hg0 : satAxisTouchOpening A B 0 ∧ satBindingAxis0 A B = 0
      · rw [if_pos hg0, if_pos (e3.mpr hg0)]
        exact satAxisDir_opposite 0 _ (hsep_of_touch 0 hg0.1)
      · rw [if_neg hg0, if_neg (show ¬ (satAxisTouchOpening B A 0 ∧
          satBindingAxis0 B A = 0) from fun hh => hg0 (e3.mp hh))]
        by_cases hd0 : satAxisDC A B 0 ∧ 0 < satAxisToi A B 0
        · rw [if_pos hd0, if_pos (e4.mpr hd0)]
          exact satAxisDir_opposite 0 _ (hsep_of_dc 0 hd0.1)
        · rw [if_neg hd0, if_neg (show ¬ (satAxisDC B A 0 ∧
            0 < satAxisToi B A 0) from fun hh => hd0 (e4.mp hh))]
          decide

theorem satAxisDir_range (axis : ℕ) (r : ℚ) :
    satAxisDir axis r = DIRECTION_NORTH ∨ satAxisDir axis r = DIRECTION_EAST ∨
      satAxisDir axis r = DIRECTION_SOUTH ∨ satAxisDir axis r = DIRECTION_WEST := by
  unfold satAxisDir
  split_ifs
  · exact Or.inl rfl
  · exact Or.inr (Or.inl rfl)
  · exact Or.inr (Or.inr (Or.inl rfl))
  · exact Or.inr (Or.inr (Or.inr rfl))

theorem directionOpposite_opposite (d : ℤ)
    (hd : d = DIRECTION_NONE ∨ d = DIRECTION_NORTH ∨ d = DIRECTION_EAST ∨
      d = DIRECTION_SOUTH ∨ d = DIRECTION_WEST) :
    directionOpposite (directionOpposite d) = d := by
  rcases hd with hd | hd | hd | hd | hd <;> rw [hd] <;> decide

theorem satFinalDir_range (A B : CollisionObject) :
    satFinalDir A B = DIRECTION_NONE ∨ satFinalDir A B = DIRECTION_NORTH ∨
      satFinalDir A B = DIRECTION_EAST ∨ satFinalDir A B = DIRECTION_SOUTH ∨
      satFinalDir A B = DIRECTION_WEST := by
  unfold satFinalDir
  split_ifs <;> first
    | exact Or.inl rfl
    | exact Or.inr (satAxisDir_range _ _)

theorem applySatCore_dir_range (A B : CollisionObject) :
    (applySatCore A B).2 = DIRECTION_NONE ∨ (applySatCore A B).2 = DIRECTION_NORTH ∨
      (applySatCore A B).2 = DIRECTION_EAST ∨ (applySatCore A B).2 = DIRECTION_SOUTH ∨
      (applySatCore A B).2 = DIRECTION_WEST := by
  rw [applySatCore_eval]
  split_ifs
  · exact Or.inl rfl
  · exact satFinalDir_range A B
  · exact Or.inl rfl

/-- The equal-local-time core of the symmetry claim: with aligned local times
the SAT core is symmetric in its impact time and reports opposite
directions. -/
theorem applySatCore_symm (A B : CollisionObject)
    (h : A.localTime = B.localTime)
    (hA1 : 0 ≤ A.boundingBox.bounds.1) (hA2 : 0 ≤ A.boundingBox.bounds.2)
    (hB1 : 0 ≤ B.boundingBox.bounds.1) (hB2 : 0 ≤ B.boundingBox.bounds.2) :
    (applySatCore A B).1 = (applySatCore B A).1 ∧
      (applySatCore A B).2 = directionOpposite ((applySatCore B A).2) := by
  rw [applySatCore_eval A B, applySatCore_eval B A]
  by_cases hE : satEarlyExit A B
  · rw [if_pos hE, if_pos ((satEarlyExit_comm A B h).mp hE)]
    exact ⟨rfl, by decide⟩
  · rw [if_neg hE, if_neg (show ¬ satEarlyExit B A from
      fun hh => hE ((satEarlyExit_comm A B h).mpr hh))]
    have hb := satBindingImpact_comm A B h hA1 hA2 hB1 hB2
    have hm := satMinSep_comm A B h hA1 hA2 hB1 hB2
    by_cases hc : satBindingImpact A B < satMinSep A B ∧
        satBindingImpact A B < 1 - A.localTime
    · rw [if_pos hc, if_pos (show satBindingImpact B A < satMinSep B A ∧
        satBindingImpact B A < 1 - B.localTime by
          rw [← hb, ← hm, ← h]; exact hc)]
      exact ⟨by rw [hb, h], satFinalDir_flip A B h hA1 hA2 hB1 hB2⟩
    · rw [if_neg hc, if_neg (show ¬ (satBindingImpact B A < satMinSep B A ∧
        satBindingImpact B A < 1 - B.localTime) by
          rw [← hb, ← hm, ← h]; exact hc)]
      exact ⟨rfl, by decide⟩

/-- **C4**: for every two collision objects with well-formed (nonnegative)
extents and any local times, `_apply_sat` is symmetric: testing A against B
yields the same time of impact as testing B against A, and the direction
reported for one order is the exact opposite of the direction reported for
the other (in particular the smaller-local-time operand is swapped, advanced
and the direction flipped, as the source does through its single-level
recursion). -/
theorem c4_apply_sat_symmetric (A B : CollisionObject)
    (hA1 : 0 ≤ A.boundingBox.bounds.1) (hA2 : 0 ≤ A.boundingBox.bounds.2)
    (hB1 : 0 ≤ B.boundingBox.bounds.1) (hB2 : 0 ≤ B.boundingBox.bounds.2) :
    (applySat A B).1 = (applySat B A).1 ∧
      (applySat A B).2 = directionOpposite ((applySat B A).2) := by
  unfold applySat
  rcases lt_trichotomy A.localTime B.localTime with hlt | heq | hgt
  · rw [if_pos hlt, if_neg (asymm hlt)]
    exact ⟨rfl, rfl⟩
  · rw [if_neg (not_lt.mpr heq.le), if_neg (not_lt.mpr heq.ge)]
    exact applySatCore_symm A B heq hA1 hA2 hB1 hB2
  · rw [if_neg (asymm hgt), if_pos hgt]
    exact ⟨rfl, (directionOpposite_opposite _ (applySatCore_dir_range A B)).symm⟩

/-- **C4, witness**: symmetry instantiated on two unit boxes closing on the x
axis with different local times (`0` and `1/2`). -/
theorem c4_apply_sat_symmetric_witness :
    ((applySat (mkCollisionObject 0 ⟨(0, 0), (1, 1), (2, 0), 0, [], true, false⟩ 0)
        (mkCollisionObject 1 ⟨(4, 0), (1, 1), (0, 0), 0, [], true, false⟩ (1 / 2))).1 =
      (applySat (mkCollisionObject 1 ⟨(4, 0), (1, 1), (0, 0), 0, [], true, false⟩ (1 / 2))
        (mkCollisionObject 0 ⟨(0, 0), (1, 1), (2, 0), 0, [], true, false⟩ 0)).1) ∧
    ((applySat (mkCollisionObject 0 ⟨(0, 0), (1, 1), (2, 0), 0, [], true, false⟩ 0)
        (mkCollisionObject 1 ⟨(4, 0), (1, 1), (0, 0), 0, [], true, false⟩ (1 / 2))).2 =
      directionOpposite
        ((applySat (mkCollisionObject 1 ⟨(4, 0), (1, 1), (0, 0), 0, [], true, false⟩ (1 / 2))
          (mkCollisionObject 0 ⟨(0, 0), (1, 1), (2, 0), 0, [], true, false⟩ 0)).2)) :=
  c4_apply_sat_symmetric _ _ (by norm_num [mkCollisionObject])
    (by norm_num [mkCollisionObject]) (by norm_num [mkCollisionObject])
    (by norm_num [mkCollisionObject])

/-! ## Pseudo-events (`CollisionPseudoEvent`) and the batch filter (claim C3) -/

def COLLISION_NONE : ℕ := 0
def COLLISION_TILE : ℕ := 1
def COLLISION_ENTITY : ℕ := 2

/-- A transient pseudo-event: impact time, collider identity tuple (two
entity indices for an entity event; entity index, tile id and tile cell for a
tile event), type tag and direction. -/
structure CollisionPseudoEvent where
  timeOfImpact : ℚ
  colliders : List ℤ
  collisionType : ℕ
  collisionDirection : ℤ
deriving DecidableEq, Repr

namespace CollisionPseudoEvent

/-- The collider-identity overlap test that is the common case analysis of
`CollisionPseudoEvent.__contains__` and `CollisionPseudoEvent.__eq__`:
tile/tile compare the entity index, tile/entity test membership of the
entity index in the entity tuple, entity/entity test overlap of the two
index tuples.  `colliders[i]` is `getD i 0` (the events built by the engine
always have the right arity). -/
def shares (s o : CollisionPseudoEvent) : Prop :=
  if s.collisionType = COLLISION_TILE then
    if o.collisionType = COLLISION_TILE then
      s.colliders.getD 0 0 = o.colliders.getD 0 0
    else if o.collisionType = COLLISION_ENTITY then
      s.colliders.getD 0 0 ∈ o.colliders
    else False
  else if s.collisionType = COLLISION_ENTITY then
    if o.collisionType = COLLISION_TILE then
      o.colliders.getD 0 0 ∈ s.colliders
    else if o.collisionType = COLLISION_ENTITY then
      s.colliders.getD 0 0 ∈ o.colliders ∨ s.colliders.getD 1 0 ∈ o.colliders
    else False
  else False

instance (s o : CollisionPseudoEvent) : Decidable (shares s o) := by
  unfold shares
  infer_instance

/-- `CollisionPseudoEvent.__contains__`: the tested event `o` is strictly
less important than `s` and dependent on it. -/
def containsEvent (s o : CollisionPseudoEvent) : Prop :=
  s.timeOfImpact < o.timeOfImpact ∧ shares s o

instance (s o : CollisionPseudoEvent) : Decidable (containsEvent s o) :=
  inferInstanceAs (Decidable (_ ∧ _))

/-- `CollisionPseudoEvent.__eq__`: equal importance (same impact time) and
dependent (a shared collider identity). -/
def eqEvent (s o : CollisionPseudoEvent) : Prop :=
  s.timeOfImpact = o.timeOfImpact ∧ shares s o

instance (s o : CollisionPseudoEvent) : Decidable (eqEvent s o) :=
  inferInstanceAs (Decidable (_ ∧ _))

/-- An event has the arity its type tag promises: two collider identities
for an entity event.  Every event built by `_process_collision_events`
satisfies this. -/
def wellFormed (e : CollisionPseudoEvent) : Prop :=
  e.collisionType = COLLISION_ENTITY → ∃ x y, e.colliders = [x, y]

end CollisionPseudoEvent

/-- One iteration of the selection loop at the end of
`WorldUpdater.fetch_next_events`: the event is skipped when some
already-selected event compares equal to it (`event in next_events`; CPython
evaluates `element == event`), or when some candidate strictly dominates it
(`event != other and event in other`); otherwise it is appended. -/
def fetchNextStep (events nextEvents : List CollisionPseudoEvent)
    (event : CollisionPseudoEvent) : List CollisionPseudoEvent :=
  if nextEvents.any (fun e => decide (e.eqEvent event)) then nextEvents
  else if events.any (fun other =>
      decide (¬ event.eqEvent other ∧ other.containsEvent event)) then
    nextEvents
  else nextEvents ++ [event]

/-- The reduction of the candidate events to the returned batch
(`fetch_next_events`, final loop). -/
def fetchNextFilter (events : List CollisionPseudoEvent) :
    List CollisionPseudoEvent :=
  events.foldl (fetchNextStep events) []

/-- The dominance relation exactly as claim C3 words it: earlier-or-equal
impact time and a shared collider identity. -/
def dominates (a b : CollisionPseudoEvent) : Prop :=
  a.timeOfImpact ≤ b.timeOfImpact ∧ a.shares b

instance (a b : CollisionPseudoEvent) : Decidable (dominates a b) :=
  inferInstanceAs (Decidable (_ ∧ _))

theorem shares_symm {s o : CollisionPseudoEvent}
    (hs : s.wellFormed) (ho : o.wellFormed) (h : s.shares o) : o.shares s := by
  unfold CollisionPseudoEvent.shares at h ⊢
  by_cases hs1 : s.collisionType = COLLISION_TILE
  · rw [if_pos hs1] at h
    by_cases ho1 : o.collisionType = COLLISION_TILE
    · rw [if_pos ho1] at h
      rw [if_pos ho1, if_pos hs1]
      exact h.symm
    · by_cases ho2 : o.collisionType = COLLISION_ENTITY
      · rw [if_neg ho1, if_pos ho2] at h
        rw [if_neg ho1, if_pos ho2, if_pos hs1]
        exact h
      · rw [if_neg ho1, if_neg ho2] at h
        exact h.elim
  · rw [if_neg hs1] at h
    by_cases hs2 : s.collisionType = COLLISION_ENTITY
    · rw [if_pos hs2] at h
      by_cases ho1 : o.collisionType = COLLISION_TILE
      · rw [if_pos ho1] at h
        rw [if_pos ho1, if_neg hs1, if_pos hs2]
        exact h
      · by_cases ho2 : o.collisionType = COLLISION_ENTITY
        · rw [if_neg ho1, if_pos ho2] at h
          rw [if_neg ho1, if_pos ho2, if_neg hs1, if_pos hs2]
          obtain ⟨sx, sy, hsxy⟩ := hs hs2
          obtain ⟨ox, oy, hoxy⟩ := ho ho2
          rw [hsxy, hoxy] at h ⊢
          simp only [List.getD_cons_zero, List.getD_cons_succ, List.mem_cons,
            List.not_mem_nil, or_false] at h ⊢
          tauto
        · rw [if_neg ho1, if_neg ho2] at h
          exact h.elim
    · rw [if_neg hs2] at h
      exact h.elim

theorem fetchNextStep_sub (events acc : List CollisionPseudoEvent)
    (ev : CollisionPseudoEvent) (a : CollisionPseudoEvent)
    (ha : a ∈ acc) : a ∈ fetchNextStep events acc ev := by
  unfold fetchNextStep
  split_ifs
  · exact ha
  · exact ha
  · exact List.mem_append_left _ ha

theorem fetchFold_mono (events : List CollisionPseudoEvent) :
    ∀ (rest acc : List CollisionPseudoEvent) (a : CollisionPseudoEvent),
      a ∈ acc → a ∈ rest.foldl (fetchNextStep events) acc := by
  intro rest
  induction rest with
  | nil => intro acc a ha; exact ha
  | cons x xs ih =>
    intro acc a ha
    exact ih _ a (fetchNextStep_sub events acc x a ha)

/-- The invariant carried by the selection loop: selected events are
candidates, no two of them share a collider identity, and none of them is
strictly dominated by any candidate. -/
def fetchInv (events acc : List CollisionPseudoEvent) : Prop :=
  (∀ a ∈ acc, a ∈ events) ∧
  List.Pairwise (fun a b => ¬ a.shares b ∧ ¬ b.shares a) acc ∧
  (∀ a ∈ acc, ∀ o ∈ events, ¬ o.containsEvent a)

theorem fetchNextStep_inv (events acc : List CollisionPseudoEvent)
    (ev : CollisionPseudoEvent)
    (hwf : ∀ e ∈ events, e.wellFormed) (hev : ev ∈ events)
    (hinv : fetchInv events acc) : fetchInv events (fetchNextStep events acc ev) := by
  obtain ⟨h1, h2, h3⟩ := hinv
  unfold fetchNextStep
  split_ifs with hmem hstrict
  · exact ⟨h1, h2, h3⟩
  · exact ⟨h1, h2, h3⟩
  · simp only [List.any_eq_true, decide_eq_true_eq, not_exists, not_and] at hmem hstrict
    have hnd : ∀ o ∈ events, ¬ o.containsEvent ev := by
      intro o ho hc
      have hne : ¬ ev.eqEvent o := by
        intro he
        exact absurd he.1 (ne_of_gt hc.1)
      exact (hstrict o ho) hne hc
    have hnos : ∀ a ∈ acc, ¬ a.shares ev ∧ ¬ ev.shares a := by
      intro a ha
      have hsh : ¬ a.shares ev := by
        intro hsh
        rcases lt_trichotomy a.timeOfImpact ev.timeOfImpact with ht | ht | ht
        · exact hnd a (h1 a ha) ⟨ht, hsh⟩
        · have := hmem a ha
          simp only [CollisionPseudoEvent.eqEvent, not_and] at this
          exact this ht hsh
        · exact h3 a ha ev hev ⟨ht, shares_symm (hwf a (h1 a ha)) (hwf ev hev) hsh⟩
      refine ⟨hsh, fun hsh2 => hsh (shares_symm (hwf ev hev) (hwf a (h1 a ha)) hsh2)⟩
    refine ⟨?_, ?_, ?_⟩
    · intro a ha
      rcases List.mem_append.mp ha with ha | ha
      · exact h1 a ha
      · rw [List.mem_singleton.mp ha]
        exact hev
    · rw [List.pairwise_append]
      refine ⟨h2, List.pairwise_singleton _ _, ?_⟩
      intro a ha b hb
      rw [List.mem_singleton.mp hb]
      exact hnos a ha
    · intro a ha o ho
      rcases List.mem_append.mp ha with ha | ha
      · exact h3 a ha o ho
      · rw [List.mem_singleton.mp ha]
        exact hnd o ho

theorem fetchFold_inv (events : List CollisionPseudoEvent)
    (hwf : ∀ e ∈ events, e.wellFormed) :
    ∀ (rest acc : List CollisionPseudoEvent), (∀ x ∈ rest, x ∈ events) →
      fetchInv events acc → fetchInv events (rest.foldl (fetchNextStep events) acc) := by
  intro rest
  induction rest with
  | nil => intro acc _ hinv; exact hinv
  | cons x xs ih =>
    intro acc hsub hinv
    exact ih _ (fun y hy => hsub y (List.mem_cons_of_mem _ hy))
      (fetchNextStep_inv events acc x hwf (hsub x (List.mem_cons_self _ _)) hinv)

theorem fetchFold_dropped (events : List CollisionPseudoEvent) :
    ∀ (rest acc : List CollisionPseudoEvent) (e : CollisionPseudoEvent),
      e ∈ rest → e ∉ rest.foldl (fetchNextStep events) acc →
      (∃ o ∈ events, o.containsEvent e) ∨
        (∃ s ∈ rest.foldl (fetchNextStep events) acc,
          s ≠ e ∧ s.eqEvent e) := by
  intro rest
  induction rest with
  | nil => intro acc e he; exact absurd he (List.not_mem_nil e)
  | cons x xs ih =>
    intro acc e he hnot
    rcases List.mem_cons.mp he with he | he
    · subst he
      by_cases hmem : acc.any (fun s => decide (s.eqEvent e))
      · simp only [List.any_eq_true, decide_eq_true_eq] at hmem
        obtain ⟨s, hs, hse⟩ := hmem
        refine Or.inr ⟨s, ?_, ?_, hse⟩
        · exact fetchFold_mono events xs _ s
            (fetchNextStep_sub events acc e s hs)
        · intro hse2
          subst hse2
          exact hnot (fetchFold_mono events xs _ s
            (fetchNextStep_sub events acc s s hs))
      · by_cases hstrict : events.any (fun other =>
            decide (¬ CollisionPseudoEvent.eqEvent e other ∧ other.containsEvent e))
        · simp only [List.any_eq_true, decide_eq_true_eq] at hstrict
          obtain ⟨o, ho, _, hoc⟩ := hstrict
          exact Or.inl ⟨o, ho, hoc⟩
        · exfalso
          apply hnot
          have hx : e ∈ fetchNextStep events acc e := by
            unfold fetchNextStep
            rw [if_neg (by simpa using hmem), if_neg (by simpa using hstrict)]
            exact List.mem_append_right _ (List.mem_singleton_self e)
          exact fetchFold_mono events xs _ e hx
    · exact ih _ e he hnot

/-- **C3, amended**: `fetch_next_events` reduces the candidates to a batch
such that (i) every returned event is a candidate, (ii) no two returned
events share a collider identity, and (iii) a candidate is dropped exactly
when some candidate *strictly* dominates it (strictly earlier impact time
and a shared identity) or some returned event ties with it (equal impact
time and a shared identity).  In particular a dropped candidate need only be
dominated by some *candidate*, not by a returned event. -/
theorem c3_fetch_next_events_amended (events : List CollisionPseudoEvent)
    (hwf : ∀ e ∈ events, e.wellFormed) :
    (∀ e ∈ fetchNextFilter events, e ∈ events) ∧
    List.Pairwise (fun a b => ¬ a.shares b ∧ ¬ b.shares a) (fetchNextFilter events) ∧
    (∀ e ∈ events, e ∉ fetchNextFilter events ↔
      ((∃ o ∈ events, o.containsEvent e) ∨
        (∃ s ∈ fetchNextFilter events, s ≠ e ∧ s.eqEvent e))) := by
  obtain ⟨h1, h2, h3⟩ := fetchFold_inv events hwf events []
    (fun x hx => hx) ⟨by simp, List.Pairwise.nil, by simp⟩
  refine ⟨h1, h2, ?_⟩
  intro e he
  constructor
  · intro hnot
    exact fetchFold_dropped events events [] e he hnot
  · rintro (⟨o, ho, hc⟩ | ⟨s, hsR, hne, hse⟩) heR
    · exact h3 e heR o ho hc
    · have hsym : Symmetric (fun a b : CollisionPseudoEvent =>
          ¬ a.shares b ∧ ¬ b.shares a) := fun a b hab => ⟨hab.2, hab.1⟩
      exact (h2.forall hsym hsR heR hne).1 hse.2

/-- **C3, counterexample**: the returned batch is not maximal under the
claim's dominance relation.  With the dependence chain `(0,1)@1/10`,
`(1,2)@1/5`, `(2,3)@3/10`, only `(0,1)@1/10` is returned: `(1,2)` is
dominated by it, and `(2,3)` is dropped because the *candidate* `(1,2)`
dominates it — yet no returned event dominates `(2,3)`, contradicting the
claim that every non-returned candidate is dominated by a returned event
(and that the batch is maximal independent). -/
theorem c3_fetch_next_events_counterexample :
    fetchNextFilter
        [⟨1 / 10, [0, 1], COLLISION_ENTITY, 1⟩, ⟨1 / 5, [1, 2], COLLISION_ENTITY, 1⟩,
          ⟨3 / 10, [2, 3], COLLISION_ENTITY, 1⟩] =
      [⟨1 / 10, [0, 1], COLLISION_ENTITY, 1⟩] ∧
    (⟨3 / 10, [2, 3], COLLISION_ENTITY, 1⟩ : CollisionPseudoEvent) ∉
      fetchNextFilter
        [⟨1 / 10, [0, 1], COLLISION_ENTITY, 1⟩, ⟨1 / 5, [1, 2], COLLISION_ENTITY, 1⟩,
          ⟨3 / 10, [2, 3], COLLISION_ENTITY, 1⟩] ∧
    ¬ dominates ⟨1 / 10, [0, 1], COLLISION_ENTITY, 1⟩
        ⟨3 / 10, [2, 3], COLLISION_ENTITY, 1⟩ := by
  have hR : fetchNextFilter
      [⟨1 / 10, [0, 1], COLLISION_ENTITY, 1⟩, ⟨1 / 5, [1, 2], COLLISION_ENTITY, 1⟩,
        ⟨3 / 10, [2, 3], COLLISION_ENTITY, 1⟩] =
      [⟨1 / 10, [0, 1], COLLISION_ENTITY, 1⟩] := by
    norm_num [fetchNextFilter, fetchNextStep, List.foldl, List.any_cons, List.any_nil,
      CollisionPseudoEvent.eqEvent, CollisionPseudoEvent.containsEvent,
      CollisionPseudoEvent.shares, COLLISION_TILE, COLLISION_ENTITY]
  refine ⟨hR, ?_, ?_⟩
  · rw [hR]
    intro hmem
    have := List.mem_singleton.mp hmem
    have h10 : (3 / 10 : ℚ) = 1 / 10 := congrArg CollisionPseudoEvent.timeOfImpact this
    norm_num at h10
  · intro hd
    have := hd.2
    norm_num [CollisionPseudoEvent.shares, COLLISION_TILE, COLLISION_ENTITY] at this

/-- **C3, witness**: the amended characterization applied to the concrete
chain of three entity events used above: the returned batch is pairwise
independent, and the dropped event `(1,2)@1/5` is dropped exactly because a
candidate strictly dominates it or a returned event ties with it. -/
theorem c3_fetch_next_events_amended_witness :
    List.Pairwise (fun a b => ¬ a.shares b ∧ ¬ b.shares a)
      (fetchNextFilter
        [⟨1 / 10, [0, 1], COLLISION_ENTITY, 1⟩, ⟨1 / 5, [1, 2], COLLISION_ENTITY, 1⟩,
          ⟨3 / 10, [2, 3], COLLISION_ENTITY, 1⟩]) ∧
    ((⟨1 / 5, [1, 2], COLLISION_ENTITY, 1⟩ : CollisionPseudoEvent) ∉
        fetchNextFilter
          [⟨1 / 10, [0, 1], COLLISION_ENTITY, 1⟩, ⟨1 / 5, [1, 2], COLLISION_ENTITY, 1⟩,
            ⟨3 / 10, [2, 3], COLLISION_ENTITY, 1⟩] ↔
      ((∃ o ∈ [(⟨1 / 10, [0, 1], COLLISION_ENTITY, 1⟩ : CollisionPseudoEvent),
            ⟨1 / 5, [1, 2], COLLISION_ENTITY, 1⟩, ⟨3 / 10, [2, 3], COLLISION_ENTITY, 1⟩],
          o.containsEvent ⟨1 / 5, [1, 2], COLLISION_ENTITY, 1⟩) ∨
        (∃ s ∈ fetchNextFilter
            [⟨1 / 10, [0, 1], COLLISION_ENTITY, 1⟩, ⟨1 / 5, [1, 2], COLLISION_ENTITY, 1⟩,
              ⟨3 / 10, [2, 3], COLLISION_ENTITY, 1⟩],
          s ≠ ⟨1 / 5, [1, 2], COLLISION_ENTITY, 1⟩ ∧
            s.eqEvent ⟨1 / 5, [1, 2], COLLISION_ENTITY, 1⟩))) := by
  have hwf : ∀ e ∈ [(⟨1 / 10, [0, 1], COLLISION_ENTITY, 1⟩ : CollisionPseudoEvent),
      ⟨1 / 5, [1, 2], COLLISION_ENTITY, 1⟩, ⟨3 / 10, [2, 3], COLLISION_ENTITY, 1⟩],
      e.wellFormed := by
    intro e he
    simp only [List.mem_cons, List.not_mem_nil, or_false] at he
    rcases he with rfl | rfl | rfl
    · exact fun _ => ⟨0, 1, rfl⟩
    · exact fun _ => ⟨1, 2, rfl⟩
    · exact fun _ => ⟨2, 3, rfl⟩
  exact ⟨(c3_fetch_next_events_amended _ hwf).2.1,
    (c3_fetch_next_events_amended _ hwf).2.2 _ (by simp)⟩

/-! ## The quadtree (`QuadTree`, claims C2 and C8)

`QuadTree._insert_into_children` begins with
`if self._center in collision_object.bounding_box_expanded:`.  `self._center`
is a numpy array, and the `in` operator calls
`AxisAlignedBoundingBox.__contains__`, whose body reads `other.position` —
an attribute a numpy array does not have.  Every call of
`_insert_into_children` therefore raises `AttributeError`; it is reached
whenever an insert overflows a leaf's capacity with depth budget remaining
(`_split` redistributes the nodes through it) and whenever an insert lands
on an already-split node.  The failure is modelled by `none`. -/

inductive QuadTree where
  | mk (bounds : Aabb) (center : ℚ × ℚ) (maxItems : ℕ) (maxDepth : ℕ)
      (nodes : List CollisionObject)
      (children : Option (QuadTree × QuadTree × QuadTree × QuadTree))

namespace QuadTree

def nodes : QuadTree → List CollisionObject
  | .mk _ _ _ _ ns _ => ns

def center : QuadTree → ℚ × ℚ
  | .mk _ c _ _ _ _ => c

def children : QuadTree → Option (QuadTree × QuadTree × QuadTree × QuadTree)
  | .mk _ _ _ _ _ cs => cs

/-- `QuadTree.__init__`: empty node list, no children, centre at
`position + bounds / 2` (numpy true division). -/
def init (bounds : Aabb) (nodeCapacity maxDepth : ℕ) : QuadTree :=
  .mk bounds (bounds.pos.1 + bounds.bounds.1 / 2, bounds.pos.2 + bounds.bounds.2 / 2)
    nodeCapacity maxDepth [] none

/-- `QuadTree.insert`.  A childless node appends; overflowing the capacity
with depth remaining calls `_split`, which redistributes through
`_insert_into_children` and crashes (`none`); a node with children forwards
to `_insert_into_children` and crashes immediately. -/
def insert : QuadTree → CollisionObject → Option QuadTree
  | .mk b c mi md ns none, o =>
    let ns2 := ns ++ [o]
    if ns2.length > mi ∧ 0 < md then none
    else some (.mk b c mi md ns2 none)
  | .mk _ _ _ _ _ (some _), _ => none

/-- Inserting a list of snapshots in order. -/
def insertAll (t : QuadTree) (objs : List CollisionObject) : Option QuadTree :=
  objs.foldlM insert t

/-- `QuadTree.intersect`, with the result list and the `unique` index set
threaded as an accumulator pair, descending into any child quadrant touched
by the query box and then scanning the node's own items with deduplication
by snapshot index. -/
def intersect : QuadTree → Aabb → (List CollisionObject × List ℕ) →
    (List CollisionObject × List ℕ)
  | .mk _ c _ _ ns cs, q, acc =>
    let acc1 :=
      match cs with
      | none => acc
      | some (c0, c1, c2, c3) =>
        let a0 := if q.pos.1 ≤ c.1 ∧ q.pos.2 ≤ c.2 then intersect c0 q acc else acc
        let a1 := if q.pos.1 ≤ c.1 ∧ c.2 ≤ q.pos.2 + q.bounds.2 then
            intersect c1 q a0 else a0
        let a2 := if c.1 ≤ q.pos.1 + q.bounds.1 ∧ q.pos.2 ≤ c.2 then
            intersect c2 q a1 else a1
        if c.1 ≤ q.pos.1 + q.bounds.1 ∧ c.2 ≤ q.pos.2 + q.bounds.2 then
          intersect c3 q a2 else a2
    ns.foldl
      (fun acc2 node =>
        if node.index ∉ acc2.2 ∧ q.intersects node.boundingBoxExpanded then
          (acc2.1 ++ [node], acc2.2 ++ [node.index])
        else acc2)
      acc1

/-- The top-level query: `tree.intersect(bounds)` with fresh accumulators. -/
def query (t : QuadTree) (q : Aabb) : List CollisionObject :=
  (intersect t q ([], [])).1

end QuadTree

/-- **C2**: the quadtree cannot be populated beyond its node capacity at
all: the second insert into a capacity-1 tree (depth budget 5) overflows the
leaf, `_split` redistributes through `_insert_into_children`, and that
method's first statement raises `AttributeError` (`self._center in box`
calls `AxisAlignedBoundingBox.__contains__` with a numpy array, which has no
`.position`).  The claimed exact-broad-phase behaviour of `intersect` is
therefore unreachable for any inserted sequence that triggers a split. -/
theorem c2_quadtree_insert_split_crash :
    QuadTree.insertAll (QuadTree.init ⟨(0, 0), (64, 64)⟩ 1 5)
      [mkCollisionObject 0 ⟨(1, 1), (2, 2), (0, 0), 0, [], true, false⟩ 0,
        mkCollisionObject 1 ⟨(10, 10), (2, 2), (0, 0), 0, [], true, false⟩ 0] = none := by
  rfl

/-- **C8**: a leaf that exceeds its capacity while depth budget remains does
*not* split and redistribute: the third insert into a capacity-2, depth-5
tree reaches `_split`, whose redistribution loop calls
`_insert_into_children` and raises `AttributeError` on its first statement,
so no node is ever kept at a split node nor pushed into a child. -/
theorem c8_quadtree_split_crash :
    QuadTree.insertAll (QuadTree.init ⟨(0, 0), (64, 64)⟩ 2 5)
      [mkCollisionObject 0 ⟨(1, 1), (2, 2), (0, 0), 0, [], true, false⟩ 0,
        mkCollisionObject 1 ⟨(10, 10), (2, 2), (0, 0), 0, [], true, false⟩ 0,
        mkCollisionObject 2 ⟨(20, 20), (2, 2), (0, 0), 0, [], true, false⟩ 0] = none := by
  rfl

/-! ## Tiles and the world configuration (`CollisionMap`, `TileManager`) -/

/-- `CollisionMap`: the per-edge collidability of a tile. -/
structure CollisionMap where
  collideNorth : Bool
  collideEast : Bool
  collideSouth : Bool
  collideWest : Bool
deriving DecidableEq, Repr

/-- The static collaborators of `WorldUpdater`: the tile manager (tile size
and collision-map lookup, an external collaborator modelled as a total
function), the tile array (a function plus its shape), the logic area and
the feature switches.  Python's subclass test for collider filtering is the
relation `issub`. -/
structure WorldConfig where
  tileSize : ℤ
  tilesShape : ℤ × ℤ
  tiles : ℤ → ℤ → ℤ
  collisionMap : ℤ → CollisionMap
  logicArea : Aabb
  logicTile : Bool
  logicEntity : Bool
  issub : ℕ → ℕ → Bool

/-- `WorldUpdater._get_tile_at`: out-of-range lookups are the no-tile
sentinel `-1`. -/
def getTileAt (cfg : WorldConfig) (x y : ℤ) : ℤ :=
  if 0 ≤ x ∧ x < cfg.tilesShape.1 ∧ 0 ≤ y ∧ y < cfg.tilesShape.2 then
    cfg.tiles x y
  else -1

/-- Python `range(a, b)` over integers. -/
def intRange (a b : ℤ) : List ℤ :=
  (List.range (b - a).toNat).map (fun (i : ℕ) => a + (i : ℤ))

/-- Python `range(a, b, -1)` over integers: `a, a-1, …, b+1`. -/
def intRangeDesc (a b : ℤ) : List ℤ :=
  (List.range (a - b).toNat).map (fun (i : ℕ) => a - (i : ℤ))

/-- Python `range(0, stop, step)` for a positive step.  (A non-positive step
raises `ValueError` in Python; it never occurs for entities with positive
extents, and is the empty list here.) -/
def rangeStep (stop step : ℤ) : List ℤ :=
  if step ≤ 0 then []
  else (List.range ((stop + step - 1).fdiv step).toNat).map (fun (i : ℕ) => step * (i : ℤ))

/-- `WorldUpdater._inner_polygon_test`: the double even-odd test run over
each vertex paired with its predecessor (Python's `vertices[vertex - 1]`
wraps around at index 0).  The divisions are guarded by the strict
comparisons of the y coordinates, so the divisors are nonzero. -/
def innerPolygonTest (vertices : List (ℤ × ℤ)) (x y : ℤ) : Bool :=
  let prev :=
    match vertices.getLast? with
    | none => []
    | some l => l :: vertices.dropLast
  let folded := (vertices.zip prev).foldl
    (fun acc vw =>
      let v := vw.1
      let w := vw.2
      let accP :=
        if ((y < v.2) ≠ (y < w.2)) ∧
            ((x : ℚ) < (v.1 : ℚ) + ((w.1 : ℚ) - (v.1 : ℚ)) * ((y : ℚ) - (v.2 : ℚ)) /
              ((w.2 : ℚ) - (v.2 : ℚ))) then
          !acc.1
        else acc.1
      let accN :=
        if ((v.2 < y + 1) ≠ (w.2 < y + 1)) ∧
            (-(x : ℚ) - 1 < -(v.1 : ℚ) + ((v.1 : ℚ) - (w.1 : ℚ)) * (-(y : ℚ) - 1 + (v.2 : ℚ)) /
              ((v.2 : ℚ) - (w.2 : ℚ))) then
          !acc.2
        else acc.2
      (accP, accN))
    (false, false)
  folded.1 || folded.2

/-- The rasterization of the swept quadrilateral onto one tile cell
(absolute tile coordinates): the cell at `(x, y)` tiles is marked when one of
the sampled boundary points lies inside the polygon, first sampling the
bottom/top edges at the x offsets, then the right/left edges at the y
offsets (the `for…break/else` of the source). -/
def rasterCell (vertices : List (ℤ × ℤ)) (ts : ℤ) (indexesX indexesY : List ℤ)
    (xTile yTile : ℤ) : Bool :=
  let x := xTile * ts
  let y := yTile * ts
  if indexesX.any (fun off =>
      innerPolygonTest vertices (x + off) y ||
        innerPolygonTest vertices (x + off) (y + ts)) then
    true
  else
    indexesY.any (fun off =>
      innerPolygonTest vertices (x + ts) (y + off) ||
        innerPolygonTest vertices x (y + off))

/-- The mutable state of the diagonal scan of `_tile_collision_detection`:
`time_of_impact`, `collision_tile`, its cell, `collision_direction`, and the
`found_x`/`found_y` flags. -/
structure TileScanState where
  toi : ℚ
  tile : ℤ
  tx : ℤ
  ty : ℤ
  dir : ℤ
  foundX : Bool
  foundY : Bool
deriving Repr

/-- Runs the nested cell loops of the diagonal scan: `.error` is an early
`return`, `.ok` the state carried to the next cell. -/
def tileScanLoop (step : (ℤ × ℤ) → TileScanState → Except (ℚ × ℤ × ℤ × ℤ × ℤ) TileScanState) :
    List (ℤ × ℤ) → TileScanState → Except (ℚ × ℤ × ℤ × ℤ × ℤ) TileScanState
  | [], st => .ok st
  | c :: cs, st =>
    match step c st with
    | .error r => .error r
    | .ok st2 => tileScanLoop step cs st2

/-- The value of a numpy float division in the diagonal scan.  The speed
components are int32 promoted to float64, so dividing a nonzero numerator by
a zero speed yields a signed infinity rather than raising.  (A 0/0, which
would be NaN, cannot occur in the scans: whenever a speed component is zero
there, the corresponding numerator is strictly positive.) -/
inductive XRat where
  | negInf : XRat
  | fin : ℚ → XRat
  | posInf : XRat
deriving DecidableEq, Repr

/-- Strict `<` on division results, as float comparison (no NaN arises). -/
def XRat.ltB : XRat → XRat → Bool
  | .negInf, .negInf => false
  | .negInf, _ => true
  | _, .negInf => false
  | .posInf, _ => false
  | .fin _, .posInf => true
  | .fin a, .fin b => decide (a < b)

/-- `a >= b` on division results is the negation of `a < b` idealized to a
total order (sound without NaN). -/
def XRat.leB (a b : XRat) : Bool := !(XRat.ltB b a)

/-- numpy division of int32-valued floats: division by zero is a signed
infinity (the `0 ≤` tie is arbitrary; a zero-over-zero never occurs in the
scans). -/
def npDiv (a b : ℚ) : XRat :=
  if b = 0 then (if 0 ≤ a then .posInf else .negInf) else .fin (a / b)

/-- The finite value of a scan time; only read under a strict comparison
against a finite bound, which guarantees finiteness. -/
def XRat.finD : XRat → ℚ
  | .fin q => q
  | _ => 0

/-- The no-collision result of `_tile_collision_detection`. -/
def tileSentinel : ℚ × ℤ × ℤ × ℤ × ℤ := (1, -1, -1, -1, DIRECTION_NONE)

/-- The cell sequence of a nested `for x: for y:` loop, in loop order. -/
def cellsOf (xs ys : List ℤ) : List (ℤ × ℤ) :=
  xs.flatMap (fun x => ys.map (fun y => (x, y)))

/-- The precomputed geometry of `_tile_collision_detection`: the int32 casts
(truncation) of the box corners before and after the remaining displacement
`speed * (1 - local_time)`, and their tile coordinates — numpy floor
divisions by the tile size, each max corner pulled back by one when it sits
exactly on a tile boundary. -/
structure TilePre where
  ts : ℤ
  lt : ℚ
  speed : ℤ × ℤ
  preMin : ℤ × ℤ
  preMax : ℤ × ℤ
  postMin : ℤ × ℤ
  postMax : ℤ × ℤ
  preMinT : ℤ × ℤ
  preMaxT : ℤ × ℤ
  postMinT : ℤ × ℤ
  postMaxT : ℤ × ℤ

/-- Lines 2163–2188 of `_tile_collision_detection`. -/
def tilePre (cfg : WorldConfig) (collider : CollisionObject) : TilePre :=
  let ts := cfg.tileSize
  let bounds := collider.boundingBox
  let speed := collider.speed
  let lt := collider.localTime
  let preMin : ℤ × ℤ := (ratTrunc bounds.pos.1, ratTrunc bounds.pos.2)
  let preMax : ℤ × ℤ :=
    (ratTrunc (bounds.pos.1 + bounds.bounds.1), ratTrunc (bounds.pos.2 + bounds.bounds.2))
  let postMin : ℤ × ℤ :=
    (ratTrunc ((preMin.1 : ℚ) + (speed.1 : ℚ) * (1 - lt)),
     ratTrunc ((preMin.2 : ℚ) + (speed.2 : ℚ) * (1 - lt)))
  let postMax : ℤ × ℤ :=
    (ratTrunc ((preMax.1 : ℚ) + (speed.1 : ℚ) * (1 - lt)),
     ratTrunc ((preMax.2 : ℚ) + (speed.2 : ℚ) * (1 - lt)))
  { ts := ts
    lt := lt
    speed := speed
    preMin := preMin
    preMax := preMax
    postMin := postMin
    postMax := postMax
    preMinT := (preMin.1.fdiv ts, preMin.2.fdiv ts)
    preMaxT :=
      (if preMax.1 % ts = 0 then preMax.1.fdiv ts - 1 else preMax.1.fdiv ts,
       if preMax.2 % ts = 0 then preMax.2.fdiv ts - 1 else preMax.2.fdiv ts)
    postMinT := (postMin.1.fdiv ts, postMin.2.fdiv ts)
    postMaxT :=
      (if postMax.1 % ts = 0 then postMax.1.fdiv ts - 1 else postMax.1.fdiv ts,
       if postMax.2 % ts = 0 then postMax.2.fdiv ts - 1 else postMax.2.fdiv ts) }

/-- The first return of `_tile_collision_detection`: the tile footprint does
not change during the remaining step. -/
def tileFootprintUnchanged (p : TilePre) : Prop :=
  p.preMinT.1 = p.postMinT.1 ∧ p.preMinT.2 = p.postMinT.2 ∧
    p.preMaxT.1 = p.postMaxT.1 ∧ p.preMaxT.2 = p.postMaxT.2

instance (p : TilePre) : Decidable (tileFootprintUnchanged p) :=
  inferInstanceAs (Decidable (_ ∧ _))

/-- The four straight-axis scans of `_tile_collision_detection` (pure-x or
pure-y tile motion); `none` means the axis `elif` chain fell through to the
diagonal sweep.  Each scan returns the first blocking tile in sweep order or
the sentinel.  The divisors are nonzero whenever the branch is reached: a
zero speed component leaves that axis's tile range unchanged. -/
def tileAxisScan (cfg : WorldConfig) (p : TilePre) :
    Option (ℚ × ℤ × ℤ × ℤ × ℤ) :=
  if p.postMinT.2 = p.preMinT.2 ∧ p.postMaxT.2 = p.preMaxT.2 then
    if p.preMaxT.1 < p.postMaxT.1 then
      some (((intRange (p.preMaxT.1 + 1) (p.postMaxT.1 + 1)).findSome? (fun x =>
        (intRange p.preMinT.2 (p.preMaxT.2 + 1)).findSome? (fun y =>
          let tile := getTileAt cfg x y
          if 0 < tile ∧ (cfg.collisionMap tile).collideWest = true then
            some (((x * p.ts - p.preMax.1 : ℤ) : ℚ) / (p.speed.1 : ℚ) + p.lt, tile, x, y,
              DIRECTION_EAST)
          else none))).getD tileSentinel)
    else if p.postMinT.1 < p.preMinT.1 then
      some (((intRangeDesc (p.preMinT.1 - 1) (p.postMinT.1 - 1)).findSome? (fun x =>
        (intRange p.preMinT.2 (p.preMaxT.2 + 1)).findSome? (fun y =>
          let tile := getTileAt cfg x y
          if 0 < tile ∧ (cfg.collisionMap tile).collideEast = true then
            some ((((x + 1) * p.ts - p.preMin.1 : ℤ) : ℚ) / (p.speed.1 : ℚ) + p.lt, tile, x, y,
              DIRECTION_WEST)
          else none))).getD tileSentinel)
    else none
  else if p.postMinT.1 = p.preMinT.1 ∧ p.postMaxT.1 = p.preMaxT.1 then
    if p.preMaxT.2 < p.postMaxT.2 then
      some (((intRange (p.preMaxT.2 + 1) (p.postMaxT.2 + 1)).findSome? (fun y =>
        (intRange p.preMinT.1 (p.preMaxT.1 + 1)).findSome? (fun x =>
          let tile := getTileAt cfg x y
          if 0 < tile ∧ (cfg.collisionMap tile).collideSouth = true then
            some (((y * p.ts - p.preMax.2 : ℤ) : ℚ) / (p.speed.2 : ℚ) + p.lt, tile, x, y,
              DIRECTION_NORTH)
          else none))).getD tileSentinel)
    else if p.postMinT.2 < p.preMinT.2 then
      some (((intRangeDesc (p.preMinT.2 - 1) (p.postMinT.2 - 1)).findSome? (fun y =>
        (intRange p.preMinT.1 (p.preMaxT.1 + 1)).findSome? (fun x =>
          let tile := getTileAt cfg x y
          if 0 < tile ∧ (cfg.collisionMap tile).collideNorth = true then
            some ((((y + 1) * p.ts - p.preMin.2 : ℤ) : ℚ) / (p.speed.2 : ℚ) + p.lt, tile, x, y,
              DIRECTION_SOUTH)
          else none))).getD tileSentinel)
    else none
  else none

/-- The swept-quadrilateral vertices of the diagonal sweep, one hexagon per
speed quadrant (lines 2248–2266). -/
def tileVertices (p : TilePre) : List (ℤ × ℤ) :=
  if 0 < p.speed.1 then
    if 0 < p.speed.2 then
      [(p.preMin.1, p.preMin.2), (p.preMax.1 + 1, p.preMin.2),
       (p.postMax.1 + 1, p.postMin.2), (p.postMax.1 + 1, p.postMax.2 + 1),
       (p.postMin.1, p.postMax.2 + 1), (p.preMin.1, p.preMax.2 + 1)]
    else
      [(p.preMin.1, p.preMax.2 + 1), (p.preMin.1, p.preMin.2),
       (p.postMin.1, p.postMin.2), (p.postMax.1 + 1, p.postMin.2),
       (p.postMax.1 + 1, p.postMax.2 + 1), (p.preMax.1 + 1, p.preMax.2 + 1)]
  else
    if 0 < p.speed.2 then
      [(p.preMax.1 + 1, p.preMin.2), (p.preMax.1 + 1, p.preMax.2 + 1),
       (p.postMax.1 + 1, p.postMax.2 + 1), (p.postMin.1, p.postMax.2 + 1),
       (p.postMin.1, p.postMin.2), (p.preMin.1, p.preMin.2)]
    else
      [(p.preMax.1 + 1, p.preMax.2 + 1), (p.preMin.1, p.preMax.2 + 1),
       (p.postMin.1, p.postMax.2 + 1), (p.postMin.1, p.postMin.2),
       (p.postMax.1 + 1, p.postMin.2), (p.preMax.1 + 1, p.preMin.2)]

/-- The sampled offsets `indexes_x`/`indexes_y` of the rasterizer:
`range(0, tile_size, int(width))` with `tile_size - 1` appended when
missing. -/
def tileIndexes (ts : ℤ) (w : ℚ) : List ℤ :=
  let r := rangeStep ts (ratTrunc w)
  if ts - 1 ∈ r then r else r ++ [ts - 1]

/-- One cell visit of the diagonal sweep (the shared shape of the four
quadrant loops): cells inside the original footprint or unmarked by the
raster are skipped; a blocking tile updates the per-axis earliest time and
returns early once both axes have been found. -/
def tileScanStep (cfg : WorldConfig) (p : TilePre) (raster : ℤ → ℤ → Bool)
    (t0 t1 : ℤ × ℤ → XRat) (flagA flagB : CollisionMap → Bool) (dirA dirB : ℤ)
    (c : ℤ × ℤ) (st : TileScanState) :
    Except (ℚ × ℤ × ℤ × ℤ × ℤ) TileScanState :=
  if (p.preMinT.1 ≤ c.1 ∧ c.1 ≤ p.preMaxT.1 ∧ p.preMinT.2 ≤ c.2 ∧ c.2 ≤ p.preMaxT.2) ∨
      raster c.1 c.2 = false then
    Except.ok st
  else
    let tile := getTileAt cfg c.1 c.2
    if 0 < tile then
      let cm := cfg.collisionMap tile
      let i0 := t0 c
      let i1 := t1 c
      if XRat.leB i1 i0 then
        if flagA cm && XRat.ltB i0 (.fin st.toi) then
          if st.foundY then Except.error (i0.finD + p.lt, tile, c.1, c.2, dirA)
          else Except.ok ⟨i0.finD, tile, c.1, c.2, dirA, true, st.foundY⟩
        else Except.ok st
      else
        if flagB cm && XRat.ltB i1 (.fin st.toi) then
          if st.foundX then Except.error (i1.finD + p.lt, tile, c.1, c.2, dirB)
          else Except.ok ⟨i1.finD, tile, c.1, c.2, dirB, st.foundX, true⟩
        else Except.ok st
    else Except.ok st

/-- One quadrant loop of the diagonal sweep: the cell loop run from the
initial state (`time_of_impact = 1 - local_time`, nothing found), the early
return passed through, and otherwise the final
`if found_x or found_y: return …` / sentinel. -/
def tileRunScan (cfg : WorldConfig) (p : TilePre) (raster : ℤ → ℤ → Bool)
    (cells : List (ℤ × ℤ)) (t0 t1 : ℤ × ℤ → XRat)
    (flagA flagB : CollisionMap → Bool) (dirA dirB : ℤ) :
    ℚ × ℤ × ℤ × ℤ × ℤ :=
  match tileScanLoop (tileScanStep cfg p raster t0 t1 flagA flagB dirA dirB) cells
      ⟨1 - p.lt, 0, 0, 0, DIRECTION_NONE, false, false⟩ with
  | Except.error r => r
  | Except.ok st =>
    if st.foundX || st.foundY then (st.toi + p.lt, st.tile, st.tx, st.ty, st.dir)
    else tileSentinel

/-- The diagonal sweep (lines 2248–2487): rasterize the swept hexagon, then
scan the four speed quadrants' cell ranges. -/
def tileDiagonal (cfg : WorldConfig) (bounds : Aabb) (p : TilePre) :
    ℚ × ℤ × ℤ × ℤ × ℤ :=
  let vertices := tileVertices p
  let indexesX := tileIndexes p.ts bounds.bounds.1
  let indexesY := tileIndexes p.ts bounds.bounds.2
  let raster := fun (x y : ℤ) => rasterCell vertices p.ts indexesX indexesY x y
  if 0 < p.speed.1 then
    if 0 < p.speed.2 then
      tileRunScan cfg p raster
        (cellsOf (intRange p.preMinT.1 (p.postMaxT.1 + 1))
          (intRange p.preMinT.2 (p.postMaxT.2 + 1)))
        (fun c => npDiv ((c.1 * p.ts - p.preMax.1 : ℤ) : ℚ) (p.speed.1 : ℚ))
        (fun c => npDiv ((c.2 * p.ts - p.preMax.2 : ℤ) : ℚ) (p.speed.2 : ℚ))
        CollisionMap.collideWest CollisionMap.collideSouth
        DIRECTION_EAST DIRECTION_NORTH
    else
      tileRunScan cfg p raster
        (cellsOf (intRange p.preMinT.1 (p.postMaxT.1 + 1))
          (intRangeDesc p.preMaxT.2 (p.postMinT.2 - 1)))
        (fun c => npDiv ((c.1 * p.ts - p.preMax.1 : ℤ) : ℚ) (p.speed.1 : ℚ))
        (fun c => npDiv (((c.2 + 1) * p.ts - p.preMin.2 : ℤ) : ℚ) (p.speed.2 : ℚ))
        CollisionMap.collideWest CollisionMap.collideNorth
        DIRECTION_EAST DIRECTION_SOUTH
  else
    if 0 < p.speed.2 then
      tileRunScan cfg p raster
        (cellsOf (intRangeDesc p.preMaxT.1 (p.postMinT.1 - 1))
          (intRange p.preMinT.2 (p.postMaxT.2 + 1)))
        (fun c => npDiv (((c.1 + 1) * p.ts - p.preMin.1 : ℤ) : ℚ) (p.speed.1 : ℚ))
        (fun c => npDiv ((c.2 * p.ts - p.preMax.2 : ℤ) : ℚ) (p.speed.2 : ℚ))
        CollisionMap.collideEast CollisionMap.collideSouth
        DIRECTION_WEST DIRECTION_NORTH
    else
      tileRunScan cfg p raster
        (cellsOf (intRangeDesc p.preMaxT.1 (p.postMinT.1 - 1))
          (intRangeDesc p.preMaxT.2 (p.postMinT.2 - 1)))
        (fun c => npDiv (((c.1 + 1) * p.ts - p.preMin.1 : ℤ) : ℚ) (p.speed.1 : ℚ))
        (fun c => npDiv (((c.2 + 1) * p.ts - p.preMin.2 : ℤ) : ℚ) (p.speed.2 : ℚ))
        CollisionMap.collideEast CollisionMap.collideNorth
        DIRECTION_WEST DIRECTION_SOUTH

/-- `WorldUpdater._tile_collision_detection`: an unchanged tile footprint
returns the sentinel; a pure-x (pure-y) tile motion runs the straight
east/west (north/south) scans; anything else — including an axis branch
whose two direction tests both fail — falls through to the diagonal
sweep. -/
def tileCollisionDetection (cfg : WorldConfig) (collider : CollisionObject) :
    ℚ × ℤ × ℤ × ℤ × ℤ :=
  let p := tilePre cfg collider
  if tileFootprintUnchanged p then tileSentinel
  else
    match tileAxisScan cfg p with
    | some r => r
    | none => tileDiagonal cfg collider.boundingBox p

/-! ## Event extraction (`WorldUpdater._process_collision_events`,
`WorldUpdater.fetch_next_events`) -/

/-- The per-entity search state of `_process_collision_events`:
`time_of_impact`, `colliders`, `collision_type`, `collision_direction` and
`event_found`. -/
structure EventSearchState where
  timeOfImpact : ℚ
  colliders : List ℤ
  collisionType : ℕ
  collisionDirection : ℤ
  eventFound : Bool
deriving Repr

/-- The body of the per-snapshot loop of
`WorldUpdater._process_collision_events`: query the quadtree with the
expanded box, test every candidate with a larger index passing the mutual
collider filter through `_apply_sat` keeping the earliest event, then let
the tile detection override it. -/
def processOneCollision (cfg : WorldConfig) (tree : QuadTree)
    (obj : CollisionObject) : EventSearchState :=
  let others := tree.query obj.boundingBoxExpanded
  let st0 : EventSearchState := ⟨1, [], COLLISION_NONE, DIRECTION_NONE, false⟩
  let st1 := others.foldl
    (fun st collided =>
      if cfg.logicEntity = true ∧ obj.index < collided.index ∧
          shouldCollideWith cfg.issub obj collided = true ∧
          shouldCollideWith cfg.issub collided obj = true then
        let r := applySat obj collided
        if r.2 ≠ DIRECTION_NONE ∧ r.1 < st.timeOfImpact then
          ⟨r.1, [(obj.index : ℤ), (collided.index : ℤ)], COLLISION_ENTITY, r.2, true⟩
        else st
      else st)
    st0
  if cfg.logicTile = true ∧ obj.collidesWithTiles = true then
    let r := tileCollisionDetection cfg obj
    if r.2.2.2.2 ≠ DIRECTION_NONE ∧ r.1 < st1.timeOfImpact then
      ⟨r.1, [(obj.index : ℤ), r.2.1, r.2.2.1, r.2.2.2.1], COLLISION_TILE,
        r.2.2.2.2, true⟩
    else st1
  else st1

/-- `WorldUpdater._process_collision_events` on a list of snapshots: an
event is emitted per snapshot whose search found anything. -/
def processCollisionEvents (cfg : WorldConfig) (objs : List CollisionObject)
    (tree : QuadTree) : List CollisionPseudoEvent :=
  objs.foldl
    (fun events obj =>
      let st2 := processOneCollision cfg tree obj
      if st2.eventFound then
        events ++ [⟨st2.timeOfImpact, st2.colliders, st2.collisionType,
          st2.collisionDirection⟩]
      else events)
    []

/-- `WorldUpdater.fetch_next_events`: one snapshot per entity (paired with
its local time), all inserted into a fresh quadtree over the logic area with
the hardcoded capacity 32 and depth 5 — `none` is the `AttributeError` this
raises as soon as an insert overflows a leaf — then the candidate events
(computed sequentially; the optional thread pool partitions the snapshot
list but writes no shared state, so it computes the same concatenation) are
reduced to the returned batch. -/
def fetchNextEvents (cfg : WorldConfig) (entities : List Entity)
    (localTimes : List ℚ) : Option (List CollisionPseudoEvent) :=
  let objs := (entities.zip localTimes).enum.map
    (fun p => mkCollisionObject p.1 p.2.1 p.2.2)
  match QuadTree.insertAll (QuadTree.init cfg.logicArea 32 5) objs with
  | none => none
  | some tree => some (fetchNextFilter (processCollisionEvents cfg objs tree))

/-! ## The update loop (`World.update`) -/

/-- The advance of one entity to an event's impact time
(`World.update`, both the entity-event and tile-event bodies): the exact
new position `position + speed * (time_of_impact - local_time)` is floored
by `numpy.floor` and stored through the position setter (an int32 cast,
i.e. truncation — the identity on an already-floored value), and the
entity's local time becomes the impact time.  An out-of-range index (never
produced by the engine) leaves the state unchanged where Python would
raise. -/
def advanceEntity (entities : List Entity) (lts : List ℚ) (idx : ℤ) (toi : ℚ) :
    List Entity × List ℚ :=
  let i := idx.toNat
  match entities.get? i with
  | none => (entities, lts)
  | some e =>
    let lt := lts.getD i 0
    let exact : ℚ × ℚ :=
      ((e.pos.1 : ℚ) + (e.speed.1 : ℚ) * (toi - lt),
       (e.pos.2 : ℚ) + (e.speed.2 : ℚ) * (toi - lt))
    let stored : ℤ × ℤ := (ratTrunc ((⌊exact.1⌋ : ℤ) : ℚ), ratTrunc ((⌊exact.2⌋ : ℤ) : ℚ))
    (entities.set i { e with pos := stored }, lts.set i toi)

/-- The end-of-step advance (`World.update`, final loop): each surviving
entity is moved by `speed * (1 - local_time)` and the exact position is
stored through the position setter's int32 cast — a truncation, with no
`numpy.floor` first. -/
def finalAdvance (entities : List Entity) (lts : List ℚ) : List Entity :=
  (entities.zip lts).map
    (fun p =>
      { p.1 with
        pos := (ratTrunc ((p.1.pos.1 : ℚ) + (p.1.speed.1 : ℚ) * (1 - p.2)),
                ratTrunc ((p.1.pos.2 : ℚ) + (p.1.speed.2 : ℚ) * (1 - p.2))) })

/-! ## Claim C10: grid landing of the event advances -/

theorem ratTrunc_intCast (n : ℤ) : ratTrunc ((n : ℤ) : ℚ) = n := by
  unfold ratTrunc
  split
  · exact Int.floor_intCast n
  · exact Int.ceil_intCast n

theorem ratTrunc_le_of_nonneg {q : ℚ} (h : 0 ≤ q) : (ratTrunc q : ℚ) ≤ q := by
  unfold ratTrunc
  rw [if_pos h]
  exact Int.floor_le q

theorem le_ratTrunc_of_nonpos {q : ℚ} (h : ¬ 0 ≤ q) : q ≤ (ratTrunc q : ℚ) := by
  unfold ratTrunc
  rw [if_neg h]
  exact Int.le_ceil q

/-- **C10**: when `World.update` advances an entity to a surviving event's
impact time (the entity-event and tile-event bodies share this code), the
stored position is the componentwise floor — rounding toward negative
infinity — of `position + speed * (time_of_impact - local_time)` (the
`numpy.floor` lands the value on the integer grid, so the int32 cast of the
position setter changes nothing further), the entity's local time becomes
the impact time, and the exact fractional contact point sits within `[0, 1)`
of the stored grid point; the final end-of-step advance instead stores the
int32 cast (truncation, not a floor) of the exact
`position + speed * (1 - local_time)`. -/
theorem c10_event_advance_floors_final_advance_truncates
    (entities : List Entity) (lts : List ℚ) (idx : ℤ) (toi : ℚ) (e : Entity)
    (he : entities.get? idx.toNat = some e) (hl : idx.toNat < lts.length) :
    (advanceEntity entities lts idx toi).1.get? idx.toNat =
      some { e with pos :=
        (⌊(e.pos.1 : ℚ) + (e.speed.1 : ℚ) * (toi - lts.getD idx.toNat 0)⌋,
         ⌊(e.pos.2 : ℚ) + (e.speed.2 : ℚ) * (toi - lts.getD idx.toNat 0)⌋) } ∧
    (advanceEntity entities lts idx toi).2.get? idx.toNat = some toi ∧
    (∀ (q : ℚ), (⌊q⌋ : ℚ) ≤ q ∧ q < ⌊q⌋ + 1) ∧
    ∀ (f : Entity) (t : ℚ),
      finalAdvance [f] [t] =
        [{ f with pos :=
          (ratTrunc ((f.pos.1 : ℚ) + (f.speed.1 : ℚ) * (1 - t)),
           ratTrunc ((f.pos.2 : ℚ) + (f.speed.2 : ℚ) * (1 - t))) }] := by
  have hlen : idx.toNat < entities.length := by
    by_contra hcon
    rw [List.get?_eq_none.mpr (le_of_not_lt hcon)] at he
    exact Option.noConfusion he
  refine ⟨?_, ?_, ?_, ?_⟩
  · unfold advanceEntity
    dsimp only
    rw [he]
    dsimp only
    simp only [ratTrunc_intCast]
    rw [List.get?_eq_getElem?, List.getElem?_set_self hlen]
  · unfold advanceEntity
    dsimp only
    rw [he]
    dsimp only
    rw [List.get?_eq_getElem?, List.getElem?_set_self hl]
  · intro q
    exact ⟨Int.floor_le q, Int.lt_floor_add_one q⟩
  · intro f t
    rfl

/-- Witness for C10: one entity at the origin with speed `(3, -3)`,
advanced from local time `1/2` to impact time `3/4`: the stored position is
`(⌊3/4⌋, ⌊-3/4⌋) = (0, -1)`. -/
theorem c10_event_advance_floors_final_advance_truncates_witness :
    (([(⟨(0, 0), (4, 4), (3, -3), 0, [], true, false⟩ : Entity)].get? (0 : ℤ).toNat =
        some ⟨(0, 0), (4, 4), (3, -3), 0, [], true, false⟩) ∧
      (0 : ℤ).toNat < ([1 / 2] : List ℚ).length) ∧
    ((advanceEntity [⟨(0, 0), (4, 4), (3, -3), 0, [], true, false⟩] [1 / 2] 0 (3 / 4)).1.get?
        (0 : ℤ).toNat =
      some { (⟨(0, 0), (4, 4), (3, -3), 0, [], true, false⟩ : Entity) with pos :=
        (⌊((0 : ℤ) : ℚ) + ((3 : ℤ) : ℚ) * (3 / 4 - ([1 / 2] : List ℚ).getD (0 : ℤ).toNat 0)⌋,
         ⌊((0 : ℤ) : ℚ) + ((-3 : ℤ) : ℚ) * (3 / 4 - ([1 / 2] : List ℚ).getD (0 : ℤ).toNat 0)⌋) } ∧
      (advanceEntity [⟨(0, 0), (4, 4), (3, -3), 0, [], true, false⟩] [1 / 2] 0 (3 / 4)).2.get?
          (0 : ℤ).toNat = some (3 / 4) ∧
      (∀ (q : ℚ), (⌊q⌋ : ℚ) ≤ q ∧ q < ⌊q⌋ + 1) ∧
      ∀ (f : Entity) (t : ℚ),
        finalAdvance [f] [t] =
          [{ f with pos :=
            (ratTrunc ((f.pos.1 : ℚ) + (f.speed.1 : ℚ) * (1 - t)),
             ratTrunc ((f.pos.2 : ℚ) + (f.speed.2 : ℚ) * (1 - t))) }]) :=
  ⟨⟨rfl, by decide⟩,
    c10_event_advance_floors_final_advance_truncates
      [⟨(0, 0), (4, 4), (3, -3), 0, [], true, false⟩] [1 / 2] 0 (3 / 4)
      ⟨(0, 0), (4, 4), (3, -3), 0, [], true, false⟩ rfl (by decide)⟩

/-! ## The mutable tick state of `World.update` and the past-event guard -/

/-- The mutable state of one `World.update` call: the surviving entities,
their local times, the `past_events` set (as the insertion-ordered list of
its elements) and — the observable output — the events fired on the event
queue so far, in order. -/
structure WorldTickState where
  entities : List Entity
  localTimes : List ℚ
  pastEvents : List CollisionPseudoEvent
  firedEvents : List CollisionPseudoEvent

/-- A collision handler registered on the event queue, `fire_event`
dispatches synchronously: it receives the tick and the fired event (which
carries references to the involved entities) and may mutate entity
positions and speeds. -/
abbrev CollisionHandler := ℕ → CollisionPseudoEvent → List Entity → List Entity

/-- The tuple hashed by `CollisionPseudoEvent.__hash__` agrees:
`hash(colliders + (time_of_impact, collision_type, collision_type))` hashes
colliders, impact time and type — the direction is left out. -/
def sameHashKey (p e : CollisionPseudoEvent) : Prop :=
  p.colliders = e.colliders ∧ p.timeOfImpact = e.timeOfImpact ∧
    p.collisionType = e.collisionType

instance (p e : CollisionPseudoEvent) : Decidable (sameHashKey p e) :=
  inferInstanceAs (Decidable (_ ∧ _))

/-- `event in past_events` on the Python set: a stored element with an equal
hash that compares `__eq__`-equal.  Equal hashes are idealized as equality
of the hashed tuples (the probe also compares on accidental hash
collisions, but `__eq__` then requires a shared collider identity, which
equal collider tuples subsume). -/
def pastHit (past : List CollisionPseudoEvent) (e : CollisionPseudoEvent) : Prop :=
  ∃ p ∈ past, sameHashKey p e ∧ p.eqEvent e

instance (past : List CollisionPseudoEvent) (e : CollisionPseudoEvent) :
    Decidable (pastHit past e) :=
  List.decidableBEx _ past

/-- The guard as the code evaluates it. -/
def pastHitB (past : List CollisionPseudoEvent) (e : CollisionPseudoEvent) : Bool :=
  decide (pastHit past e)

/-- The event-processing body of the `for event in events:` loop of
`World.update`, parameterized by the membership test used for the
`event in past_events` guard: with safe mode, a guard hit raises
`UnsolvedCollisionError` (`.error`, carrying the events fired so far);
otherwise an entity event advances both colliders to the impact time and
fires, a tile event advances its entity and fires (firing dispatches the
registered handlers synchronously, which may mutate the entities), and the
event joins `past_events`. -/
def processEventWith (mem : List CollisionPseudoEvent → CollisionPseudoEvent → Bool)
    (safe : Bool) (handler : CollisionHandler) (tick : ℕ)
    (st : WorldTickState) (event : CollisionPseudoEvent) :
    Except (List CollisionPseudoEvent) WorldTickState :=
  if safe = true ∧ mem st.pastEvents event = true then .error st.firedEvents
  else
    let s1 : List Entity × List ℚ :=
      if event.collisionType = COLLISION_ENTITY then
        let adv := event.colliders.foldl
          (fun p c => advanceEntity p.1 p.2 c event.timeOfImpact)
          (st.entities, st.localTimes)
        (handler tick event adv.1, adv.2)
      else (st.entities, st.localTimes)
    let s2 : List Entity × List ℚ :=
      if event.collisionType = COLLISION_TILE then
        let adv := advanceEntity s1.1 s1.2 (event.colliders.getD 0 0) event.timeOfImpact
        (handler tick event adv.1, adv.2)
      else s1
    .ok ⟨s2.1, s2.2, st.pastEvents ++ [event], st.firedEvents ++ [event]⟩

/-- The outcome of an update: the guard raised (`unsolvedCollision`), the
quadtree split crash propagated out of `fetch_next_events`
(`attributeError`), or the model's round budget ran out (the source loops
unboundedly; `outOfFuel` marks runs the bounded model cannot finish). -/
inductive UpdateErr where
  | unsolvedCollision
  | attributeError
  | outOfFuel
deriving DecidableEq, Repr

/-- The `while collision_remaining:` loop of `World.update`: each round
fetches the next independent events and processes them in order; an empty
batch ends the loop. -/
def updateRoundsWith (mem : List CollisionPseudoEvent → CollisionPseudoEvent → Bool)
    (cfg : WorldConfig) (safe : Bool) (handler : CollisionHandler) (tick : ℕ) :
    ℕ → WorldTickState →
      (Except UpdateErr (List Entity × List ℚ)) × List CollisionPseudoEvent
  | 0, st => (.error .outOfFuel, st.firedEvents)
  | fuel + 1, st =>
    match fetchNextEvents cfg st.entities st.localTimes with
    | none => (.error .attributeError, st.firedEvents)
    | some evs =>
      if evs.isEmpty then (.ok (st.entities, st.localTimes), st.firedEvents)
      else
        match evs.foldlM (processEventWith mem safe handler tick) st with
        | .error tr => (.error .unsolvedCollision, tr)
        | .ok st2 => updateRoundsWith mem cfg safe handler tick fuel st2

/-- `World.update`: destroyed objects are dropped, local times start at 0,
an empty world returns at once, the round loop runs, and the surviving
entities get the end-of-step advance.  The pair's second component is the
sequence of events fired on the event queue. -/
def worldUpdateWith (mem : List CollisionPseudoEvent → CollisionPseudoEvent → Bool)
    (cfg : WorldConfig) (safe : Bool) (handler : CollisionHandler)
    (tick fuel : ℕ) (worldObjects : List Entity) :
    (Except UpdateErr (List Entity)) × List CollisionPseudoEvent :=
  let entities := worldObjects.filter (fun e => !e.shouldBeDestroyed)
  if entities.isEmpty then (.ok entities, [])
  else
    match updateRoundsWith mem cfg safe handler tick fuel
        ⟨entities, entities.map (fun _ => (0 : ℚ)), [], []⟩ with
    | (.error err, tr) => (.error err, tr)
    | (.ok (es, ls), tr) => (.ok (finalAdvance es ls), tr)

/-- The update loop as the code runs it: the guard is set membership,
i.e. hash agreement (colliders, impact time, type) plus `__eq__`. -/
def worldUpdate : WorldConfig → Bool → CollisionHandler → ℕ → ℕ → List Entity →
    (Except UpdateErr (List Entity)) × List CollisionPseudoEvent :=
  worldUpdateWith pastHitB

/-- The update loop as the specification words it: the guard fires only when
a pseudo-event *identical* to an already-fired one recurs. -/
def worldUpdateIdenticalGuard : WorldConfig → Bool → CollisionHandler → ℕ → ℕ →
    List Entity → (Except UpdateErr (List Entity)) × List CollisionPseudoEvent :=
  worldUpdateWith (fun past e => decide (e ∈ past))

theorem processEventWith_safe_off_ok
    (mem : List CollisionPseudoEvent → CollisionPseudoEvent → Bool)
    (handler : CollisionHandler) (tick : ℕ) (evs : List CollisionPseudoEvent) :
    ∀ (st : WorldTickState), ∃ st2,
      evs.foldlM (processEventWith mem false handler tick) st = .ok st2 := by
  induction evs with
  | nil => exact fun st => ⟨st, rfl⟩
  | cons e evs ih =>
    intro st
    obtain ⟨st1, h1⟩ : ∃ st1, processEventWith mem false handler tick st e = .ok st1 := by
      unfold processEventWith
      rw [if_neg (by simp)]
      exact ⟨_, rfl⟩
    obtain ⟨st2, h2⟩ := ih st1
    exact ⟨st2, by rw [List.foldlM_cons, h1]; exact h2⟩

theorem updateRoundsWith_safe_off
    (mem : List CollisionPseudoEvent → CollisionPseudoEvent → Bool)
    (cfg : WorldConfig) (handler : CollisionHandler) (tick : ℕ) :
    ∀ (fuel : ℕ) (st : WorldTickState),
      (updateRoundsWith mem cfg false handler tick fuel st).1 ≠
        Except.error UpdateErr.unsolvedCollision := by
  intro fuel
  induction fuel with
  | zero => intro st h; exact UpdateErr.noConfusion (Except.error.inj h)
  | succ fuel ih =>
    intro st
    unfold updateRoundsWith
    match hf : fetchNextEvents cfg st.entities st.localTimes with
    | none => intro h; exact UpdateErr.noConfusion (Except.error.inj h)
    | some evs =>
      dsimp only
      by_cases he : evs.isEmpty
      · rw [if_pos he]
        intro h
        exact Except.noConfusion h
      · rw [if_neg he]
        obtain ⟨st2, h2⟩ := processEventWith_safe_off_ok mem handler tick evs st
        rw [h2]
        exact ih st2

/-- **C6** (amended): the `past_events` guard raises exactly on hash-and-eq
membership — agreement with some already-fired event on the hashed tuple
(colliders, impact time, type) together with `__eq__` (equal impact time and
a shared collider identity) — which an event *differing in direction* from
every fired event can satisfy; and with safe mode off, neither the event
loop body nor a whole `World.update` ever raises `UnsolvedCollisionError`. -/
theorem c6_unsolved_collision_amended
    (cfg : WorldConfig) (handler : CollisionHandler) (tick fuel : ℕ)
    (ws : List Entity) (st : WorldTickState) (e : CollisionPseudoEvent) :
    ((∃ tr, processEventWith pastHitB true handler tick st e = .error tr) ↔
      pastHit st.pastEvents e) ∧
    (∀ tr, processEventWith pastHitB false handler tick st e ≠ .error tr) ∧
    (worldUpdate cfg false handler tick fuel ws).1 ≠
      Except.error UpdateErr.unsolvedCollision := by
  refine ⟨⟨?_, ?_⟩, ?_, ?_⟩
  · intro ⟨tr, htr⟩
    by_cases hp : pastHit st.pastEvents e
    · exact hp
    · exfalso
      unfold processEventWith at htr
      rw [if_neg (by simp [pastHitB, hp])] at htr
      exact Except.noConfusion htr
  · intro hp
    refine ⟨st.firedEvents, ?_⟩
    unfold processEventWith
    rw [if_pos ⟨rfl, by simp [pastHitB, hp]⟩]
  · intro tr
    unfold processEventWith
    rw [if_neg (by simp)]
    exact fun h => Except.noConfusion h
  · unfold worldUpdate worldUpdateWith
    by_cases hw : (ws.filter (fun e => !e.shouldBeDestroyed)).isEmpty
    · rw [if_pos hw]
      intro h
      exact Except.noConfusion h
    · rw [if_neg hw]
      have := updateRoundsWith_safe_off pastHitB cfg handler tick fuel
        ⟨ws.filter (fun e => !e.shouldBeDestroyed),
          (ws.filter (fun e => !e.shouldBeDestroyed)).map (fun _ => (0 : ℚ)), [], []⟩
      match hu : updateRoundsWith pastHitB cfg false handler tick fuel
          ⟨ws.filter (fun e => !e.shouldBeDestroyed),
            (ws.filter (fun e => !e.shouldBeDestroyed)).map (fun _ => (0 : ℚ)), [], []⟩ with
      | (.error err, tr2) =>
        rw [hu] at this
        dsimp only at this
        intro h
        rw [hu] at h
        dsimp only at h
        exact this (by rw [Except.error.inj h])
      | (.ok (es, ls), tr2) =>
        intro h
        rw [hu] at h
        dsimp only at h
        exact Except.noConfusion h

/-! ## Claim C6: the concrete guard scenario

A 3x3 tile map with tile size 16 and a single fully-blocking tile at cell
`(1, 1)`; one entity of extent 4x4. -/

def c6Cfg : WorldConfig := {
  tileSize := 16
  tilesShape := (3, 3)
  tiles := fun x y => if x = 1 ∧ y = 1 then 1 else 0
  collisionMap := fun _ => ⟨true, true, true, true⟩
  logicArea := ⟨(0, 0), (48, 48)⟩
  logicTile := true
  logicEntity := true
  issub := fun _ _ => true }

def c6Handler : CollisionHandler := fun _ ev es =>
  if ev.collisionDirection = DIRECTION_EAST then
    es.map (fun e => { e with pos := (16, 12), speed := (0, 16) })
  else if ev.collisionDirection = DIRECTION_NORTH then
    es.map (fun e => { e with speed := (0, 0) })
  else es

def c6Entity : Entity := ⟨(8, 16), (4, 4), (16, 0), 0, [], true, false⟩


def c6Obj1 : CollisionObject :=
  ⟨0, ⟨(8, 16), (4, 4)⟩, ⟨(8, 16), (20, 4)⟩, (16, 0), 0, [], true, 0⟩

def c6Tree : QuadTree := QuadTree.mk ⟨(0, 0), (48, 48)⟩ (24, 24) 32 5 [c6Obj1] none

def c6Ev1 : CollisionPseudoEvent := ⟨1/4, [0, 1, 1, 1], COLLISION_TILE, DIRECTION_EAST⟩
def c6Ev2 : CollisionPseudoEvent := ⟨1/4, [0, 1, 1, 1], COLLISION_TILE, DIRECTION_NORTH⟩

def c6Ent2 : Entity := ⟨(16, 12), (4, 4), (0, 16), 0, [], true, false⟩
def c6Ent3 : Entity := ⟨(16, 12), (4, 4), (0, 0), 0, [], true, false⟩
def c6Obj2 : CollisionObject :=
  ⟨0, ⟨(16, 12), (4, 4)⟩, ⟨(16, 12), (4, 16)⟩, (0, 16), 0, [], true, 1/4⟩
def c6Obj3 : CollisionObject :=
  ⟨0, ⟨(16, 12), (4, 4)⟩, ⟨(16, 12), (4, 4)⟩, (0, 0), 0, [], true, 1/4⟩
def c6Tree2 : QuadTree := QuadTree.mk ⟨(0, 0), (48, 48)⟩ (24, 24) 32 5 [c6Obj2] none
def c6Tree3 : QuadTree := QuadTree.mk ⟨(0, 0), (48, 48)⟩ (24, 24) 32 5 [c6Obj3] none

theorem foldlM_singleton (f : WorldTickState → CollisionPseudoEvent →
    Except (List CollisionPseudoEvent) WorldTickState)
    (st : WorldTickState) (e : CollisionPseudoEvent) :
    [e].foldlM f st = f st e := by
  simp [List.foldlM_cons, List.foldlM_nil]

theorem updateRoundsWith_step
    (mem : List CollisionPseudoEvent → CollisionPseudoEvent → Bool)
    (cfg : WorldConfig) (safe : Bool) (handler : CollisionHandler) (tick fuel : ℕ)
    (st st2 : WorldTickState) (evs : List CollisionPseudoEvent)
    (hf : fetchNextEvents cfg st.entities st.localTimes = some evs)
    (hne : evs.isEmpty = false)
    (hfold : evs.foldlM (processEventWith mem safe handler tick) st = .ok st2) :
    updateRoundsWith mem cfg safe handler tick (fuel + 1) st =
      updateRoundsWith mem cfg safe handler tick fuel st2 := by
  conv_lhs => unfold updateRoundsWith
  rw [hf]
  dsimp only
  rw [hne]
  simp only [Bool.false_eq_true, if_false]
  rw [hfold]

theorem updateRoundsWith_raise
    (mem : List CollisionPseudoEvent → CollisionPseudoEvent → Bool)
    (cfg : WorldConfig) (safe : Bool) (handler : CollisionHandler) (tick fuel : ℕ)
    (st : WorldTickState) (evs tr : List CollisionPseudoEvent)
    (hf : fetchNextEvents cfg st.entities st.localTimes = some evs)
    (hne : evs.isEmpty = false)
    (hfold : evs.foldlM (processEventWith mem safe handler tick) st = .error tr) :
    updateRoundsWith mem cfg safe handler tick (fuel + 1) st =
      (.error .unsolvedCollision, tr) := by
  conv_lhs => unfold updateRoundsWith
  rw [hf]
  dsimp only
  rw [hne]
  simp only [Bool.false_eq_true, if_false]
  rw [hfold]

theorem updateRoundsWith_done
    (mem : List CollisionPseudoEvent → CollisionPseudoEvent → Bool)
    (cfg : WorldConfig) (safe : Bool) (handler : CollisionHandler) (tick fuel : ℕ)
    (st : WorldTickState)
    (hf : fetchNextEvents cfg st.entities st.localTimes = some []) :
    updateRoundsWith mem cfg safe handler tick (fuel + 1) st =
      (.ok (st.entities, st.localTimes), st.firedEvents) := by
  conv_lhs => unfold updateRoundsWith
  rw [hf]
  dsimp only
  rw [if_pos (show ([] : List CollisionPseudoEvent).isEmpty = true from rfl)]

set_option maxHeartbeats 4000000 in
/-- **C6** (counterexample): a world in which the safe-mode guard raises
`UnsolvedCollisionError` although no pseudo-event identical to an earlier
fired one ever recurs.  One entity slides east into the blocked tile at cell
`(1, 1)` and fires `(toi 1/4, colliders (0, 1, 1, 1), tile event, EAST)`;
its handler teleports it just north of the same tile and sends it south, so
the next round fires on the *same* tile cell at the *same* impact time
`1/4` — same hashed tuple and `__eq__`-equal, but with direction NORTH, not
EAST.  The run with the code's hash-and-eq guard raises; the run with the
specification's identical-recurrence guard processes the second event
(whose handler stops the entity) and terminates without raising, firing two
distinct events. -/
theorem c6_unsolved_collision_counterexample :
    (worldUpdate c6Cfg true c6Handler 0 4 [c6Entity]).1 =
        Except.error UpdateErr.unsolvedCollision ∧
      (worldUpdate c6Cfg true c6Handler 0 4 [c6Entity]).2 = [c6Ev1] ∧
      (worldUpdateIdenticalGuard c6Cfg true c6Handler 0 4 [c6Entity]).1 ≠
        Except.error UpdateErr.unsolvedCollision ∧
      (worldUpdateIdenticalGuard c6Cfg true c6Handler 0 4 [c6Entity]).2 =
        [c6Ev1, c6Ev2] ∧
      c6Ev1 ≠ c6Ev2 := by
  have hobj1 : mkCollisionObject 0 c6Entity 0 = c6Obj1 := by
    norm_num [mkCollisionObject, c6Entity, c6Obj1, Aabb.expand]
  have htree1 : QuadTree.insertAll (QuadTree.init c6Cfg.logicArea 32 5) [c6Obj1] = some c6Tree := by
    norm_num [QuadTree.insertAll, QuadTree.init, QuadTree.insert, c6Cfg, c6Tree,
      List.foldlM_cons, List.foldlM_nil]
  have hproc1 : processCollisionEvents c6Cfg [c6Obj1] c6Tree = [c6Ev1] := by
    norm_num [processCollisionEvents, processOneCollision, c6Cfg, List.foldl_cons, List.foldl_nil,
      QuadTree.query, QuadTree.intersect, c6Tree, c6Obj1, Aabb.intersects,
      shouldCollideWith, tileCollisionDetection, tilePre, tileFootprintUnchanged,
      tileAxisScan, ratTrunc, getTileAt, intRange,
      intRangeDesc, tileSentinel, DIRECTION_EAST, DIRECTION_NONE, Int.fdiv,
      List.range_succ, List.range_zero, List.findSome?_cons, List.findSome?_nil,
      List.flatMap_cons, List.flatMap_nil, List.map_cons, List.map_nil,
      Option.getD_some, COLLISION_TILE, COLLISION_NONE, c6Ev1]
  have hfetch1 : fetchNextEvents c6Cfg [c6Entity] [0] = some [c6Ev1] := by
    unfold fetchNextEvents
    rw [show (([c6Entity].zip [(0:ℚ)]).enum.map (fun p => mkCollisionObject p.1 p.2.1 p.2.2)) = [c6Obj1] by
      simp [List.zip, List.enum, List.enumFrom, List.zipWith]
      simpa using hobj1]
    dsimp only
    rw [htree1]
    dsimp only
    rw [hproc1]
    norm_num [fetchNextFilter, fetchNextStep, List.foldl_cons, List.foldl_nil, c6Ev1,
      CollisionPseudoEvent.eqEvent, CollisionPseudoEvent.shares, CollisionPseudoEvent.containsEvent,
      COLLISION_TILE, COLLISION_ENTITY]
  have hobj2 : mkCollisionObject 0 c6Ent2 (1/4) = c6Obj2 := by
    norm_num [mkCollisionObject, c6Ent2, c6Obj2, Aabb.expand]
  have htree2 : QuadTree.insertAll (QuadTree.init c6Cfg.logicArea 32 5) [c6Obj2] = some c6Tree2 := by
    norm_num [QuadTree.insertAll, QuadTree.init, QuadTree.insert, c6Cfg, c6Tree2,
      List.foldlM_cons, List.foldlM_nil]
  have hproc2 : processCollisionEvents c6Cfg [c6Obj2] c6Tree2 = [c6Ev2] := by
    norm_num [processCollisionEvents, processOneCollision, c6Cfg, List.foldl_cons, List.foldl_nil,
      QuadTree.query, QuadTree.intersect, c6Tree2, c6Obj2, Aabb.intersects,
      shouldCollideWith, tileCollisionDetection, tilePre, tileFootprintUnchanged,
      tileAxisScan, ratTrunc, getTileAt, intRange,
      intRangeDesc, tileSentinel, DIRECTION_EAST, DIRECTION_NONE, DIRECTION_NORTH, Int.fdiv,
      List.range_succ, List.range_zero, List.findSome?_cons, List.findSome?_nil,
      List.flatMap_cons, List.flatMap_nil, List.map_cons, List.map_nil,
      Option.getD_some, COLLISION_TILE, COLLISION_NONE, c6Ev2]
  have hfetch2 : fetchNextEvents c6Cfg [c6Ent2] [1/4] = some [c6Ev2] := by
    unfold fetchNextEvents
    rw [show (([c6Ent2].zip [(1:ℚ)/4]).enum.map (fun p => mkCollisionObject p.1 p.2.1 p.2.2)) = [c6Obj2] by
      simp [List.zip, List.enum, List.enumFrom, List.zipWith]
      simpa using hobj2]
    dsimp only
    rw [htree2]
    dsimp only
    rw [hproc2]
    norm_num [fetchNextFilter, fetchNextStep, List.foldl_cons, List.foldl_nil, c6Ev2,
      CollisionPseudoEvent.eqEvent, CollisionPseudoEvent.shares, CollisionPseudoEvent.containsEvent,
      COLLISION_TILE, COLLISION_ENTITY]
  have hobj3 : mkCollisionObject 0 c6Ent3 (1/4) = c6Obj3 := by
    norm_num [mkCollisionObject, c6Ent3, c6Obj3, Aabb.expand]
  have htree3 : QuadTree.insertAll (QuadTree.init c6Cfg.logicArea 32 5) [c6Obj3] = some c6Tree3 := by
    norm_num [QuadTree.insertAll, QuadTree.init, QuadTree.insert, c6Cfg, c6Tree3,
      List.foldlM_cons, List.foldlM_nil]
  have hproc3 : processCollisionEvents c6Cfg [c6Obj3] c6Tree3 = [] := by
    norm_num [processCollisionEvents, processOneCollision, c6Cfg, List.foldl_cons, List.foldl_nil,
      QuadTree.query, QuadTree.intersect, c6Tree3, c6Obj3, Aabb.intersects,
      shouldCollideWith, tileCollisionDetection, tilePre, tileFootprintUnchanged,
      tileAxisScan, ratTrunc, getTileAt, intRange,
      intRangeDesc, tileSentinel, DIRECTION_EAST, DIRECTION_NONE, DIRECTION_NORTH, Int.fdiv,
      List.range_succ, List.range_zero, List.findSome?_cons, List.findSome?_nil,
      List.flatMap_cons, List.flatMap_nil, List.map_cons, List.map_nil,
      Option.getD_some, COLLISION_TILE, COLLISION_NONE]
  have hfetch3 : fetchNextEvents c6Cfg [c6Ent3] [1/4] = some [] := by
    unfold fetchNextEvents
    rw [show (([c6Ent3].zip [(1:ℚ)/4]).enum.map (fun p => mkCollisionObject p.1 p.2.1 p.2.2)) = [c6Obj3] by
      simp [List.zip, List.enum, List.enumFrom, List.zipWith]
      simpa using hobj3]
    dsimp only
    rw [htree3]
    dsimp only
    rw [hproc3]
    norm_num [fetchNextFilter, fetchNextStep, List.foldl_nil]
  have hpe1 : ∀ (mem : List CollisionPseudoEvent → CollisionPseudoEvent → Bool),
      mem [] c6Ev1 = false →
      processEventWith mem true c6Handler 0 ⟨[c6Entity], [0], [], []⟩ c6Ev1 =
        .ok ⟨[c6Ent2], [1/4], [c6Ev1], [c6Ev1]⟩ := by
    intro mem hmem
    unfold processEventWith
    rw [if_neg (by simp [hmem])]
    norm_num [c6Ev1, COLLISION_TILE, COLLISION_ENTITY, advanceEntity, c6Entity, c6Handler,
      ratTrunc, DIRECTION_EAST, DIRECTION_NONE, DIRECTION_NORTH, c6Ent2]
  have hhit : pastHitB [c6Ev1] c6Ev2 = true := by
    norm_num [pastHitB, pastHit, sameHashKey, CollisionPseudoEvent.eqEvent,
      CollisionPseudoEvent.shares, c6Ev1, c6Ev2, COLLISION_TILE, COLLISION_ENTITY]
  have hpe2raise : processEventWith pastHitB true c6Handler 0
      ⟨[c6Ent2], [1/4], [c6Ev1], [c6Ev1]⟩ c6Ev2 = .error [c6Ev1] := by
    unfold processEventWith
    rw [if_pos ⟨rfl, hhit⟩]
  have hpe2ok : processEventWith (fun past e => decide (e ∈ past)) true c6Handler 0
      ⟨[c6Ent2], [1/4], [c6Ev1], [c6Ev1]⟩ c6Ev2 =
        .ok ⟨[c6Ent3], [1/4], [c6Ev1, c6Ev2], [c6Ev1, c6Ev2]⟩ := by
    unfold processEventWith
    rw [if_neg (by simp [c6Ev1, c6Ev2, DIRECTION_EAST, DIRECTION_NORTH])]
    norm_num [c6Ev2, COLLISION_TILE, COLLISION_ENTITY, advanceEntity, c6Ent2, c6Handler,
      ratTrunc, DIRECTION_EAST, DIRECTION_NONE, DIRECTION_NORTH, c6Ent3]
  have hroundsCode : updateRoundsWith pastHitB c6Cfg true c6Handler 0 4
      ⟨[c6Entity], [0], [], []⟩ = (.error .unsolvedCollision, [c6Ev1]) := by
    rw [show (4:ℕ) = 3 + 1 from rfl,
      updateRoundsWith_step pastHitB c6Cfg true c6Handler 0 3 _ _ [c6Ev1] hfetch1 (by rfl)
        (by rw [foldlM_singleton, hpe1 pastHitB (by norm_num [pastHitB, pastHit])]),
      show (3:ℕ) = 2 + 1 from rfl,
      updateRoundsWith_raise pastHitB c6Cfg true c6Handler 0 2 _ [c6Ev2] _ hfetch2 (by rfl)
        (by rw [foldlM_singleton, hpe2raise])]
  have hroundsSpec : updateRoundsWith (fun past e => decide (e ∈ past)) c6Cfg true c6Handler 0 4
      ⟨[c6Entity], [0], [], []⟩ = (.ok ([c6Ent3], [1/4]), [c6Ev1, c6Ev2]) := by
    rw [show (4:ℕ) = 3 + 1 from rfl,
      updateRoundsWith_step _ c6Cfg true c6Handler 0 3 _ _ [c6Ev1] hfetch1 (by rfl)
        (by rw [foldlM_singleton, hpe1 _ (by simp)]),
      show (3:ℕ) = 2 + 1 from rfl,
      updateRoundsWith_step _ c6Cfg true c6Handler 0 2 _ _ [c6Ev2] hfetch2 (by rfl)
        (by rw [foldlM_singleton, hpe2ok]),
      show (2:ℕ) = 1 + 1 from rfl,
      updateRoundsWith_done _ c6Cfg true c6Handler 0 1 _ hfetch3]
  have hfilter : ([c6Entity].filter (fun e => !e.shouldBeDestroyed)) = [c6Entity] := by
    simp [c6Entity]
  have hmap : ([c6Entity].map (fun _ => (0 : ℚ))) = [0] := rfl
  refine ⟨?_, ?_, ?_, ?_, ?_⟩
  · unfold worldUpdate worldUpdateWith
    dsimp only
    rw [hfilter, hmap, if_neg (by simp), hroundsCode]
  · unfold worldUpdate worldUpdateWith
    dsimp only
    rw [hfilter, hmap, if_neg (by simp), hroundsCode]
  · unfold worldUpdateIdenticalGuard worldUpdateWith
    dsimp only
    rw [hfilter, hmap, if_neg (by simp), hroundsSpec]
    dsimp only
    exact fun h => Except.noConfusion h
  · unfold worldUpdateIdenticalGuard worldUpdateWith
    dsimp only
    rw [hfilter, hmap, if_neg (by simp), hroundsSpec]
  · simp [c6Ev1, c6Ev2, DIRECTION_EAST, DIRECTION_NORTH]

/-! ## Claim C5: impact times live in the unit interval and local times are
monotone.  Arithmetic facts about truncation and the tile grid first. -/

theorem ratTrunc_le_ceil (q : ℚ) : ratTrunc q ≤ ⌈q⌉ := by
  unfold ratTrunc
  split
  · exact Int.floor_le_ceil q
  · exact le_refl _

theorem floor_le_ratTrunc (q : ℚ) : ⌊q⌋ ≤ ratTrunc q := by
  unfold ratTrunc
  split
  · exact le_refl _
  · exact Int.floor_le_ceil q

theorem ratTrunc_le_int {q : ℚ} {n : ℤ} (h : q ≤ (n : ℚ)) : ratTrunc q ≤ n :=
  le_trans (ratTrunc_le_ceil q) (Int.ceil_le.mpr h)

theorem int_le_ratTrunc {q : ℚ} {n : ℤ} (h : (n : ℚ) ≤ q) : n ≤ ratTrunc q :=
  le_trans (Int.le_floor.mpr h) (floor_le_ratTrunc q)

theorem ratTrunc_lt_add_one (q : ℚ) : (ratTrunc q : ℚ) < q + 1 :=
  lt_of_le_of_lt (by exact_mod_cast Int.cast_le.mpr (ratTrunc_le_ceil q))
    (Int.ceil_lt_add_one q)

theorem sub_one_lt_ratTrunc (q : ℚ) : q - 1 < (ratTrunc q : ℚ) :=
  lt_of_lt_of_le (Int.sub_one_lt_floor q)
    (by exact_mod_cast Int.cast_le.mpr (floor_le_ratTrunc q))

/-- The adjusted max-corner tile index — floor division pulled back by one on
an exact boundary — is `⌈v / ts⌉ - 1`, i.e. floor division of `v - 1`. -/
theorem maxTile_eq {ts : ℤ} (v : ℤ) (h : 0 < ts) :
    (if v % ts = 0 then v.fdiv ts - 1 else v.fdiv ts) = (v - 1).fdiv ts := by
  rw [Int.fdiv_eq_ediv _ (le_of_lt h), Int.fdiv_eq_ediv _ (le_of_lt h)]
  have h2 := Int.ediv_add_emod v ts
  by_cases hr : v % ts = 0
  · rw [if_pos hr]
    have hv : v - 1 = (ts - 1) + (v / ts - 1) * ts := by linear_combination -h2 + hr
    rw [hv, Int.add_mul_ediv_right _ _ (ne_of_gt h)]
    have h4 : (ts - 1) / ts = 0 := Int.ediv_eq_zero_of_lt (by omega) (by omega)
    omega
  · rw [if_neg hr]
    have h0 : 0 ≤ v % ts := Int.emod_nonneg v (ne_of_gt h)
    have h1 : v % ts < ts := Int.emod_lt_of_pos v h
    have hv : v - 1 = (v % ts - 1) + v / ts * ts := by linear_combination -h2
    rw [hv, Int.add_mul_ediv_right _ _ (ne_of_gt h)]
    have h4 : (v % ts - 1) / ts = 0 := Int.ediv_eq_zero_of_lt (by omega) (by omega)
    omega

theorem mul_le_of_le_fdiv {k v ts : ℤ} (h : 0 < ts) (hk : k ≤ v.fdiv ts) :
    k * ts ≤ v := by
  rw [Int.fdiv_eq_ediv _ (le_of_lt h)] at hk
  exact (Int.le_ediv_iff_mul_le h).mp hk

theorem lt_fdiv_add_one_mul {v ts : ℤ} (h : 0 < ts) : v < (v.fdiv ts + 1) * ts := by
  rw [Int.fdiv_eq_ediv _ (le_of_lt h)]
  exact Int.lt_ediv_add_one_mul_self v h

theorem fdiv_le_fdiv {a b ts : ℤ} (h : 0 < ts) (hab : a ≤ b) :
    a.fdiv ts ≤ b.fdiv ts := by
  rw [Int.fdiv_eq_ediv _ (le_of_lt h), Int.fdiv_eq_ediv _ (le_of_lt h)]
  exact Int.ediv_le_ediv h hab

/-- Nonnegative (or plus-infinite) scan times. -/
def xnnB : XRat → Bool
  | .negInf => false
  | .fin q => decide (0 ≤ q)
  | .posInf => true

theorem xnnB_of_leB {i j : XRat} (hi : xnnB i = true) (hij : XRat.leB i j = true) :
    xnnB j = true := by
  cases i <;> cases j <;>
    simp_all [xnnB, XRat.leB, XRat.ltB] <;> linarith

theorem xnnB_of_ltB {i j : XRat} (hi : xnnB i = true) (hij : XRat.ltB i j = true) :
    xnnB j = true := by
  cases i <;> cases j <;>
    simp_all [xnnB, XRat.leB, XRat.ltB] <;> linarith

theorem ltB_fin_elim {i : XRat} {b : ℚ} (hnn : xnnB i = true)
    (h : XRat.ltB i (.fin b) = true) : ∃ q, i = .fin q ∧ 0 ≤ q ∧ q < b := by
  cases i with
  | negInf => simp [xnnB] at hnn
  | posInf => simp [XRat.ltB] at h
  | fin q =>
    refine ⟨q, rfl, ?_, ?_⟩
    · simpa [xnnB] using hnn
    · simpa [XRat.ltB] using h

theorem npDiv_nonneg_of_pos {a b : ℚ} (ha : 0 ≤ a) (hb : 0 < b) :
    xnnB (npDiv a b) = true := by
  simp [npDiv, ne_of_gt hb, xnnB, div_nonneg ha (le_of_lt hb)]

theorem npDiv_nonneg_of_neg {a b : ℚ} (ha : a ≤ 0) (hb : b < 0) :
    xnnB (npDiv a b) = true := by
  have : (0 : ℚ) ≤ a / b := by
    rw [div_nonneg_iff]
    exact Or.inr ⟨ha, le_of_lt hb⟩
  simp [npDiv, ne_of_lt hb, xnnB, this]

theorem mem_intRange {a lo hi : ℤ} : a ∈ intRange lo hi ↔ lo ≤ a ∧ a < hi := by
  unfold intRange
  simp only [List.mem_map, List.mem_range]
  constructor
  · rintro ⟨i, hi2, rfl⟩
    omega
  · intro ⟨h1, h2⟩
    exact ⟨(a - lo).toNat, by omega, by omega⟩

theorem mem_intRangeDesc {a hi lo : ℤ} : a ∈ intRangeDesc hi lo ↔ lo < a ∧ a ≤ hi := by
  unfold intRangeDesc
  simp only [List.mem_map, List.mem_range]
  constructor
  · rintro ⟨i, hi2, rfl⟩
    omega
  · intro ⟨h1, h2⟩
    exact ⟨(hi - a).toNat, by omega, by omega⟩

theorem mem_cellsOf {c : ℤ × ℤ} {xs ys : List ℤ} :
    c ∈ cellsOf xs ys ↔ c.1 ∈ xs ∧ c.2 ∈ ys := by
  unfold cellsOf
  simp only [List.mem_flatMap, List.mem_map]
  constructor
  · rintro ⟨x, hx, y, hy, rfl⟩
    exact ⟨hx, hy⟩
  · intro ⟨hx, hy⟩
    exact ⟨c.1, hx, c.2, hy, rfl⟩

theorem findSome?_eq_some_imp {α β : Type} {l : List α} {f : α → Option β} {b : β}
    (h : l.findSome? f = some b) : ∃ a ∈ l, f a = some b := by
  induction l with
  | nil => simp [List.findSome?] at h
  | cons x xs ih =>
    rw [List.findSome?_cons] at h
    cases hx : f x with
    | some v =>
      rw [hx] at h
      dsimp only at h
      exact ⟨x, List.mem_cons_self x xs, hx.trans h⟩
    | none =>
      rw [hx] at h
      dsimp only at h
      obtain ⟨a, ha, hfa⟩ := ih h
      exact ⟨a, List.mem_cons_of_mem x ha, hfa⟩

theorem tileScanLoop_inv (step : (ℤ × ℤ) → TileScanState →
      Except (ℚ × ℤ × ℤ × ℤ × ℤ) TileScanState)
    (P : TileScanState → Prop) (Q : (ℚ × ℤ × ℤ × ℤ × ℤ) → Prop)
    (cells : List (ℤ × ℤ))
    (hstep : ∀ c ∈ cells, ∀ st, P st →
      (∀ r, step c st = .error r → Q r) ∧ (∀ st2, step c st = .ok st2 → P st2)) :
    ∀ st, P st →
      (∀ r, tileScanLoop step cells st = .error r → Q r) ∧
      (∀ st2, tileScanLoop step cells st = .ok st2 → P st2) := by
  induction cells with
  | nil =>
    intro st hP
    refine ⟨fun r hr => ?_, fun st2 h2 => ?_⟩
    · rw [tileScanLoop] at hr
      exact Except.noConfusion hr
    · rw [tileScanLoop] at h2
      exact Except.ok.inj h2 ▸ hP
  | cons c cs ih =>
    intro st hP
    have hc := hstep c (List.mem_cons_self c cs) st hP
    rw [tileScanLoop]
    match hs : step c st with
    | .error r =>
      refine ⟨fun r2 hr2 => ?_, fun st2 h2 => ?_⟩
      · exact Except.error.inj hr2 ▸ hc.1 r hs
      · exact Except.noConfusion h2
    | .ok st1 =>
      have hP1 := hc.2 st1 hs
      exact ih (fun c2 hc2 => hstep c2 (List.mem_cons_of_mem c hc2)) st1 hP1

/-- A positive-direction straight scan: if the max corner's tile index
advanced, the speed is positive and every scanned tile column yields an
impact time in `[local_time, 1)`. -/
theorem scanPos_bounds {preC postC x ts s : ℤ} {lt : ℚ}
    (hts : 0 < ts) (h0 : 0 ≤ lt) (h1 : lt ≤ 1)
    (hpost : postC = ratTrunc ((preC : ℚ) + (s : ℚ) * (1 - lt)))
    (hT : (preC - 1).fdiv ts < (postC - 1).fdiv ts)
    (hxlo : (preC - 1).fdiv ts + 1 ≤ x) (hxhi : x ≤ (postC - 1).fdiv ts) :
    lt ≤ ((x * ts - preC : ℤ) : ℚ) / (s : ℚ) + lt ∧
      ((x * ts - preC : ℤ) : ℚ) / (s : ℚ) + lt < 1 := by
  have hcc : preC < postC := by
    by_contra hcon
    exact absurd (fdiv_le_fdiv hts (by omega : postC - 1 ≤ preC - 1)) (not_le.mpr hT)
  have hsp : (0 : ℚ) < (s : ℚ) * (1 - lt) := by
    by_contra hcon
    have hv : (preC : ℚ) + (s : ℚ) * (1 - lt) ≤ ((preC : ℤ) : ℚ) := by
      push_cast
      linarith [not_lt.mp hcon]
    have := ratTrunc_le_int hv
    rw [← hpost] at this
    omega
  have hs : (0 : ℚ) < (s : ℚ) := by
    rcases lt_trichotomy (s : ℚ) 0 with h | h | h
    · nlinarith
    · rw [h] at hsp; nlinarith
    · exact h
  have hnum0 : 0 ≤ x * ts - preC := by
    have := lt_fdiv_add_one_mul (v := preC - 1) hts
    nlinarith [mul_le_mul_of_nonneg_right hxlo (le_of_lt hts)]
  have hnumUp : ((x * ts : ℤ) : ℚ) - (preC : ℚ) < (s : ℚ) * (1 - lt) := by
    have h2 : x * ts ≤ postC - 1 := mul_le_of_le_fdiv hts hxhi
    have h3 : ((postC : ℤ) : ℚ) < (preC : ℚ) + (s : ℚ) * (1 - lt) + 1 := by
      rw [hpost]
      exact ratTrunc_lt_add_one _
    have h4 : ((x * ts : ℤ) : ℚ) ≤ ((postC : ℤ) : ℚ) - 1 := by exact_mod_cast h2
    linarith
  constructor
  · have : (0 : ℚ) ≤ ((x * ts - preC : ℤ) : ℚ) / (s : ℚ) :=
      div_nonneg (by exact_mod_cast hnum0) (le_of_lt hs)
    linarith
  · have : ((x * ts - preC : ℤ) : ℚ) / (s : ℚ) < 1 - lt := by
      rw [div_lt_iff₀ hs]
      push_cast
      push_cast at hnumUp
      nlinarith
    linarith

/-- A negative-direction straight scan: if the min corner's tile index
went back, the speed is negative and every scanned tile column yields an
impact time in `[local_time, 1)`. -/
theorem scanNeg_bounds {preC postC x ts s : ℤ} {lt : ℚ}
    (hts : 0 < ts) (h0 : 0 ≤ lt) (h1 : lt ≤ 1)
    (hpost : postC = ratTrunc ((preC : ℚ) + (s : ℚ) * (1 - lt)))
    (hT : postC.fdiv ts < preC.fdiv ts)
    (hxlo : postC.fdiv ts ≤ x) (hxhi : x ≤ preC.fdiv ts - 1) :
    lt ≤ (((x + 1) * ts - preC : ℤ) : ℚ) / (s : ℚ) + lt ∧
      (((x + 1) * ts - preC : ℤ) : ℚ) / (s : ℚ) + lt < 1 := by
  have hcc : postC < preC := by
    by_contra hcon
    exact absurd (fdiv_le_fdiv hts (not_lt.mp hcon)) (not_le.mpr hT)
  have hsp : (s : ℚ) * (1 - lt) < 0 := by
    by_contra hcon
    have hv : ((preC : ℤ) : ℚ) ≤ (preC : ℚ) + (s : ℚ) * (1 - lt) := by
      push_cast
      linarith [not_lt.mp hcon]
    have := int_le_ratTrunc hv
    rw [← hpost] at this
    omega
  have hs : (s : ℚ) < 0 := by
    rcases lt_trichotomy (s : ℚ) 0 with h | h | h
    · exact h
    · rw [h] at hsp; nlinarith
    · nlinarith
  have hnum0 : (x + 1) * ts - preC ≤ 0 := by
    have h2 : (x + 1) * ts ≤ preC := mul_le_of_le_fdiv hts (by omega)
    omega
  have hnumLo : (s : ℚ) * (1 - lt) < (((x + 1) * ts : ℤ) : ℚ) - (preC : ℚ) := by
    have h2 : postC < (x + 1) * ts := by
      have := lt_fdiv_add_one_mul (v := postC) hts
      nlinarith [mul_le_mul_of_nonneg_right hxlo (le_of_lt hts)]
    have h3 : (preC : ℚ) + (s : ℚ) * (1 - lt) - 1 < ((postC : ℤ) : ℚ) := by
      rw [hpost]
      exact sub_one_lt_ratTrunc _
    have h4 : ((postC : ℤ) : ℚ) + 1 ≤ (((x + 1) * ts : ℤ) : ℚ) := by exact_mod_cast h2
    linarith
  constructor
  · have : (0 : ℚ) ≤ (((x + 1) * ts - preC : ℤ) : ℚ) / (s : ℚ) := by
      rw [div_nonneg_iff]
      exact Or.inr ⟨by exact_mod_cast hnum0, le_of_lt hs⟩
    linarith
  · have : (((x + 1) * ts - preC : ℤ) : ℚ) / (s : ℚ) < 1 - lt := by
      rw [div_lt_iff_of_neg hs]
      push_cast
      push_cast at hnumLo
      nlinarith
    linarith

theorem tilePre_fields (cfg : WorldConfig) (collider : CollisionObject) :
    (tilePre cfg collider).ts = cfg.tileSize ∧
    (tilePre cfg collider).lt = collider.localTime ∧
    (tilePre cfg collider).speed = collider.speed ∧
    (tilePre cfg collider).postMin.1 =
      ratTrunc (((tilePre cfg collider).preMin.1 : ℚ) +
        (collider.speed.1 : ℚ) * (1 - collider.localTime)) ∧
    (tilePre cfg collider).postMin.2 =
      ratTrunc (((tilePre cfg collider).preMin.2 : ℚ) +
        (collider.speed.2 : ℚ) * (1 - collider.localTime)) ∧
    (tilePre cfg collider).postMax.1 =
      ratTrunc (((tilePre cfg collider).preMax.1 : ℚ) +
        (collider.speed.1 : ℚ) * (1 - collider.localTime)) ∧
    (tilePre cfg collider).postMax.2 =
      ratTrunc (((tilePre cfg collider).preMax.2 : ℚ) +
        (collider.speed.2 : ℚ) * (1 - collider.localTime)) ∧
    (tilePre cfg collider).preMinT =
      ((tilePre cfg collider).preMin.1.fdiv cfg.tileSize,
       (tilePre cfg collider).preMin.2.fdiv cfg.tileSize) ∧
    (tilePre cfg collider).postMinT =
      ((tilePre cfg collider).postMin.1.fdiv cfg.tileSize,
       (tilePre cfg collider).postMin.2.fdiv cfg.tileSize) :=
  ⟨rfl, rfl, rfl, rfl, rfl, rfl, rfl, rfl, rfl⟩

theorem tilePre_maxT (cfg : WorldConfig) (collider : CollisionObject)
    (hts : 0 < cfg.tileSize) :
    (tilePre cfg collider).preMaxT =
      (((tilePre cfg collider).preMax.1 - 1).fdiv cfg.tileSize,
       ((tilePre cfg collider).preMax.2 - 1).fdiv cfg.tileSize) ∧
    (tilePre cfg collider).postMaxT =
      (((tilePre cfg collider).postMax.1 - 1).fdiv cfg.tileSize,
       ((tilePre cfg collider).postMax.2 - 1).fdiv cfg.tileSize) := by
  unfold tilePre
  dsimp only
  rw [maxTile_eq _ hts, maxTile_eq _ hts, maxTile_eq _ hts, maxTile_eq _ hts]
  exact ⟨rfl, rfl⟩

theorem tileAxisScan_bounds (cfg : WorldConfig) (collider : CollisionObject)
    (hts : 0 < cfg.tileSize) (h0 : 0 ≤ collider.localTime)
    (h1 : collider.localTime ≤ 1) {r : ℚ × ℤ × ℤ × ℤ × ℤ}
    (h : tileAxisScan cfg (tilePre cfg collider) = some r) :
    collider.localTime ≤ r.1 ∧ r.1 ≤ 1 := by
  obtain ⟨hts', hlt, hsp, hpmin1, hpmin2, hpmax1, hpmax2, hminT, hpostminT⟩ :=
    tilePre_fields cfg collider
  obtain ⟨hpreMaxT, hpostMaxT⟩ := tilePre_maxT cfg collider hts
  set p := tilePre cfg collider with hp
  unfold tileAxisScan at h
  split_ifs at h with hY hE hW hX hN hS
  · -- east scan
    replace h := Option.some.inj h
    cases hfs : (intRange (p.preMaxT.1 + 1) (p.postMaxT.1 + 1)).findSome? (fun x =>
        (intRange p.preMinT.2 (p.preMaxT.2 + 1)).findSome? (fun y =>
          let tile := getTileAt cfg x y
          if 0 < tile ∧ (cfg.collisionMap tile).collideWest = true then
            some (((x * p.ts - p.preMax.1 : ℤ) : ℚ) / (p.speed.1 : ℚ) + p.lt, tile, x, y,
              DIRECTION_EAST)
          else none)) with
    | none =>
      rw [hfs] at h
      rw [← h, Option.getD_none]
      unfold tileSentinel
      exact ⟨h1, le_refl 1⟩
    | some v =>
      rw [hfs] at h
      obtain ⟨x, hx, hinner⟩ := findSome?_eq_some_imp hfs
      obtain ⟨y, hy, hcell⟩ := findSome?_eq_some_imp hinner
      dsimp only at hcell
      split at hcell
      · replace hcell := Option.some.inj hcell
        rw [← h, Option.getD_some, ← hcell]
        obtain ⟨hxlo, hxhi⟩ := mem_intRange.mp hx
        rw [hpreMaxT] at hE hxlo
        rw [hpostMaxT] at hE hxhi
        dsimp only at hE hxlo hxhi
        have := scanPos_bounds (x := x) hts h0 h1 hpmax1 hE hxlo (by omega)
        rw [hts', hsp, hlt]
        exact ⟨this.1, le_of_lt this.2⟩
      · exact Option.noConfusion hcell
  · -- west scan
    replace h := Option.some.inj h
    cases hfs : (intRangeDesc (p.preMinT.1 - 1) (p.postMinT.1 - 1)).findSome? (fun x =>
        (intRange p.preMinT.2 (p.preMaxT.2 + 1)).findSome? (fun y =>
          let tile := getTileAt cfg x y
          if 0 < tile ∧ (cfg.collisionMap tile).collideEast = true then
            some ((((x + 1) * p.ts - p.preMin.1 : ℤ) : ℚ) / (p.speed.1 : ℚ) + p.lt, tile,
              x, y, DIRECTION_WEST)
          else none)) with
    | none =>
      rw [hfs] at h
      rw [← h, Option.getD_none]
      unfold tileSentinel
      exact ⟨h1, le_refl 1⟩
    | some v =>
      rw [hfs] at h
      obtain ⟨x, hx, hinner⟩ := findSome?_eq_some_imp hfs
      obtain ⟨y, hy, hcell⟩ := findSome?_eq_some_imp hinner
      dsimp only at hcell
      split at hcell
      · replace hcell := Option.some.inj hcell
        rw [← h, Option.getD_some, ← hcell]
        obtain ⟨hxlo, hxhi⟩ := mem_intRangeDesc.mp hx
        rw [hpostminT] at hW hxlo
        rw [hminT] at hW hxhi
        dsimp only at hW hxlo hxhi
        have := scanNeg_bounds (x := x) hts h0 h1 hpmin1 hW (by omega) hxhi
        rw [hts', hsp, hlt]
        exact ⟨this.1, le_of_lt this.2⟩
      · exact Option.noConfusion hcell
  · -- north scan
    replace h := Option.some.inj h
    cases hfs : (intRange (p.preMaxT.2 + 1) (p.postMaxT.2 + 1)).findSome? (fun y =>
        (intRange p.preMinT.1 (p.preMaxT.1 + 1)).findSome? (fun x =>
          let tile := getTileAt cfg x y
          if 0 < tile ∧ (cfg.collisionMap tile).collideSouth = true then
            some (((y * p.ts - p.preMax.2 : ℤ) : ℚ) / (p.speed.2 : ℚ) + p.lt, tile, x, y,
              DIRECTION_NORTH)
          else none)) with
    | none =>
      rw [hfs] at h
      rw [← h, Option.getD_none]
      unfold tileSentinel
      exact ⟨h1, le_refl 1⟩
    | some v =>
      rw [hfs] at h
      obtain ⟨y, hy, hinner⟩ := findSome?_eq_some_imp hfs
      obtain ⟨x, hx, hcell⟩ := findSome?_eq_some_imp hinner
      dsimp only at hcell
      split at hcell
      · replace hcell := Option.some.inj hcell
        rw [← h, Option.getD_some, ← hcell]
        obtain ⟨hylo, hyhi⟩ := mem_intRange.mp hy
        rw [hpreMaxT] at hN hylo
        rw [hpostMaxT] at hN hyhi
        dsimp only at hN hylo hyhi
        have := scanPos_bounds (x := y) hts h0 h1 hpmax2 hN hylo (by omega)
        rw [hts', hsp, hlt]
        exact ⟨this.1, le_of_lt this.2⟩
      · exact Option.noConfusion hcell
  · -- south scan
    replace h := Option.some.inj h
    cases hfs : (intRangeDesc (p.preMinT.2 - 1) (p.postMinT.2 - 1)).findSome? (fun y =>
        (intRange p.preMinT.1 (p.preMaxT.1 + 1)).findSome? (fun x =>
          let tile := getTileAt cfg x y
          if 0 < tile ∧ (cfg.collisionMap tile).collideNorth = true then
            some ((((y + 1) * p.ts - p.preMin.2 : ℤ) : ℚ) / (p.speed.2 : ℚ) + p.lt, tile,
              x, y, DIRECTION_SOUTH)
          else none)) with
    | none =>
      rw [hfs] at h
      rw [← h, Option.getD_none]
      unfold tileSentinel
      exact ⟨h1, le_refl 1⟩
    | some v =>
      rw [hfs] at h
      obtain ⟨y, hy, hinner⟩ := findSome?_eq_some_imp hfs
      obtain ⟨x, hx, hcell⟩ := findSome?_eq_some_imp hinner
      dsimp only at hcell
      split at hcell
      · replace hcell := Option.some.inj hcell
        rw [← h, Option.getD_some, ← hcell]
        obtain ⟨hylo, hyhi⟩ := mem_intRangeDesc.mp hy
        rw [hpostminT] at hS hylo
        rw [hminT] at hS hyhi
        dsimp only at hS hylo hyhi
        have := scanNeg_bounds (x := y) hts h0 h1 hpmin2 hS (by omega) hyhi
        rw [hts', hsp, hlt]
        exact ⟨this.1, le_of_lt this.2⟩
      · exact Option.noConfusion hcell

theorem mul_ts_ge_of_gt_maxT {v x ts : ℤ} (hts : 0 < ts) (hx : (v - 1).fdiv ts < x) :
    v ≤ x * ts := by
  have h2 := lt_fdiv_add_one_mul (v := v - 1) hts
  nlinarith [mul_le_mul_of_nonneg_right (by omega : (v - 1).fdiv ts + 1 ≤ x) (le_of_lt hts)]

theorem speed_neg_of_minT_lt {pre post s : ℤ} {lt : ℚ} (h1 : lt ≤ 1)
    (hpost : post = ratTrunc ((pre : ℚ) + (s : ℚ) * (1 - lt)))
    (h : post < pre) : (s : ℚ) < 0 := by
  have hsp : (s : ℚ) * (1 - lt) < 0 := by
    by_contra hcon
    have hv : ((pre : ℤ) : ℚ) ≤ (pre : ℚ) + (s : ℚ) * (1 - lt) := by
      push_cast
      linarith [not_lt.mp hcon]
    have := int_le_ratTrunc hv
    omega
  rcases lt_trichotomy (s : ℚ) 0 with hc | hc | hc
  · exact hc
  · rw [hc] at hsp; nlinarith
  · nlinarith

theorem speed_pos_of_maxT_lt {pre post s : ℤ} {lt : ℚ} (h1 : lt ≤ 1)
    (hpost : post = ratTrunc ((pre : ℚ) + (s : ℚ) * (1 - lt)))
    (h : pre < post) : (0 : ℚ) < (s : ℚ) := by
  have hsp : (0 : ℚ) < (s : ℚ) * (1 - lt) := by
    by_contra hcon
    have hv : (pre : ℚ) + (s : ℚ) * (1 - lt) ≤ ((pre : ℤ) : ℚ) := by
      push_cast
      linarith [not_lt.mp hcon]
    have := ratTrunc_le_int hv
    omega
  rcases lt_trichotomy (s : ℚ) 0 with hc | hc | hc
  · nlinarith
  · rw [hc] at hsp; nlinarith
  · exact hc

theorem tileRunScan_bounds (cfg : WorldConfig) (p : TilePre)
    (raster : ℤ → ℤ → Bool) (cells : List (ℤ × ℤ)) (t0 t1 : ℤ × ℤ → XRat)
    (flagA flagB : CollisionMap → Bool) (dirA dirB : ℤ)
    (h0 : 0 ≤ p.lt) (h1 : p.lt ≤ 1)
    (hH : ∀ c ∈ cells,
      ¬(p.preMinT.1 ≤ c.1 ∧ c.1 ≤ p.preMaxT.1 ∧
          p.preMinT.2 ≤ c.2 ∧ c.2 ≤ p.preMaxT.2) →
      (XRat.leB (t1 c) (t0 c) = true → xnnB (t0 c) = true) ∧
      (XRat.leB (t1 c) (t0 c) = false → xnnB (t1 c) = true)) :
    p.lt ≤ (tileRunScan cfg p raster cells t0 t1 flagA flagB dirA dirB).1 ∧
      (tileRunScan cfg p raster cells t0 t1 flagA flagB dirA dirB).1 ≤ 1 := by
  have hstep : ∀ c ∈ cells, ∀ st, (0 ≤ st.toi ∧ st.toi ≤ 1 - p.lt) →
      (∀ r, tileScanStep cfg p raster t0 t1 flagA flagB dirA dirB c st = .error r →
        p.lt ≤ r.1 ∧ r.1 ≤ 1) ∧
      (∀ st2, tileScanStep cfg p raster t0 t1 flagA flagB dirA dirB c st = .ok st2 →
        0 ≤ st2.toi ∧ st2.toi ≤ 1 - p.lt) := by
    intro c hc st hP
    unfold tileScanStep
    by_cases hskip : (p.preMinT.1 ≤ c.1 ∧ c.1 ≤ p.preMaxT.1 ∧
        p.preMinT.2 ≤ c.2 ∧ c.2 ≤ p.preMaxT.2) ∨ raster c.1 c.2 = false
    · rw [if_pos hskip]
      exact ⟨(fun r hr => nomatch hr), fun st2 h2 => (Except.ok.inj h2) ▸ hP⟩
    · rw [if_neg hskip]
      dsimp only
      have hrect : ¬(p.preMinT.1 ≤ c.1 ∧ c.1 ≤ p.preMaxT.1 ∧
          p.preMinT.2 ≤ c.2 ∧ c.2 ≤ p.preMaxT.2) := fun hh => hskip (Or.inl hh)
      obtain ⟨hA, hB⟩ := hH c hc hrect
      by_cases htile : 0 < getTileAt cfg c.1 c.2
      · rw [if_pos htile]
        by_cases hle : XRat.leB (t1 c) (t0 c) = true
        · rw [if_pos hle]
          by_cases hupd : (flagA (cfg.collisionMap (getTileAt cfg c.1 c.2)) &&
              XRat.ltB (t0 c) (.fin st.toi)) = true
          · rw [if_pos hupd]
            simp only [Bool.and_eq_true] at hupd
            obtain ⟨q, hq, hq0, hqlt⟩ := ltB_fin_elim (hA hle) hupd.2
            by_cases hfy : st.foundY = true
            · rw [if_pos hfy]
              refine ⟨fun r hr => ?_, (fun st2 h2 => nomatch h2)⟩
              replace hr := Except.error.inj hr
              rw [← hr, hq]
              constructor
              · simp only [XRat.finD]
                linarith
              · simp only [XRat.finD]
                linarith [hP.2]
            · rw [if_neg hfy]
              refine ⟨(fun r hr => nomatch hr), fun st2 h2 => ?_⟩
              replace h2 := Except.ok.inj h2
              rw [← h2, hq]
              constructor
              · simp only [XRat.finD]
                linarith
              · simp only [XRat.finD]
                linarith [hP.2]
          · rw [if_neg hupd]
            exact ⟨(fun r hr => nomatch hr), fun st2 h2 => (Except.ok.inj h2) ▸ hP⟩
        · rw [if_neg hle]
          by_cases hupd : (flagB (cfg.collisionMap (getTileAt cfg c.1 c.2)) &&
              XRat.ltB (t1 c) (.fin st.toi)) = true
          · rw [if_pos hupd]
            simp only [Bool.and_eq_true] at hupd
            obtain ⟨q, hq, hq0, hqlt⟩ :=
              ltB_fin_elim (hB (Bool.not_eq_true _ ▸ Bool.eq_false_iff.mpr hle)) hupd.2
            by_cases hfx : st.foundX = true
            · rw [if_pos hfx]
              refine ⟨fun r hr => ?_, (fun st2 h2 => nomatch h2)⟩
              replace hr := Except.error.inj hr
              rw [← hr, hq]
              constructor
              · simp only [XRat.finD]
                linarith
              · simp only [XRat.finD]
                linarith [hP.2]
            · rw [if_neg hfx]
              refine ⟨(fun r hr => nomatch hr), fun st2 h2 => ?_⟩
              replace h2 := Except.ok.inj h2
              rw [← h2, hq]
              constructor
              · simp only [XRat.finD]
                linarith
              · simp only [XRat.finD]
                linarith [hP.2]
          · rw [if_neg hupd]
            exact ⟨(fun r hr => nomatch hr), fun st2 h2 => (Except.ok.inj h2) ▸ hP⟩
      · rw [if_neg htile]
        exact ⟨(fun r hr => nomatch hr), fun st2 h2 => (Except.ok.inj h2) ▸ hP⟩
  have hinv := tileScanLoop_inv _ _ _ cells hstep
    ⟨1 - p.lt, 0, 0, 0, DIRECTION_NONE, false, false⟩
    ⟨show (0 : ℚ) ≤ 1 - p.lt by linarith, le_refl _⟩
  unfold tileRunScan
  match hres : tileScanLoop (tileScanStep cfg p raster t0 t1 flagA flagB dirA dirB)
      cells ⟨1 - p.lt, 0, 0, 0, DIRECTION_NONE, false, false⟩ with
  | .error r =>
    dsimp only
    exact hinv.1 r hres
  | .ok st =>
    have hPst := hinv.2 st hres
    dsimp only
    split
    · constructor
      · dsimp only
        linarith [hPst.1]
      · dsimp only
        linarith [hPst.2]
    · unfold tileSentinel
      exact ⟨h1, le_refl 1⟩

theorem leB_false_ltB {a b : XRat} (h : XRat.leB a b = false) :
    XRat.ltB b a = true := by
  simpa [XRat.leB] using h

theorem fdiv_lt_imp {a b ts : ℤ} (hts : 0 < ts) (h : a.fdiv ts < b.fdiv ts) :
    a < b := by
  by_contra hcon
  exact absurd (fdiv_le_fdiv hts (not_lt.mp hcon)) (not_le.mpr h)

theorem tileDiagonal_bounds (cfg : WorldConfig) (collider : CollisionObject)
    (hts : 0 < cfg.tileSize) (h0 : 0 ≤ collider.localTime)
    (h1 : collider.localTime ≤ 1) :
    collider.localTime ≤
        (tileDiagonal cfg collider.boundingBox (tilePre cfg collider)).1 ∧
      (tileDiagonal cfg collider.boundingBox (tilePre cfg collider)).1 ≤ 1 := by
  obtain ⟨hts', hlt, hsp, hpmin1, hpmin2, hpmax1, hpmax2, hminT, hpostminT⟩ :=
    tilePre_fields cfg collider
  obtain ⟨hpreMaxT, hpostMaxT⟩ := tilePre_maxT cfg collider hts
  set p := tilePre cfg collider with hp
  have h0' : 0 ≤ p.lt := hlt ▸ h0
  have h1' : p.lt ≤ 1 := hlt ▸ h1
  unfold tileDiagonal
  dsimp only
  split_ifs with hs1 hs2 hs2
  · -- speeds (+, +)
    have hq1 : (0 : ℚ) < (p.speed.1 : ℚ) := by exact_mod_cast hs1
    have hq2 : (0 : ℚ) < (p.speed.2 : ℚ) := by exact_mod_cast hs2
    rw [← hlt]
    refine tileRunScan_bounds cfg p _ _ _ _ _ _ _ _ h0' h1' ?_
    · intro c hc hrect
      obtain ⟨hcx, hcy⟩ := mem_cellsOf.mp hc
      obtain ⟨hx1, hx2⟩ := mem_intRange.mp hcx
      obtain ⟨hy1, hy2⟩ := mem_intRange.mp hcy
      by_cases hxm : c.1 ≤ p.preMaxT.1
      · have hym : ¬ c.2 ≤ p.preMaxT.2 := fun hh => hrect ⟨hx1, hxm, hy1, hh⟩
        have hnum : (0 : ℚ) ≤ ((c.2 * p.ts - p.preMax.2 : ℤ) : ℚ) := by
          have : p.preMax.2 ≤ c.2 * p.ts := by
            rw [hts']
            exact mul_ts_ge_of_gt_maxT hts (by rw [hpreMaxT] at hym; omega)
          exact_mod_cast sub_nonneg.mpr (by exact_mod_cast this)
        have hxnn : xnnB (npDiv ((c.2 * p.ts - p.preMax.2 : ℤ) : ℚ) (p.speed.2 : ℚ)) =
            true := npDiv_nonneg_of_pos hnum hq2
        exact ⟨fun hle => xnnB_of_leB hxnn hle, fun _ => hxnn⟩
      · have hnum : (0 : ℚ) ≤ ((c.1 * p.ts - p.preMax.1 : ℤ) : ℚ) := by
          have : p.preMax.1 ≤ c.1 * p.ts := by
            rw [hts']
            exact mul_ts_ge_of_gt_maxT hts (by rw [hpreMaxT] at hxm; omega)
          exact_mod_cast sub_nonneg.mpr (by exact_mod_cast this)
        have hxnn : xnnB (npDiv ((c.1 * p.ts - p.preMax.1 : ℤ) : ℚ) (p.speed.1 : ℚ)) =
            true := npDiv_nonneg_of_pos hnum hq1
        exact ⟨fun _ => hxnn, fun hle => xnnB_of_ltB hxnn (leB_false_ltB hle)⟩
  · -- speeds (+, -)
    have hq1 : (0 : ℚ) < (p.speed.1 : ℚ) := by exact_mod_cast hs1
    rw [← hlt]
    refine tileRunScan_bounds cfg p _ _ _ _ _ _ _ _ h0' h1' ?_
    · intro c hc hrect
      obtain ⟨hcx, hcy⟩ := mem_cellsOf.mp hc
      obtain ⟨hx1, hx2⟩ := mem_intRange.mp hcx
      obtain ⟨hy1, hy2⟩ := mem_intRangeDesc.mp hcy
      by_cases hxm : c.1 ≤ p.preMaxT.1
      · have hym : ¬ p.preMinT.2 ≤ c.2 := fun hh => hrect ⟨hx1, hxm, hh, hy2⟩
        have hlt2 : p.postMin.2 < p.preMin.2 := by
          apply fdiv_lt_imp hts
          rw [hminT, hpostminT] at *
          dsimp only at hy1 hym ⊢
          omega
        have hq2 : (p.speed.2 : ℚ) < 0 := speed_neg_of_minT_lt h1 hpmin2 hlt2
        have hnum : (((c.2 + 1) * p.ts - p.preMin.2 : ℤ) : ℚ) ≤ 0 := by
          have : (c.2 + 1) * p.ts ≤ p.preMin.2 := by
            rw [hts']
            apply mul_le_of_le_fdiv hts
            rw [hminT] at hym
            dsimp only at hym
            omega
          exact_mod_cast sub_nonpos.mpr (by exact_mod_cast this)
        have hxnn : xnnB (npDiv (((c.2 + 1) * p.ts - p.preMin.2 : ℤ) : ℚ)
            (p.speed.2 : ℚ)) = true := npDiv_nonneg_of_neg hnum hq2
        exact ⟨fun hle => xnnB_of_leB hxnn hle, fun _ => hxnn⟩
      · have hnum : (0 : ℚ) ≤ ((c.1 * p.ts - p.preMax.1 : ℤ) : ℚ) := by
          have : p.preMax.1 ≤ c.1 * p.ts := by
            rw [hts']
            exact mul_ts_ge_of_gt_maxT hts (by rw [hpreMaxT] at hxm; omega)
          exact_mod_cast sub_nonneg.mpr (by exact_mod_cast this)
        have hxnn : xnnB (npDiv ((c.1 * p.ts - p.preMax.1 : ℤ) : ℚ) (p.speed.1 : ℚ)) =
            true := npDiv_nonneg_of_pos hnum hq1
        exact ⟨fun _ => hxnn, fun hle => xnnB_of_ltB hxnn (leB_false_ltB hle)⟩
  · -- speeds (-, +)
    have hq2 : (0 : ℚ) < (p.speed.2 : ℚ) := by exact_mod_cast hs2
    rw [← hlt]
    refine tileRunScan_bounds cfg p _ _ _ _ _ _ _ _ h0' h1' ?_
    · intro c hc hrect
      obtain ⟨hcx, hcy⟩ := mem_cellsOf.mp hc
      obtain ⟨hx1, hx2⟩ := mem_intRangeDesc.mp hcx
      obtain ⟨hy1, hy2⟩ := mem_intRange.mp hcy
      by_cases hym : c.2 ≤ p.preMaxT.2
      · have hxm : ¬ p.preMinT.1 ≤ c.1 := fun hh => hrect ⟨hh, hx2, hy1, hym⟩
        have hlt1 : p.postMin.1 < p.preMin.1 := by
          apply fdiv_lt_imp hts
          rw [hminT, hpostminT] at *
          dsimp only at hx1 hxm ⊢
          omega
        have hq1 : (p.speed.1 : ℚ) < 0 := speed_neg_of_minT_lt h1 hpmin1 hlt1
        have hnum : (((c.1 + 1) * p.ts - p.preMin.1 : ℤ) : ℚ) ≤ 0 := by
          have : (c.1 + 1) * p.ts ≤ p.preMin.1 := by
            rw [hts']
            apply mul_le_of_le_fdiv hts
            rw [hminT] at hxm
            dsimp only at hxm
            omega
          exact_mod_cast sub_nonpos.mpr (by exact_mod_cast this)
        have hxnn : xnnB (npDiv (((c.1 + 1) * p.ts - p.preMin.1 : ℤ) : ℚ)
            (p.speed.1 : ℚ)) = true := npDiv_nonneg_of_neg hnum hq1
        exact ⟨fun _ => hxnn, fun hle => xnnB_of_ltB hxnn (leB_false_ltB hle)⟩
      · have hnum : (0 : ℚ) ≤ ((c.2 * p.ts - p.preMax.2 : ℤ) : ℚ) := by
          have : p.preMax.2 ≤ c.2 * p.ts := by
            rw [hts']
            exact mul_ts_ge_of_gt_maxT hts (by rw [hpreMaxT] at hym; omega)
          exact_mod_cast sub_nonneg.mpr (by exact_mod_cast this)
        have hxnn : xnnB (npDiv ((c.2 * p.ts - p.preMax.2 : ℤ) : ℚ) (p.speed.2 : ℚ)) =
            true := npDiv_nonneg_of_pos hnum hq2
        exact ⟨fun hle => xnnB_of_leB hxnn hle, fun _ => hxnn⟩
  · -- speeds (-, -)
    rw [← hlt]
    refine tileRunScan_bounds cfg p _ _ _ _ _ _ _ _ h0' h1' ?_
    · intro c hc hrect
      obtain ⟨hcx, hcy⟩ := mem_cellsOf.mp hc
      obtain ⟨hx1, hx2⟩ := mem_intRangeDesc.mp hcx
      obtain ⟨hy1, hy2⟩ := mem_intRangeDesc.mp hcy
      by_cases hxm : p.preMinT.1 ≤ c.1
      · have hym : ¬ p.preMinT.2 ≤ c.2 := fun hh => hrect ⟨hxm, hx2, hh, hy2⟩
        have hlt2 : p.postMin.2 < p.preMin.2 := by
          apply fdiv_lt_imp hts
          rw [hminT, hpostminT] at *
          dsimp only at hy1 hym ⊢
          omega
        have hq2 : (p.speed.2 : ℚ) < 0 := speed_neg_of_minT_lt h1 hpmin2 hlt2
        have hnum : (((c.2 + 1) * p.ts - p.preMin.2 : ℤ) : ℚ) ≤ 0 := by
          have : (c.2 + 1) * p.ts ≤ p.preMin.2 := by
            rw [hts']
            apply mul_le_of_le_fdiv hts
            rw [hminT] at hym
            dsimp only at hym
            omega
          exact_mod_cast sub_nonpos.mpr (by exact_mod_cast this)
        have hxnn : xnnB (npDiv (((c.2 + 1) * p.ts - p.preMin.2 : ℤ) : ℚ)
            (p.speed.2 : ℚ)) = true := npDiv_nonneg_of_neg hnum hq2
        exact ⟨fun hle => xnnB_of_leB hxnn hle, fun _ => hxnn⟩
      · have hlt1 : p.postMin.1 < p.preMin.1 := by
          apply fdiv_lt_imp hts
          rw [hminT, hpostminT] at *
          dsimp only at hx1 hxm ⊢
          omega
        have hq1 : (p.speed.1 : ℚ) < 0 := speed_neg_of_minT_lt h1 hpmin1 hlt1
        have hnum : (((c.1 + 1) * p.ts - p.preMin.1 : ℤ) : ℚ) ≤ 0 := by
          have : (c.1 + 1) * p.ts ≤ p.preMin.1 := by
            rw [hts']
            apply mul_le_of_le_fdiv hts
            rw [hminT] at hxm
            dsimp only at hxm
            omega
          exact_mod_cast sub_nonpos.mpr (by exact_mod_cast this)
        have hxnn : xnnB (npDiv (((c.1 + 1) * p.ts - p.preMin.1 : ℤ) : ℚ)
            (p.speed.1 : ℚ)) = true := npDiv_nonneg_of_neg hnum hq1
        exact ⟨fun _ => hxnn, fun hle => xnnB_of_ltB hxnn (leB_false_ltB hle)⟩

/-- Every result of `_tile_collision_detection` (sentinel included) carries a
reported time in `[local_time, 1]` when the collider's local time is in
`[0, 1]` and the tile size is positive. -/
theorem tileCollisionDetection_bounds (cfg : WorldConfig)
    (collider : CollisionObject) (hts : 0 < cfg.tileSize)
    (h0 : 0 ≤ collider.localTime) (h1 : collider.localTime ≤ 1) :
    collider.localTime ≤ (tileCollisionDetection cfg collider).1 ∧
      (tileCollisionDetection cfg collider).1 ≤ 1 := by
  unfold tileCollisionDetection
  dsimp only
  split_ifs with hfoot
  · unfold tileSentinel
    exact ⟨h1, le_refl 1⟩
  · cases haxis : tileAxisScan cfg (tilePre cfg collider) with
    | some r =>
      dsimp only
      exact tileAxisScan_bounds cfg collider hts h0 h1 haxis
    | none =>
      dsimp only
      exact tileDiagonal_bounds cfg collider hts h0 h1

theorem satBindingImpact_nonneg (A B : CollisionObject) :
    0 ≤ satBindingImpact A B := by
  have h0 : 0 ≤ satBindingAxis0 A B := by
    unfold satBindingAxis0
    split_ifs
    · exact le_max_left 0 _
    · exact le_refl 0
  unfold satBindingImpact
  split_ifs
  · exact le_trans h0 (le_max_left _ _)
  · exact h0

/-- `_apply_sat` after normalization reports a time in `[local_time, 1]`. -/
theorem applySatCore_bounds (A B : CollisionObject)
    (h0 : 0 ≤ A.localTime) (h1 : A.localTime ≤ 1) :
    A.localTime ≤ (applySatCore A B).1 ∧ (applySatCore A B).1 ≤ 1 := by
  rw [applySatCore_eval]
  split_ifs with hE hOk
  · exact ⟨h1, le_refl 1⟩
  · dsimp only
    constructor
    · linarith [satBindingImpact_nonneg A B]
    · linarith [hOk.2]
  · exact ⟨h1, le_refl 1⟩

/-- `_apply_sat` reports a time at or after both local times and at most 1. -/
theorem applySat_bounds (A B : CollisionObject)
    (h0A : 0 ≤ A.localTime) (h1A : A.localTime ≤ 1)
    (h0B : 0 ≤ B.localTime) (h1B : B.localTime ≤ 1) :
    A.localTime ≤ (applySat A B).1 ∧ B.localTime ≤ (applySat A B).1 ∧
      (applySat A B).1 ≤ 1 := by
  unfold applySat
  split_ifs with hswap
  · dsimp only
    obtain ⟨hb, hb1⟩ := applySatCore_bounds B A h0B h1B
    exact ⟨le_trans (le_of_lt hswap) hb, hb, hb1⟩
  · obtain ⟨ha, ha1⟩ := applySatCore_bounds A B h0A h1A
    exact ⟨ha, le_trans (not_lt.mp hswap) ha, ha1⟩

theorem fetchNextStep_mem (events acc : List CollisionPseudoEvent)
    (ev a : CollisionPseudoEvent) (ha : a ∈ fetchNextStep events acc ev) :
    a ∈ acc ∨ a = ev := by
  unfold fetchNextStep at ha
  split_ifs at ha
  · exact Or.inl ha
  · exact Or.inl ha
  · rcases List.mem_append.mp ha with h | h
    · exact Or.inl h
    · exact Or.inr (List.mem_singleton.mp h)

theorem fetchFold_sub (events : List CollisionPseudoEvent) :
    ∀ (rest acc : List CollisionPseudoEvent), ∀ a ∈ rest.foldl (fetchNextStep events) acc,
      a ∈ acc ∨ a ∈ rest := by
  intro rest
  induction rest with
  | nil => intro acc a ha; exact Or.inl ha
  | cons x xs ih =>
    intro acc a ha
    rcases ih _ a ha with h | h
    · rcases fetchNextStep_mem events acc x a h with h2 | h2
      · exact Or.inl h2
      · exact Or.inr (h2 ▸ List.mem_cons_self x xs)
    · exact Or.inr (List.mem_cons_of_mem x h)

theorem insertAll_leaf (b : Aabb) (c : ℚ × ℚ) (mi md : ℕ) :
    ∀ (objs ns : List CollisionObject) (t : QuadTree),
      QuadTree.insertAll (QuadTree.mk b c mi md ns none) objs = some t →
      t = QuadTree.mk b c mi md (ns ++ objs) none := by
  intro objs
  induction objs with
  | nil =>
    intro ns t h
    unfold QuadTree.insertAll at h
    rw [List.foldlM_nil] at h
    rw [← Option.some.inj h, List.append_nil]
  | cons o os ih =>
    intro ns t h
    unfold QuadTree.insertAll at h
    rw [List.foldlM_cons] at h
    unfold QuadTree.insert at h
    dsimp only at h
    split_ifs at h with hcap
    · exact Option.noConfusion h
    · have := ih (ns ++ [o]) t h
      rw [this, List.append_assoc]
      rfl

theorem query_leaf_sub (b : Aabb) (c : ℚ × ℚ) (mi md : ℕ)
    (ns : List CollisionObject) (q : Aabb) :
    ∀ x ∈ QuadTree.query (QuadTree.mk b c mi md ns none) q, x ∈ ns := by
  unfold QuadTree.query QuadTree.intersect
  dsimp only
  have hfold : ∀ (l : List CollisionObject) (acc : List CollisionObject × List ℕ),
      ∀ x ∈ (l.foldl (fun acc2 node =>
        if node.index ∉ acc2.2 ∧ q.intersects node.boundingBoxExpanded then
          (acc2.1 ++ [node], acc2.2 ++ [node.index])
        else acc2) acc).1, x ∈ acc.1 ∨ x ∈ l := by
    intro l
    induction l with
    | nil => intro acc x hx; exact Or.inl hx
    | cons n l2 ih =>
      intro acc x hx
      rcases ih _ x hx with h | h
      · dsimp only at h
        by_cases hcond : n.index ∉ acc.2 ∧ q.intersects n.boundingBoxExpanded
        · rw [if_pos hcond] at h
          rcases List.mem_append.mp h with h2 | h2
          · exact Or.inl h2
          · exact Or.inr ((List.mem_singleton.mp h2) ▸ List.mem_cons_self n l2)
        · rw [if_neg hcond] at h
          exact Or.inl h
      · exact Or.inr (List.mem_cons_of_mem n h)
  intro x hx
  rcases hfold ns ([], []) x hx with h | h
  · exact absurd h (List.not_mem_nil x)
  · exact h

/-- The entity indices an event advances: both colliders of an entity event,
the first collider of a tile event. -/
def eventEntityIndices (e : CollisionPseudoEvent) : List ℤ :=
  if e.collisionType = COLLISION_ENTITY then e.colliders else e.colliders.take 1

/-- The claim-C5 property of one pseudo-event: its impact time lies in
`[0, 1]` and is at or after the current local time of every entity it
advances. -/
def eventWithin (lts : List ℚ) (e : CollisionPseudoEvent) : Prop :=
  (0 ≤ e.timeOfImpact ∧ e.timeOfImpact ≤ 1) ∧
  ∀ i ∈ eventEntityIndices e, lts.getD i.toNat 0 ≤ e.timeOfImpact

theorem objs_spec (entities : List Entity) (lts : List ℚ)
    (hl : ∀ t ∈ lts, 0 ≤ t ∧ t ≤ 1) :
    ∀ o ∈ (entities.zip lts).enum.map (fun p => mkCollisionObject p.1 p.2.1 p.2.2),
      o.localTime = lts.getD o.index 0 ∧ 0 ≤ o.localTime ∧ o.localTime ≤ 1 := by
  intro o ho
  simp only [List.mem_map] at ho
  obtain ⟨q, hq, rfl⟩ := ho
  have hz : (entities.zip lts).get? q.1 = some q.2 := List.mem_enum_iff_get?.mp hq
  have ht : lts.get? q.1 = some q.2.2 := by
    rw [List.get?_eq_getElem?] at hz ⊢
    rw [List.getElem?_zip_eq_some] at hz
    exact hz.2
  have htmem : q.2.2 ∈ lts := List.get?_mem ht
  have hgd : lts.getD q.1 0 = q.2.2 := by
    rw [List.getD_eq_getElem?_getD, ← List.get?_eq_getElem?, ht]
    rfl
  refine ⟨?_, (hl _ htmem).1, (hl _ htmem).2⟩
  show q.2.2 = lts.getD q.1 0
  rw [hgd]

/-- The invariant of the per-snapshot search state: the running impact time
never exceeds 1, and once something is found it is nonnegative and at or
after the local time of every entity the eventual event would advance. -/
def searchInv (lts : List ℚ) (st : EventSearchState) : Prop :=
  st.timeOfImpact ≤ 1 ∧
  (st.eventFound = true →
    0 ≤ st.timeOfImpact ∧
    ∀ i ∈ (if st.collisionType = COLLISION_ENTITY then st.colliders
        else st.colliders.take 1),
      lts.getD i.toNat 0 ≤ st.timeOfImpact)

theorem processOneCollision_inv (cfg : WorldConfig) (tree : QuadTree)
    (obj : CollisionObject) (lts : List ℚ) (hts : 0 < cfg.tileSize)
    (hobj : obj.localTime = lts.getD obj.index 0 ∧ 0 ≤ obj.localTime ∧
      obj.localTime ≤ 1)
    (hquery : ∀ o ∈ tree.query obj.boundingBoxExpanded,
      o.localTime = lts.getD o.index 0 ∧ 0 ≤ o.localTime ∧ o.localTime ≤ 1) :
    searchInv lts (processOneCollision cfg tree obj) := by
  unfold processOneCollision
  dsimp only
  have hfold : ∀ (others : List CollisionObject),
      (∀ o ∈ others, o.localTime = lts.getD o.index 0 ∧ 0 ≤ o.localTime ∧
        o.localTime ≤ 1) →
      ∀ st, searchInv lts st →
      searchInv lts (others.foldl
        (fun st collided =>
          if cfg.logicEntity = true ∧ obj.index < collided.index ∧
              shouldCollideWith cfg.issub obj collided = true ∧
              shouldCollideWith cfg.issub collided obj = true then
            let r := applySat obj collided
            if r.2 ≠ DIRECTION_NONE ∧ r.1 < st.timeOfImpact then
              ⟨r.1, [(obj.index : ℤ), (collided.index : ℤ)], COLLISION_ENTITY,
                r.2, true⟩
            else st
          else st) st) := by
    intro others
    induction others with
    | nil => intro _ st h; exact h
    | cons collided rest ih =>
      intro hmem st h
      rw [List.foldl_cons]
      refine ih (fun o ho => hmem o (List.mem_cons_of_mem _ ho)) _ ?_
      dsimp only
      split_ifs with hguard hbetter
      · obtain ⟨hoc, h0c, h1c⟩ := hmem collided (List.mem_cons_self _ _)
        obtain ⟨hbound1, hbound2, hbound3⟩ :=
          applySat_bounds obj collided hobj.2.1 hobj.2.2 h0c h1c
        refine ⟨hbound3, fun _ => ⟨le_trans hobj.2.1 hbound1, ?_⟩⟩
        dsimp only
        rw [if_pos rfl]
        intro i hi
        rcases List.mem_cons.mp hi with rfl | hi2
        · rw [Int.toNat_natCast, ← hobj.1]
          exact hbound1
        · rcases List.mem_cons.mp hi2 with rfl | hi3
          · rw [Int.toNat_natCast, ← hoc]
            exact hbound2
          · exact absurd hi3 (List.not_mem_nil _)
      · exact h
      · exact h
  have hst1 := hfold (tree.query obj.boundingBoxExpanded) hquery
    ⟨1, [], COLLISION_NONE, DIRECTION_NONE, false⟩
    ⟨le_refl 1, fun hfalse => by cases hfalse⟩
  split_ifs with htileOn hbetter
  · obtain ⟨ht1, ht2⟩ := tileCollisionDetection_bounds cfg obj hts hobj.2.1 hobj.2.2
    refine ⟨ht2, fun _ => ⟨le_trans hobj.2.1 ht1, ?_⟩⟩
    dsimp only
    rw [if_neg (by unfold COLLISION_TILE COLLISION_ENTITY; omega)]
    intro i hi
    have h4 : i = (obj.index : ℤ) := by simpa using hi
    rw [h4, Int.toNat_natCast, ← hobj.1]
    exact ht1
  · exact hst1
  · exact hst1

theorem searchInv_event (lts : List ℚ) (st : EventSearchState)
    (h : searchInv lts st) :
    eventWithin lts ⟨st.timeOfImpact, st.colliders, st.collisionType,
      st.collisionDirection⟩ ∨ st.eventFound = false := by
  cases hf : st.eventFound with
  | false => exact Or.inr rfl
  | true =>
    obtain ⟨h1, h2⟩ := h
    obtain ⟨h0, hidx⟩ := h2 hf
    exact Or.inl ⟨⟨h0, h1⟩, by unfold eventEntityIndices; exact hidx⟩

theorem processCollisionEvents_bounds (cfg : WorldConfig) (lts : List ℚ)
    (tree : QuadTree) (hts : 0 < cfg.tileSize)
    (hquery : ∀ (q : Aabb), ∀ o ∈ tree.query q,
      o.localTime = lts.getD o.index 0 ∧ 0 ≤ o.localTime ∧ o.localTime ≤ 1) :
    ∀ (objs : List CollisionObject),
      (∀ o ∈ objs, o.localTime = lts.getD o.index 0 ∧ 0 ≤ o.localTime ∧
        o.localTime ≤ 1) →
      ∀ e ∈ processCollisionEvents cfg objs tree, eventWithin lts e := by
  have hgen : ∀ (objs : List CollisionObject),
      (∀ o ∈ objs, o.localTime = lts.getD o.index 0 ∧ 0 ≤ o.localTime ∧
        o.localTime ≤ 1) →
      ∀ (acc : List CollisionPseudoEvent), (∀ e ∈ acc, eventWithin lts e) →
      ∀ e ∈ objs.foldl
        (fun events obj =>
          let st2 := processOneCollision cfg tree obj
          if st2.eventFound then
            events ++ [⟨st2.timeOfImpact, st2.colliders, st2.collisionType,
              st2.collisionDirection⟩]
          else events)
        acc, eventWithin lts e := by
    intro objs
    induction objs with
    | nil => intro _ acc hacc e he; exact hacc e he
    | cons obj rest ih =>
      intro hobjs acc hacc
      rw [List.foldl_cons]
      refine ih (fun o ho => hobjs o (List.mem_cons_of_mem _ ho)) _ ?_
      dsimp only
      intro e he
      split_ifs at he with hfound
      · rcases List.mem_append.mp he with h2 | h2
        · exact hacc e h2
        · rw [List.mem_singleton.mp h2]
          rcases searchInv_event lts _ (processOneCollision_inv cfg tree obj lts
              hts (hobjs obj (List.mem_cons_self _ _)) (hquery _)) with hok | hno
          · exact hok
          · rw [hfound] at hno
            cases hno
      · exact hacc e he
  intro objs hobjs e he
  exact hgen objs hobjs [] (fun e2 he2 => absurd he2 (List.not_mem_nil e2)) e he

/-- **C5**: in any round of `World.update` — i.e. for any call of
`fetch_next_events` whose local times lie in `[0, 1]`, as they do from their
initial zeros onward — every returned pseudo-event's impact time lies in
`[0, 1]`, and it is at or after the current local time of every entity the
event advances (both colliders of an entity event, the entity of a tile
event).  Since the event loop sets exactly those local times to the event's
impact time, local times never decrease across the rounds of a step and stay
in `[0, 1]`, keeping the hypothesis alive round over round. -/
theorem c5_impact_in_unit_interval_local_times_monotone
    (cfg : WorldConfig) (entities : List Entity) (lts : List ℚ)
    (hts : 0 < cfg.tileSize) (hl : ∀ t ∈ lts, 0 ≤ t ∧ t ≤ 1)
    (evs : List CollisionPseudoEvent)
    (hf : fetchNextEvents cfg entities lts = some evs) :
    ∀ e ∈ evs, (0 ≤ e.timeOfImpact ∧ e.timeOfImpact ≤ 1) ∧
      ∀ i ∈ eventEntityIndices e, lts.getD i.toNat 0 ≤ e.timeOfImpact := by
  unfold fetchNextEvents at hf
  dsimp only at hf
  cases hins : QuadTree.insertAll (QuadTree.init cfg.logicArea 32 5)
      ((entities.zip lts).enum.map (fun p => mkCollisionObject p.1 p.2.1 p.2.2)) with
  | none =>
    rw [hins] at hf
    exact Option.noConfusion hf
  | some tree =>
    rw [hins] at hf
    dsimp only at hf
    replace hf := Option.some.inj hf
    rw [show QuadTree.init cfg.logicArea 32 5 = QuadTree.mk cfg.logicArea
      (cfg.logicArea.pos.1 + cfg.logicArea.bounds.1 / 2,
       cfg.logicArea.pos.2 + cfg.logicArea.bounds.2 / 2) 32 5 [] none from rfl] at hins
    have htree := insertAll_leaf cfg.logicArea
      (cfg.logicArea.pos.1 + cfg.logicArea.bounds.1 / 2,
       cfg.logicArea.pos.2 + cfg.logicArea.bounds.2 / 2) 32 5
      ((entities.zip lts).enum.map (fun p => mkCollisionObject p.1 p.2.1 p.2.2))
      [] tree hins
    have hprops := objs_spec entities lts hl
    have hquery : ∀ (q : Aabb), ∀ o ∈ tree.query q,
        o.localTime = lts.getD o.index 0 ∧ 0 ≤ o.localTime ∧ o.localTime ≤ 1 := by
      intro q o ho
      rw [htree] at ho
      have := query_leaf_sub _ _ 32 5 _ q o ho
      rw [List.nil_append] at this
      exact hprops o this
    intro e he
    rw [← hf] at he
    unfold fetchNextFilter at he
    rcases fetchFold_sub _ _ _ e he with h2 | h2
    · exact absurd h2 (List.not_mem_nil e)
    · exact processCollisionEvents_bounds cfg lts tree hts hquery _ hprops e h2

/-- A 2x2 tile map with tile size 8 and a single fully-blocking tile at cell
`(1, 0)`; one 2x2 entity sliding east into it. -/
def c5Cfg : WorldConfig := {
  tileSize := 8
  tilesShape := (2, 2)
  tiles := fun x y => if x = 1 ∧ y = 0 then 1 else 0
  collisionMap := fun _ => ⟨true, true, true, true⟩
  logicArea := ⟨(0, 0), (32, 32)⟩
  logicTile := true
  logicEntity := true
  issub := fun _ _ => true }

def c5Ent : Entity := ⟨(2, 0), (2, 2), (8, 0), 0, [], true, false⟩

def c5Obj : CollisionObject :=
  ⟨0, ⟨(2, 0), (2, 2)⟩, ⟨(2, 0), (10, 2)⟩, (8, 0), 0, [], true, 0⟩

def c5Tree : QuadTree := QuadTree.mk ⟨(0, 0), (32, 32)⟩ (16, 16) 32 5 [c5Obj] none

def c5Ev : CollisionPseudoEvent := ⟨1/2, [0, 1, 1, 0], COLLISION_TILE, DIRECTION_EAST⟩

set_option maxHeartbeats 2000000 in
/-- Witness for C5: the single entity of `c5Cfg`'s world, at local time 0,
yields the single tile event at impact time `1/2 ∈ [0, 1]`, at or after the
entity's local time `0`. -/
theorem c5_impact_in_unit_interval_local_times_monotone_witness :
    ((0 : ℤ) < c5Cfg.tileSize ∧ (∀ t ∈ [(0 : ℚ)], 0 ≤ t ∧ t ≤ 1) ∧
      fetchNextEvents c5Cfg [c5Ent] [0] = some [c5Ev]) ∧
    ∀ e ∈ [c5Ev], (0 ≤ e.timeOfImpact ∧ e.timeOfImpact ≤ 1) ∧
      ∀ i ∈ eventEntityIndices e,
        ([(0 : ℚ)]).getD i.toNat 0 ≤ e.timeOfImpact := by
  have hobj : mkCollisionObject 0 c5Ent 0 = c5Obj := by
    norm_num [mkCollisionObject, c5Ent, c5Obj, Aabb.expand]
  have htree : QuadTree.insertAll (QuadTree.init c5Cfg.logicArea 32 5) [c5Obj] =
      some c5Tree := by
    norm_num [QuadTree.insertAll, QuadTree.init, QuadTree.insert, c5Cfg, c5Tree,
      List.foldlM_cons, List.foldlM_nil]
  have hproc : processCollisionEvents c5Cfg [c5Obj] c5Tree = [c5Ev] := by
    norm_num [processCollisionEvents, processOneCollision, c5Cfg, List.foldl_cons,
      List.foldl_nil, QuadTree.query, QuadTree.intersect, c5Tree, c5Obj,
      Aabb.intersects, shouldCollideWith, tileCollisionDetection, tilePre,
      tileFootprintUnchanged, tileAxisScan, ratTrunc, getTileAt, intRange,
      intRangeDesc, tileSentinel, DIRECTION_EAST, DIRECTION_NONE, Int.fdiv,
      List.range_succ, List.range_zero, List.findSome?_cons, List.findSome?_nil,
      List.flatMap_cons, List.flatMap_nil, List.map_cons, List.map_nil,
      Option.getD_some, COLLISION_TILE, COLLISION_NONE, c5Ev]
  have hfetch : fetchNextEvents c5Cfg [c5Ent] [0] = some [c5Ev] := by
    unfold fetchNextEvents
    rw [show (([c5Ent].zip [(0 : ℚ)]).enum.map
        (fun p => mkCollisionObject p.1 p.2.1 p.2.2)) = [c5Obj] by
      simp [List.zip, List.enum, List.enumFrom, List.zipWith]
      simpa using hobj]
    dsimp only
    rw [htree]
    dsimp only
    rw [hproc]
    norm_num [fetchNextFilter, fetchNextStep, List.foldl_cons, List.foldl_nil, c5Ev,
      CollisionPseudoEvent.eqEvent, CollisionPseudoEvent.shares,
      CollisionPseudoEvent.containsEvent, COLLISION_TILE, COLLISION_ENTITY]
  refine ⟨⟨by decide, by norm_num, hfetch⟩, ?_⟩
  exact c5_impact_in_unit_interval_local_times_monotone c5Cfg [c5Ent] [0]
    (by decide) (by norm_num) [c5Ev] hfetch
